import Mathlib

/-!
# Scene engine of `lib.js`

A shallow embedding of the entity registry of `var scene = {...}` in `lib.js`
and of the operations that read and write it, of the frame loop `scene._update` with the
shake offset and the drawing order, of the listeners of `keydown`, `keyup` and `mousedown`,
of the helpers at the top of `lib.js` and of the level manager of `levelManager.js`.

Conventions of the embedding.

* JavaScript numbers are exact rationals (`ℚ`); the handle counter `scene._guid`
  is a natural number (the source only ever applies `++` to it, starting from `0`,
  which is exact on integer-valued doubles below `2^53`).
* Objects are values: every entity owns its `position`, `size` and `info`. Writes that
  reach an entity through a shared object are covered, for the invariants of runs, by
  the step `Step.touch`, and for `movePosition`, `add` and `_physics` by the second model
  `Store`, which keeps the `position` and `info` objects by reference and has `Scene` as its
  view.
* The `info` object is the record documented by `exampleInfoForObject`; a missing
  property (`undefined`) is `none`.
* User functions (`whenDone`, `whenHit`, `click`) are opaque identifiers; calling one
  is recorded in an event log.
* `setTimeout(f, 0)` appends a task to a queue of pending tasks.
* The readings of the clock (`new Date().getTime()`), the values of `Math.random()`, the size
  of the window and the function `scene.update` are arguments of the functions that use them.
* A quotient that is not a finite number (a division by `0`) ends the function with `none`
  or with the status `notFinite`.
-/

/-- The class `Vector2`: `constructor(x, y)`. -/
structure Vector2 where
  x : ℚ
  y : ℚ
  deriving DecidableEq, Repr

namespace Vector2

/-- The method `add(otherVector2)`: `this.x += otherVector2.x; this.y += otherVector2.y`. -/
def add (a b : Vector2) : Vector2 := ⟨a.x + b.x, a.y + b.y⟩

/-- The method `substract(otherVector2)`. -/
def substract (a b : Vector2) : Vector2 := ⟨a.x - b.x, a.y - b.y⟩

/-- The method `multiply(otherVector2)`. -/
def multiply (a b : Vector2) : Vector2 := ⟨a.x * b.x, a.y * b.y⟩

end Vector2

/-- Identifier of a user supplied function. -/
abbrev Callback := Nat

/-- The `info` object of an entity, with the properties of `exampleInfoForObject`. -/
structure Info where
  type : String
  color : Option String
  background : Bool
  text : Option String
  size : Option ℚ
  autoRemove : Bool
  velocity : Option Vector2
  image : Option Nat
  multiplyGravity : Option ℚ
  bounce : Option ℚ
  whenHit : Option Callback
  click : Option Callback
  deriving DecidableEq, Repr

/-- One assignment `info[propertyName] = newValue`. -/
inductive InfoProperty where
  | type (v : String)
  | color (v : Option String)
  | background (v : Bool)
  | text (v : Option String)
  | size (v : Option ℚ)
  | autoRemove (v : Bool)
  | velocity (v : Option Vector2)
  | image (v : Option Nat)
  | multiplyGravity (v : Option ℚ)
  | bounce (v : Option ℚ)
  | whenHit (v : Option Callback)
  | click (v : Option Callback)
  deriving DecidableEq, Repr

/-- The assignment `info[propertyName] = newValue` on an `info` object. -/
def Info.setProperty (i : Info) : InfoProperty → Info
  | .type v => { i with type := v }
  | .color v => { i with color := v }
  | .background v => { i with background := v }
  | .text v => { i with text := v }
  | .size v => { i with size := v }
  | .autoRemove v => { i with autoRemove := v }
  | .velocity v => { i with velocity := v }
  | .image v => { i with image := v }
  | .multiplyGravity v => { i with multiplyGravity := v }
  | .bounce v => { i with bounce := v }
  | .whenHit v => { i with whenHit := v }
  | .click v => { i with click := v }

/-- An element of `scene._dynamic`, `scene._static` or `scene._ui`:
`{position, size, guid, info}`. -/
structure Entity where
  position : Vector2
  size : Vector2
  guid : Nat
  info : Info
  deriving DecidableEq, Repr

/-- The data fields of `var scene` that the registry, the physics step and the
auto-removal sweep read or write. -/
structure Scene where
  _dynamic : List Entity
  _static : List Entity
  _ui : List Entity
  _guid : Nat
  _shakeX : ℚ
  _shakeY : ℚ
  cameraPosition : Vector2
  physicSpeed : ℚ
  _shakeStart : ℚ
  _shakeDuration : ℚ
  _shakeIntensity : ℚ
  deriving DecidableEq, Repr

/-- A task handed to `setTimeout(..., 0)` that has not run yet. -/
inductive Timer where
  | remove (guid : Nat) (whenDone : Option Callback)
  | removeAll (whenDone : Option Callback)
  deriving DecidableEq, Repr

/-- What the engine does to the outside: calls of user functions (with the registry as it
is at the moment of the call, for `whenDone`) and an uncaught `TypeError`. -/
inductive Event where
  | whenDone (cb : Callback) (snapshot : Scene)
  | whenHit (cb : Callback) (guid : Nat)
  | typeError
  deriving DecidableEq, Repr

/-- The scene together with the pending zero-delay tasks (oldest first) and the log of
events so far. -/
structure World where
  scene : Scene
  timers : List Timer
  log : List Event
  deriving DecidableEq, Repr

namespace scene

/-- The object literal `var scene = {...}` as it is when the script has loaded. -/
def init : Scene :=
  { _dynamic := [], _static := [], _ui := [], _guid := 0, _shakeX := 0, _shakeY := 0,
    cameraPosition := ⟨0, 0⟩, physicSpeed := 1, _shakeStart := 0, _shakeDuration := 0,
    _shakeIntensity := 0 }

/-- The field `scene._gravityValue`. -/
def _gravityValue : ℚ := 9.8

/-! ### Loops over a partition -/

/-- The loop `for (var i = 0; i < n; i++) body(i)`, started at index `i` with `n`
iterations to go. The source reads the bound `xs.length` anew in each round; every body
used with `forUp` keeps the length of the array, so the bound read at loop entry is the
same number. -/
def forUp {σ : Type} (body : Nat → σ → σ) : Nat → Nat → σ → σ
  | 0, _, s => s
  | n + 1, i, s => forUp body n (i + 1) (body i s)

/-- The loop `for (var i = n - 1; i > -1; i--) body(i)`. -/
def forDown {σ : Type} (body : Nat → σ → σ) : Nat → σ → σ
  | 0, s => s
  | n + 1, s => forDown body n (body n s)

/-- The loop body `if (xs[i].guid == guid) { xs[i] = f(xs[i]) }`. -/
def assignAt (guid : Nat) (f : Entity → Entity) (i : Nat) (xs : List Entity) : List Entity :=
  match xs[i]? with
  | some e => if e.guid = guid then xs.set i (f e) else xs
  | none => xs

/-- The loop body `if (xs[i].guid == guid) { xs.splice(i, 1) }`. -/
def spliceAt (guid : Nat) (i : Nat) (xs : List Entity) : List Entity :=
  match xs[i]? with
  | some e => if e.guid = guid then xs.eraseIdx i else xs
  | none => xs

/-- The scan `for (var i = 0; i < xs.length; i++) if (xs[i].guid == guid) return xs[i]`,
at index `i` with `n` iterations to go. -/
def scanUp (guid : Nat) (xs : List Entity) : Nat → Nat → Option Entity
  | 0, _ => none
  | n + 1, i =>
    match xs[i]? with
    | some e => if e.guid = guid then some e else scanUp guid xs n (i + 1)
    | none => scanUp guid xs n (i + 1)

/-- The scan `for (var i = n - 1; i > -1; i--) if (xs[i].guid == guid) return xs[i]`. -/
def scanDown (guid : Nat) (xs : List Entity) : Nat → Option Entity
  | 0 => none
  | n + 1 =>
    match xs[n]? with
    | some e => if e.guid = guid then some e else scanDown guid xs n
    | none => scanDown guid xs n

/-! ### Creating entities -/

/-- Function `scene.add.dynamic(position, size, info)`; the result is the returned handle and
the scene after the call. -/
def add.dynamic (s : Scene) (position size : Vector2) (info : Info) : Nat × Scene :=
  if info.velocity = none then
    let newObj : Info := { info with velocity := some ⟨0, 0⟩ }
    (s._guid, { s with
      _dynamic := s._dynamic ++ [{ position := position, size := size, guid := s._guid,
                                   info := newObj }],
      _guid := s._guid + 1 })
  else
    (s._guid, { s with
      _dynamic := s._dynamic ++ [{ position := position, size := size, guid := s._guid,
                                   info := info }],
      _guid := s._guid + 1 })

/-- Function `scene.add.static(position, size, info)`. -/
def add.static (s : Scene) (position size : Vector2) (info : Info) : Nat × Scene :=
  (s._guid, { s with
    _static := s._static ++ [{ position := position, size := size, guid := s._guid,
                               info := info }],
    _guid := s._guid + 1 })

/-- Function `scene.add.ui(position, size, info)`. -/
def add.ui (s : Scene) (position size : Vector2) (info : Info) : Nat × Scene :=
  (s._guid, { s with
    _ui := s._ui ++ [{ position := position, size := size, guid := s._guid, info := info }],
    _guid := s._guid + 1 })

/-! ### Setters -/

/-- Function `scene.setVelocity(guid, velocity)`: one ascending loop over `_dynamic`. -/
def setVelocity (s : Scene) (guid : Nat) (velocity : Vector2) : Scene :=
  { s with
    _dynamic :=
      forUp (assignAt guid fun e => { e with info := { e.info with velocity := some velocity } })
        s._dynamic.length 0 s._dynamic }

/-- Function `scene.setPosition(guid, position)`: three ascending loops. -/
def setPosition (s : Scene) (guid : Nat) (position : Vector2) : Scene :=
  { s with
    _dynamic := forUp (assignAt guid fun e => { e with position := position })
      s._dynamic.length 0 s._dynamic,
    _static := forUp (assignAt guid fun e => { e with position := position })
      s._static.length 0 s._static,
    _ui := forUp (assignAt guid fun e => { e with position := position })
      s._ui.length 0 s._ui }

/-- Function `scene.setSize(guid, size)`: three ascending loops. -/
def setSize (s : Scene) (guid : Nat) (size : Vector2) : Scene :=
  { s with
    _dynamic := forUp (assignAt guid fun e => { e with size := size })
      s._dynamic.length 0 s._dynamic,
    _static := forUp (assignAt guid fun e => { e with size := size })
      s._static.length 0 s._static,
    _ui := forUp (assignAt guid fun e => { e with size := size })
      s._ui.length 0 s._ui }

/-- Function `scene.movePosition(guid, movement)`: three ascending loops calling
`position.add(movement)`. -/
def movePosition (s : Scene) (guid : Nat) (movement : Vector2) : Scene :=
  { s with
    _dynamic := forUp (assignAt guid fun e => { e with position := e.position.add movement })
      s._dynamic.length 0 s._dynamic,
    _static := forUp (assignAt guid fun e => { e with position := e.position.add movement })
      s._static.length 0 s._static,
    _ui := forUp (assignAt guid fun e => { e with position := e.position.add movement })
      s._ui.length 0 s._ui }

/-- Function `scene.setInfo(guid, info)`: three descending loops. -/
def setInfo (s : Scene) (guid : Nat) (info : Info) : Scene :=
  { s with
    _dynamic := forDown (assignAt guid fun e => { e with info := info })
      s._dynamic.length s._dynamic,
    _static := forDown (assignAt guid fun e => { e with info := info })
      s._static.length s._static,
    _ui := forDown (assignAt guid fun e => { e with info := info })
      s._ui.length s._ui }

/-- Function `scene.setInfoProperty(guid, propertyName, newValue)`: three descending loops. -/
def setInfoProperty (s : Scene) (guid : Nat) (property : InfoProperty) : Scene :=
  { s with
    _dynamic := forDown (assignAt guid fun e => { e with info := e.info.setProperty property })
      s._dynamic.length s._dynamic,
    _static := forDown (assignAt guid fun e => { e with info := e.info.setProperty property })
      s._static.length s._static,
    _ui := forDown (assignAt guid fun e => { e with info := e.info.setProperty property })
      s._ui.length s._ui }

/-! ### Getters: `none` is the value `undefined` of a call that falls off its loops -/

/-- Function `scene.getSize(guid)`: ascending scans of `_dynamic`, `_static`, `_ui`. -/
def getSize (s : Scene) (guid : Nat) : Option Vector2 :=
  match scanUp guid s._dynamic s._dynamic.length 0 with
  | some e => some e.size
  | none =>
    match scanUp guid s._static s._static.length 0 with
    | some e => some e.size
    | none =>
      match scanUp guid s._ui s._ui.length 0 with
      | some e => some e.size
      | none => none

/-- Function `scene.getPosition(guid)`: descending scans of `_dynamic`, `_static`, `_ui`. -/
def getPosition (s : Scene) (guid : Nat) : Option Vector2 :=
  match scanDown guid s._dynamic s._dynamic.length with
  | some e => some e.position
  | none =>
    match scanDown guid s._static s._static.length with
    | some e => some e.position
    | none =>
      match scanDown guid s._ui s._ui.length with
      | some e => some e.position
      | none => none

/-- Function `scene.getVelocity(guid)`: one descending scan of `_dynamic`. -/
def getVelocity (s : Scene) (guid : Nat) : Option Vector2 :=
  match scanDown guid s._dynamic s._dynamic.length with
  | some e => e.info.velocity
  | none => none

/-- Function `scene.getInfo(guid)`: descending scans of `_dynamic`, `_static`, `_ui`. -/
def getInfo (s : Scene) (guid : Nat) : Option Info :=
  match scanDown guid s._dynamic s._dynamic.length with
  | some e => some e.info
  | none =>
    match scanDown guid s._static s._static.length with
    | some e => some e.info
    | none =>
      match scanDown guid s._ui s._ui.length with
      | some e => some e.info
      | none => none

/-- Function `scene.exists(guid)`: descending scans of `_dynamic`, `_static`, `_ui`. -/
def «exists» (s : Scene) (guid : Nat) : Bool :=
  match scanDown guid s._dynamic s._dynamic.length with
  | some _ => true
  | none =>
    match scanDown guid s._static s._static.length with
    | some _ => true
    | none =>
      match scanDown guid s._ui s._ui.length with
      | some _ => true
      | none => false

/-! ### Deferred removal -/

/-- The three descending splice loops inside the task of `scene.remove`. -/
def removeLoops (s : Scene) (guid : Nat) : Scene :=
  { s with
    _dynamic := forDown (spliceAt guid) s._dynamic.length s._dynamic,
    _static := forDown (spliceAt guid) s._static.length s._static,
    _ui := forDown (spliceAt guid) s._ui.length s._ui }

/-- The three assignments `scene._dynamic = []; scene._static = []; scene._ui = []` inside
the task of `scene.removeAll`. -/
def clearAll (s : Scene) : Scene :=
  { s with _dynamic := [], _static := [], _ui := [] }

/-- Function `scene.remove(guid, whenDone)`: only `setTimeout(() => {...}, 0)`. -/
def remove (w : World) (guid : Nat) (whenDone : Option Callback) : World :=
  { w with timers := w.timers ++ [Timer.remove guid whenDone] }

/-- Function `scene.removeAll(whenDone)`: only `setTimeout(() => {...}, 0)`. -/
def removeAll (w : World) (whenDone : Option Callback) : World :=
  { w with timers := w.timers ++ [Timer.removeAll whenDone] }

/-- The arrow function of a task, run on world `w`. In `remove` the call `whenDone()` is
guarded by `if (whenDone)`; in `removeAll` it is not, so a missing `whenDone` raises a
`TypeError` after the clearing. -/
def runTask (w : World) : Timer → World
  | .remove guid whenDone =>
    let s := removeLoops w.scene guid
    match whenDone with
    | some cb => { w with scene := s, log := w.log ++ [Event.whenDone cb s] }
    | none => { w with scene := s }
  | .removeAll whenDone =>
    let s := clearAll w.scene
    match whenDone with
    | some cb => { w with scene := s, log := w.log ++ [Event.whenDone cb s] }
    | none => { w with scene := s, log := w.log ++ [Event.typeError] }

/-- The event loop takes the oldest pending task and runs it. -/
def runTimer (w : World) : World :=
  match w.timers with
  | [] => w
  | t :: ts => runTask { w with timers := ts } t

end scene

/-- The function `Math.round` on a finite number: the nearest integer, a half going up. -/
def Math.round (q : ℚ) : ℚ := ((⌊q + 1 / 2⌋ : ℤ) : ℚ)

namespace scene

/-! ### The physics step -/

/-- The expression `a || 1` on a number property: `undefined` and `0` give `1`. -/
def orOne : Option ℚ → ℚ
  | none => 1
  | some q => if q = 0 then 1 else q

/-- The condition of the `if` in the `forEach` over `scene._static`: one of the four points
`checkPos`, `checkPos2`, `checkPos3`, `checkPos4` of the dynamic entity `d` is strictly
inside the box of `collider`. -/
def hitTest (d collider : Entity) : Bool :=
  let minX := collider.position.x - (collider.size.x / 2)
  let minY := collider.position.y - (collider.size.y / 2)
  let maxX := collider.position.x + (collider.size.x / 2)
  let maxY := collider.position.y + (collider.size.y / 2)
  let checkPos : Vector2 := ⟨d.position.x, d.position.y - (d.size.y / 2)⟩
  let checkPos2 : Vector2 := ⟨d.position.x, d.position.y + (d.size.y / 2)⟩
  let checkPos3 : Vector2 := ⟨d.position.x - (d.size.x / 2), d.position.y⟩
  let checkPos4 : Vector2 := ⟨d.position.x + (d.size.x / 2), d.position.y⟩
  decide ((checkPos.x > minX ∧ checkPos.x < maxX ∧ checkPos.y > minY ∧ checkPos.y < maxY)
    ∨ (checkPos2.x > minX ∧ checkPos2.x < maxX ∧ checkPos2.y > minY ∧ checkPos2.y < maxY)
    ∨ (checkPos3.x > minX ∧ checkPos3.x < maxX ∧ checkPos3.y > minY ∧ checkPos3.y < maxY)
    ∨ (checkPos4.x > minX ∧ checkPos4.x < maxX ∧ checkPos4.y > minY ∧ checkPos4.y < maxY))

/-- The vector `HitEffect` after `HitEffect.multiply(new Vector2(bounce || 1, bounce || 1))`. -/
def hitEffect (d collider : Entity) : Vector2 :=
  Vector2.multiply
    ⟨Math.round ((collider.position.x - d.position.x) / d.size.x),
     Math.round ((collider.position.y - d.position.y) / d.size.y)⟩
    ⟨orOne collider.info.bounce, orOne collider.info.bounce⟩

/-- The calls of the `whenHit` functions at a hit: first the dynamic entity is told the
handle of the collider, then the collider the handle of the dynamic entity. -/
def hitEvents (d collider : Entity) : List Event :=
  (match d.info.whenHit with
    | some cb => [Event.whenHit cb collider.guid]
    | none => [])
  ++ (match collider.info.whenHit with
    | some cb => [Event.whenHit cb d.guid]
    | none => [])

/-- One call of the arrow function given to `scene._static.forEach` for the dynamic entity
`d`, acting on the velocity of `d` and on the events so far. The result is `none` when a
size component of `d` is `0` at a hit: the quotient is then not a finite number. -/
def collide (d : Entity) (acc : Option (Vector2 × List Event)) (collider : Entity) :
    Option (Vector2 × List Event) :=
  match acc with
  | none => none
  | some (velocity, events) =>
    if hitTest d collider then
      if d.size.x = 0 ∨ d.size.y = 0 then none
      else some (velocity.multiply (hitEffect d collider), events ++ hitEvents d collider)
    else some (velocity, events)

/-- How far a run of `_physics` got. -/
inductive Status where
  | running
  | threw
  | notFinite
  deriving DecidableEq, Repr

/-- The state threaded through the loop of `_physics`. -/
structure PhysicsState where
  scene : Scene
  log : List Event
  status : Status
  deriving DecidableEq, Repr

/-- The body of the loop `for (var i = 0; i < l; i++)` of `_physics(deltaTime)`. Reading
`.x` of a missing `info.velocity` (or a missing `scene._dynamic[i]`) raises a `TypeError`,
which ends the run before entity `i` is changed. The functions called at a hit are only
logged. -/
def physicsBody (deltaTime : ℚ) (i : Nat) (st : PhysicsState) : PhysicsState :=
  match st.status with
  | .running =>
    match st.scene._dynamic[i]? with
    | none => { st with status := .threw, log := st.log ++ [Event.typeError] }
    | some d =>
      match d.info.velocity with
      | none => { st with status := .threw, log := st.log ++ [Event.typeError] }
      | some velocity =>
        let gMul := orOne d.info.multiplyGravity
        let wantedVelocity : Vector2 :=
          ⟨velocity.x, velocity.y - (_gravityValue * gMul * st.scene.physicSpeed)⟩
        match st.scene._static.foldl (collide d) (some (wantedVelocity, [])) with
        | none => { st with status := .notFinite }
        | some (v, events) =>
          let moved : Entity :=
            { d with
              info := { d.info with velocity := some v }
              position := d.position.add
                ⟨(v.x * deltaTime) * st.scene.physicSpeed,
                 (v.y * deltaTime) * st.scene.physicSpeed⟩ }
          { st with
            scene := { st.scene with _dynamic := st.scene._dynamic.set i moved }
            log := st.log ++ events }
  | _ => st

/-- Function `scene._physics(deltaTime)`. -/
def _physics (s : Scene) (deltaTime : ℚ) : PhysicsState :=
  forUp (physicsBody deltaTime) s._dynamic.length 0
    { scene := s, log := [], status := .running }

/-! ### The auto-removal sweep -/

/-- The inner condition of `_removeDynamicsOutsideScreen`: the box of `object`, shifted by
the shake offset, is outside the window. -/
def outsideScreen (shakeX shakeY innerWidth innerHeight : ℚ) (object : Entity) : Bool :=
  let minX := (object.position.x + shakeX) - (object.size.x / 2)
  let minY := (object.position.y + shakeY) - (object.size.y / 2)
  let maxX := (object.position.x + shakeX) + (object.size.x / 2)
  let maxY := (object.position.y + shakeY) + (object.size.y / 2)
  decide (maxX < -(innerWidth / 2) ∨ maxY < -(innerHeight / 2)
    ∨ minX > (innerWidth / 2) ∨ minY > (innerHeight / 2))

/-- The body of the loop of `_removeDynamicsOutsideScreen`. -/
def sweepAt (shakeX shakeY innerWidth innerHeight : ℚ) (i : Nat) (xs : List Entity) :
    List Entity :=
  match xs[i]? with
  | some object =>
    if object.info.autoRemove then
      if outsideScreen shakeX shakeY innerWidth innerHeight object then xs.eraseIdx i else xs
    else xs
  | none => xs

/-- Function `scene._removeDynamicsOutsideScreen()`, with `window.innerWidth` and
`window.innerHeight` as arguments. -/
def _removeDynamicsOutsideScreen (s : Scene) (innerWidth innerHeight : ℚ) : Scene :=
  { s with
    _dynamic := forDown (sweepAt s._shakeX s._shakeY innerWidth innerHeight)
      s._dynamic.length s._dynamic }

end scene

/-! ## Runs of the engine -/

open scene

/-- The world when the script has loaded: the initial scene, no pending task, no event. -/
def World.init : World := { scene := scene.init, timers := [], log := [] }

/-- One step of a run: a call of the public interface, the run of the oldest pending task,
a physics step, an auto-removal sweep, an assignment to the fields of `scene` outside
the registry (`physicSpeed`, `cameraPosition`, the shake fields), or a change of the
`position`, `size` and `info` of stored entities that keeps every handle in its place
(`touch`: a physics step that a `whenHit` function interrupts, user code writing to an
object a getter gave it). The label is the handle returned by an `add` call. -/
inductive Step : World → Option Nat → World → Prop
  | addDynamic (w : World) (position size : Vector2) (info : Info) :
      Step w (some (add.dynamic w.scene position size info).1)
        { w with scene := (add.dynamic w.scene position size info).2 }
  | addStatic (w : World) (position size : Vector2) (info : Info) :
      Step w (some (add.static w.scene position size info).1)
        { w with scene := (add.static w.scene position size info).2 }
  | addUi (w : World) (position size : Vector2) (info : Info) :
      Step w (some (add.ui w.scene position size info).1)
        { w with scene := (add.ui w.scene position size info).2 }
  | setVelocity (w : World) (guid : Nat) (velocity : Vector2) :
      Step w none { w with scene := setVelocity w.scene guid velocity }
  | setPosition (w : World) (guid : Nat) (position : Vector2) :
      Step w none { w with scene := setPosition w.scene guid position }
  | setSize (w : World) (guid : Nat) (size : Vector2) :
      Step w none { w with scene := setSize w.scene guid size }
  | movePosition (w : World) (guid : Nat) (movement : Vector2) :
      Step w none { w with scene := movePosition w.scene guid movement }
  | setInfo (w : World) (guid : Nat) (info : Info) :
      Step w none { w with scene := setInfo w.scene guid info }
  | setInfoProperty (w : World) (guid : Nat) (property : InfoProperty) :
      Step w none { w with scene := setInfoProperty w.scene guid property }
  | remove (w : World) (guid : Nat) (whenDone : Option Callback) :
      Step w none (remove w guid whenDone)
  | removeAll (w : World) (whenDone : Option Callback) :
      Step w none (removeAll w whenDone)
  | timer (w : World) : Step w none (runTimer w)
  | physics (w : World) (deltaTime : ℚ)
      (finite : (_physics w.scene deltaTime).status ≠ Status.notFinite) :
      Step w none
        { w with
          scene := (_physics w.scene deltaTime).scene
          log := w.log ++ (_physics w.scene deltaTime).log }
  | sweep (w : World) (innerWidth innerHeight : ℚ) :
      Step w none
        { w with scene := _removeDynamicsOutsideScreen w.scene innerWidth innerHeight }
  | configure (w : World) (c : Scene) :
      Step w none
        { w with
          scene := { c with
            _dynamic := w.scene._dynamic
            _static := w.scene._static
            _ui := w.scene._ui
            _guid := w.scene._guid } }
  | touch (w : World) (dynamic static ui : List Entity)
      (hd : dynamic.map Entity.guid = w.scene._dynamic.map Entity.guid)
      (hs : static.map Entity.guid = w.scene._static.map Entity.guid)
      (hu : ui.map Entity.guid = w.scene._ui.map Entity.guid) :
      Step w none
        { w with
          scene := { w.scene with _dynamic := dynamic, _static := static, _ui := ui } }

/-- A run from the initial world: `Run hs w` says that some sequence of steps leads from
`World.init` to `w` and that `hs` lists, in the order of the calls, the handles returned
by the `add` calls of the sequence. -/
inductive Run : List Nat → World → Prop
  | start : Run [] World.init
  | step {hs : List Nat} {w w' : World} {r : Option Nat} :
      Run hs w → Step w r w' → Run (hs ++ r.toList) w'

/-- The handles stored in the registry, in the order `_dynamic`, `_static`, `_ui`. -/
def Scene.guids (s : Scene) : List Nat :=
  (s._dynamic ++ s._static ++ s._ui).map Entity.guid

/-- The info object `{type: "fill", color: "white"}` of the examples in `lib.js`. -/
def whiteFill : Info :=
  { type := "fill", color := some "white", background := false, text := none, size := none,
    autoRemove := false, velocity := none, image := none, multiplyGravity := none,
    bounce := none, whenHit := none, click := none }

/-- The effect of a removal in the words of the specification: each partition becomes the
sub-sequence of its entities whose handle differs from `handle`. -/
def removeSpec (s : Scene) (handle : Nat) : Scene :=
  { s with
    _dynamic := s._dynamic.filter (fun e => decide (e.guid ≠ handle))
    _static := s._static.filter (fun e => decide (e.guid ≠ handle))
    _ui := s._ui.filter (fun e => decide (e.guid ≠ handle)) }

/-- The entity a lookup by handle is about in the words of the specification: the first
entity holding `handle` when the partitions are scanned in the order dynamic, static, ui,
each in insertion order. -/
def firstHolder (s : Scene) (handle : Nat) : Option Entity :=
  (s._dynamic ++ s._static ++ s._ui).find? (fun e => decide (e.guid = handle))

/-- A registry whose dynamic partition holds the handle `0` twice, at the positions `(0, 0)`
and `(5, 5)` and with the colours white and red. -/
def twinScene : Scene :=
  { scene.init with
    _dynamic :=
      [{ position := ⟨0, 0⟩, size := ⟨10, 10⟩, guid := 0,
         info := { whiteFill with velocity := some ⟨0, 0⟩ } },
       { position := ⟨5, 5⟩, size := ⟨10, 10⟩, guid := 0,
         info := { whiteFill with color := some "red", velocity := some ⟨0, 0⟩ } }]
    _guid := 1 }

/-- The registry after `scene.add.dynamic` and `scene.add.static` on the initial scene: a
dynamic entity with handle `0` above a static floor with handle `1`. -/
def pairScene : Scene :=
  (scene.add.static (scene.add.dynamic scene.init ⟨0, 0⟩ ⟨10, 10⟩ whiteFill).2
    ⟨0, -100⟩ ⟨200, 20⟩ { whiteFill with bounce := some 0 }).2

/-- What `setPosition(h, ·)` has to keep of an entity `e`, in the words of the
specification, `e'` being the entity at the same place afterwards: handle, size and info
always, and the position when `e` does not hold `h`. -/
def keptBySetPosition (h : Nat) (e e' : Entity) : Prop :=
  e'.guid = e.guid ∧ e'.size = e.size ∧ e'.info = e.info
    ∧ (e.guid ≠ h → e'.position = e.position)

/-- What `setSize(h, ·)` has to keep of an entity: handle, position and info always, and
the size when the entity does not hold `h`. -/
def keptBySetSize (h : Nat) (e e' : Entity) : Prop :=
  e'.guid = e.guid ∧ e'.position = e.position ∧ e'.info = e.info
    ∧ (e.guid ≠ h → e'.size = e.size)

/-- What `setInfo(h, ·)` has to keep of an entity: handle, position and size always, and
the info when the entity does not hold `h`. -/
def keptBySetInfo (h : Nat) (e e' : Entity) : Prop :=
  e'.guid = e.guid ∧ e'.position = e.position ∧ e'.size = e.size
    ∧ (e.guid ≠ h → e'.info = e.info)

instance (h : Nat) (e e' : Entity) : Decidable (keptBySetPosition h e e') :=
  inferInstanceAs (Decidable (_ ∧ _ ∧ _ ∧ _))

instance (h : Nat) (e e' : Entity) : Decidable (keptBySetSize h e e') :=
  inferInstanceAs (Decidable (_ ∧ _ ∧ _ ∧ _))

instance (h : Nat) (e e' : Entity) : Decidable (keptBySetInfo h e e') :=
  inferInstanceAs (Decidable (_ ∧ _ ∧ _ ∧ _))

/-! ## One entity in the physics step -/

namespace scene

/-- The vector `wantedVelocity` that the loop body of `_physics` builds for the entity `d`
from its velocity: the vertical part is lowered by
`scene._gravityValue * gMul * scene.physicSpeed`. -/
def wantedVelocity (physicSpeed : ℚ) (d : Entity) (velocity : Vector2) : Vector2 :=
  ⟨velocity.x, velocity.y - (_gravityValue * orOne d.info.multiplyGravity * physicSpeed)⟩

/-- The entity `d` after the last statement of the loop body of `_physics`: its info holds
the velocity `v` and `position.add` has added `v * deltaTime * physicSpeed`. -/
def integrate (physicSpeed deltaTime : ℚ) (d : Entity) (v : Vector2) : Entity :=
  { d with
    info := { d.info with velocity := some v }
    position := d.position.add
      ⟨(v.x * deltaTime) * physicSpeed, (v.y * deltaTime) * physicSpeed⟩ }

/-- What one round of the loop of `_physics` computes for the dynamic entity `d`, given the
static partition: the entity afterwards and the calls of `whenHit` functions. It is `none`
when the round does not complete (missing velocity, or a hit on a zero size). -/
def tickEntity (statics : List Entity) (physicSpeed deltaTime : ℚ) (d : Entity) :
    Option (Entity × List Event) :=
  match d.info.velocity with
  | none => none
  | some velocity =>
    match statics.foldl (collide d) (some (wantedVelocity physicSpeed d velocity, [])) with
    | none => none
    | some (v, events) => some (integrate physicSpeed deltaTime d v, events)

end scene

/-! ## The collision test and the sweep in the words of the specification -/

/-- The four edge midpoints of the box of `d` in the words of the specification: bottom,
top, left and right, for the centre `(x, y)` and the size `(w, h)`. -/
def edgeMidpoints (d : Entity) : List Vector2 :=
  [⟨d.position.x, d.position.y - d.size.y / 2⟩,
   ⟨d.position.x, d.position.y + d.size.y / 2⟩,
   ⟨d.position.x - d.size.x / 2, d.position.y⟩,
   ⟨d.position.x + d.size.x / 2, d.position.y⟩]

/-- The point `p` lies strictly inside the box
`(s.position - s.size / 2, s.position + s.size / 2)` of `s`, on both axes. -/
def strictlyInside (p : Vector2) (s : Entity) : Prop :=
  s.position.x - s.size.x / 2 < p.x ∧ p.x < s.position.x + s.size.x / 2
    ∧ s.position.y - s.size.y / 2 < p.y ∧ p.y < s.position.y + s.size.y / 2

instance (p : Vector2) (s : Entity) : Decidable (strictlyInside p s) :=
  inferInstanceAs (Decidable (_ ∧ _ ∧ _ ∧ _))

/-- The edge-midpoint test of the specification: some edge midpoint of `d` lies strictly
inside the box of `s`. -/
def midpointHit (d s : Entity) : Prop :=
  ∃ p ∈ edgeMidpoints d, strictlyInside p s

instance (d s : Entity) : Decidable (midpointHit d s) :=
  inferInstanceAs (Decidable (∃ p ∈ edgeMidpoints d, strictlyInside p s))

/-- The calls a hit of the dynamic entity `d` on the static entity `s` has to produce, in
the words of the specification: `d.whenHit(s.handle)` if `d` has a handler, then
`s.whenHit(d.handle)` if `s` has one. -/
def pairCalls (d s : Entity) : List Event :=
  (match d.info.whenHit with
    | some f => [Event.whenHit f s.guid]
    | none => [])
  ++ (match s.info.whenHit with
    | some f => [Event.whenHit f d.guid]
    | none => [])

/-- The event log of one physics tick in the words of the specification: the dynamic
entities in insertion order, for each of them the static entities in insertion order, and
for each pair that is a hit under the edge-midpoint test the calls of that pair. -/
def hitLogSpec (s : Scene) : List Event :=
  s._dynamic.flatMap fun d =>
    s._static.flatMap fun c => if midpointHit d c then pairCalls d c else []

/-- The box of `e`, shifted by the shake offset, lies entirely outside the viewport of
width `W` and height `H`, in the words of the specification:
`maxX < -W/2` or `maxY < -H/2` or `minX > W/2` or `minY > H/2`. -/
def whollyOutside (shakeX shakeY W H : ℚ) (e : Entity) : Prop :=
  (e.position.x + shakeX) + e.size.x / 2 < -(W / 2)
    ∨ (e.position.y + shakeY) + e.size.y / 2 < -(H / 2)
    ∨ (e.position.x + shakeX) - e.size.x / 2 > W / 2
    ∨ (e.position.y + shakeY) - e.size.y / 2 > H / 2

instance (shakeX shakeY W H : ℚ) (e : Entity) : Decidable (whollyOutside shakeX shakeY W H e) :=
  inferInstanceAs (Decidable (_ ∨ _ ∨ _ ∨ _))

/-! ## Scenes and entities of the examples -/

/-- Physics steps in a row, one call `scene._physics(deltaTime)` per entry of `deltaTimes`:
the scene after them. -/
def scene.ticks (s : Scene) (deltaTimes : List ℚ) : Scene :=
  deltaTimes.foldl (fun t deltaTime => (scene._physics t deltaTime).scene) s

/-- The info object
`{type: "fill", color: "white", velocity: new Vector2(0, 0), multiplyGravity: g}`. -/
def boxInfo (multiplyGravity : Option ℚ) : Info :=
  { whiteFill with velocity := some ⟨0, 0⟩, multiplyGravity := multiplyGravity }

/-- The scene after `scene.add.dynamic(new Vector2(0, 0), new Vector2(10, 10), info)` on the
initial scene, for an `info` with `multiplyGravity: 0` and `velocity: new Vector2(0, 0)`. -/
def weightlessScene : Scene :=
  (scene.add.dynamic scene.init ⟨0, 0⟩ ⟨10, 10⟩ (boxInfo (some 0))).2

/-- The scenario of the specification: a dynamic entity created at `(0, 0)` with size
`(10, 10)`, velocity `(0, 0)` and `multiplyGravity: 1` (handle `0`), then a static floor
created at `(0, -100)` with size `(200, 20)` and `bounce: 0` (handle `1`). -/
def floorScene : Scene :=
  (scene.add.static (scene.add.dynamic scene.init ⟨0, 0⟩ ⟨10, 10⟩ (boxInfo (some 1))).2
    ⟨0, -100⟩ ⟨200, 20⟩ { whiteFill with bounce := some 0 }).2

/-- A dynamic entity of size `(10, 10)` at `(0, y)` with the given velocity and `whenHit`
function. -/
def fallingBox (y : ℚ) (velocity : Vector2) (whenHit : Option Callback) : Entity :=
  { position := ⟨0, y⟩, size := ⟨10, 10⟩, guid := 0,
    info := { whiteFill with velocity := some velocity, whenHit := whenHit } }

/-- A static floor of size `(200, 20)` at `(0, -100)` with the given `bounce` and `whenHit`
function; its box is `(-100, 100) x (-110, -90)`. -/
def floorEntity (bounce : Option ℚ) (whenHit : Option Callback) : Entity :=
  { position := ⟨0, -100⟩, size := ⟨200, 20⟩, guid := 1,
    info := { whiteFill with bounce := bounce, whenHit := whenHit } }

/-- A registry in which the box `fallingBox (-90)` with velocity `(0, -9.8)` and the
`whenHit` function `7` overlaps the floor, whose `whenHit` function is `8`. -/
def hitScene : Scene :=
  { scene.init with
    _dynamic := [fallingBox (-90) ⟨0, -9.8⟩ (some 7)]
    _static := [floorEntity (some 1) (some 8)]
    _guid := 2 }

/-- A dynamic entity of size `(10, 10)` at `(x, 0)` with the given `autoRemove` flag. -/
def particle (guid : Nat) (x : ℚ) (autoRemove : Bool) : Entity :=
  { position := ⟨x, 0⟩, size := ⟨10, 10⟩, guid := guid,
    info := { whiteFill with autoRemove := autoRemove, velocity := some ⟨0, 0⟩ } }

/-- A registry for the sweep in a window of `800 x 600` without shake: an `autoRemove`
particle beyond the right border (`x = 406`, box from `401`), an `autoRemove` particle
that touches the right border from outside (`x = 405`, box from `400`) and a particle
without `autoRemove` far outside (`x = 1000`). -/
def sweepScene : Scene :=
  { scene.init with
    _dynamic := [particle 0 406 true, particle 1 405 true, particle 2 1000 false]
    _guid := 3 }

/-! ## Objects by reference

`scene.movePosition` and `scene._physics` call `position.add(...)` on the object an entity
holds, and `scene.add.dynamic` and `scene._physics` write `velocity` into an `info` object. What this does to
another entity that holds the same object cannot be seen in `Scene`, where every entity owns
its objects. A `Store` keeps the `position` and the `info` of an entity as addresses of
objects; `Store.view` reads the objects and gives the `Scene` of the rest of this file.
-/

/-- An element of a partition whose `position` and `info` are the addresses of a `Vector2`
object and of an info object. The engine never writes into a `size` object, which stays a
value. -/
structure Slot where
  position : Nat
  size : Vector2
  guid : Nat
  info : Nat
  deriving DecidableEq, Repr

/-- The registry together with the objects its entities refer to. -/
structure Store where
  vectors : Nat → Vector2
  infos : Nat → Info
  _dynamic : List Slot
  _static : List Slot
  _ui : List Slot
  _guid : Nat

namespace Store

/-- The entity a slot stands for, its objects read from the store. -/
def deref (m : Store) (e : Slot) : Entity :=
  { position := m.vectors e.position, size := e.size, guid := e.guid, info := m.infos e.info }

/-- The scene a store stands for: the registry with every object read from the store, the
other fields as in the initial scene. -/
def view (m : Store) : Scene :=
  { scene.init with
    _dynamic := m._dynamic.map m.deref
    _static := m._static.map m.deref
    _ui := m._ui.map m.deref
    _guid := m._guid }

/-- The empty registry with the objects the caller has created. -/
def init (vectors : Nat → Vector2) (infos : Nat → Info) : Store :=
  { vectors := vectors, infos := infos, _dynamic := [], _static := [], _ui := [], _guid := 0 }

/-- The loop body `if (xs[i].guid == guid) { xs[i].position.add(movement) }` of
`scene.movePosition`, acting on the `Vector2` objects; `movement` is the address of the
argument. The method `add` runs `this.x += otherVector2.x; this.y += otherVector2.y`. -/
def addAt (guid movement : Nat) (xs : List Slot) (i : Nat) (vectors : Nat → Vector2) :
    Nat → Vector2 :=
  match xs[i]? with
  | some e =>
    if e.guid = guid then
      Function.update vectors e.position ((vectors e.position).add (vectors movement))
    else vectors
  | none => vectors

/-- Function `scene.movePosition(guid, movement)` on objects by reference: the three
ascending loops over `_dynamic`, `_static` and `_ui`. -/
def movePosition (m : Store) (guid movement : Nat) : Store :=
  { m with
    vectors :=
      forUp (addAt guid movement m._ui) m._ui.length 0
        (forUp (addAt guid movement m._static) m._static.length 0
          (forUp (addAt guid movement m._dynamic) m._dynamic.length 0 m.vectors)) }

/-- Function `scene.add.dynamic(position, size, info)` on objects by reference: `newObj` is
the object `info` itself, and `newObj.velocity = new Vector2(0, 0)` writes into it. -/
def add.dynamic (m : Store) (position : Nat) (size : Vector2) (info : Nat) : Nat × Store :=
  if (m.infos info).velocity = none then
    (m._guid, { m with
      infos := Function.update m.infos info { m.infos info with velocity := some ⟨0, 0⟩ }
      _dynamic := m._dynamic ++ [{ position := position, size := size, guid := m._guid,
                                   info := info }]
      _guid := m._guid + 1 })
  else
    (m._guid, { m with
      _dynamic := m._dynamic ++ [{ position := position, size := size, guid := m._guid,
                                   info := info }]
      _guid := m._guid + 1 })

/-- Function `scene.add.static(position, size, info)` on objects by reference. -/
def add.static (m : Store) (position : Nat) (size : Vector2) (info : Nat) : Nat × Store :=
  (m._guid, { m with
    _static := m._static ++ [{ position := position, size := size, guid := m._guid,
                               info := info }]
    _guid := m._guid + 1 })

/-- Function `scene.add.ui(position, size, info)` on objects by reference. -/
def add.ui (m : Store) (position : Nat) (size : Vector2) (info : Nat) : Nat × Store :=
  (m._guid, { m with
    _ui := m._ui ++ [{ position := position, size := size, guid := m._guid, info := info }]
    _guid := m._guid + 1 })

end Store

/-- The objects of the examples: the vector `(1, 0)` at address `1`, `(0, 0)` elsewhere. -/
def exampleVectors : Nat → Vector2 := fun a => if a = 1 then ⟨1, 0⟩ else ⟨0, 0⟩

/-- The store after
`var p = new Vector2(0, 0); scene.add.dynamic(p, ...); scene.add.static(p, ...)`: the
dynamic entity (handle `0`) and the static entity (handle `1`) hold the same position
object, at address `0`; their info objects are at the addresses `0` and `1`. -/
def sharedPositionStore : Store :=
  (Store.add.static
    (Store.add.dynamic (Store.init exampleVectors (fun _ => whiteFill)) 0 ⟨10, 10⟩ 0).2
    0 ⟨10, 10⟩ 1).2

/-- The store after `scene.add.static(p, s, info)` with an info object without velocity, at
address `0`: the static entity has the handle `0`. -/
def sharedInfoStore : Store :=
  (Store.add.static (Store.init exampleVectors (fun _ => whiteFill)) 0 ⟨200, 20⟩ 0).2

/-! ## The helpers at the top of `lib.js` -/

/-- The method `divide(otherVector2)`: `this.x /= otherVector2.x; this.y /= otherVector2.y`.
The result is `none` when a component of the divisor is `0`: the quotient is then not a
finite number. -/
def Vector2.divide (a b : Vector2) : Option Vector2 :=
  if b.x = 0 ∨ b.y = 0 then none else some ⟨a.x / b.x, a.y / b.y⟩

/-- The method `dot(otherVector2)`. -/
def Vector2.dot (a b : Vector2) : ℚ := a.x * b.x + a.y * b.y

/-- The method `sum()`. -/
def Vector2.sum (a : Vector2) : ℚ := a.x + a.y

/-- A call `a.m(b)` of one of the methods `add`, `substract`, `multiply` on a heap of
`Vector2` objects: the receiver, the object at address `a`, is overwritten; `m` gives the
new value of `this` from the values of `this` and of the argument. -/
def Vector2.call (m : Vector2 → Vector2 → Vector2) (vectors : Nat → Vector2) (a b : Nat) :
    Nat → Vector2 :=
  Function.update vectors a (m (vectors a) (vectors b))

/-- A call `a.divide(b)` on a heap of `Vector2` objects. -/
def Vector2.callDivide (vectors : Nat → Vector2) (a b : Nat) : Option (Nat → Vector2) :=
  match Vector2.divide (vectors a) (vectors b) with
  | some q => some (Function.update vectors a q)
  | none => none

/-- Function `pointFromOrigin(point, origin)`. -/
def pointFromOrigin (point origin : Vector2) : Vector2 :=
  ⟨point.x - origin.x, point.y - origin.y⟩

/-- Function `random(min, max)`, with the value `r` of `Math.random()` as an argument. -/
def random (r min max : ℚ) : ℚ := Math.round ((r * (max - min)) + min)

/-- The heap of the examples in the doc comments of `Vector2`: `myVector` is at address `0`,
`otherVector` at address `1`. -/
def docVectors : Nat → Vector2 := fun a => if a = 0 then ⟨1, 4⟩ else ⟨2, 3⟩

/-! ## The frame loop -/

/-- The object `scene.input`: the two smoothed axes and the table `key`. An entry of `key`
is `true` when the property of that name is present (the `keydown` listener sets it to
`true`, the `keyup` listener deletes it). -/
structure Input where
  horizontal : ℚ
  vertical : ℚ
  key : String → Bool

/-- The object `scene.input` when the script has loaded. -/
def Input.init : Input := { horizontal := 0, vertical := 0, key := fun _ => false }

/-- The listener of `keydown`: `scene.input.key[e.key] = true`. -/
def Input.keydown (i : Input) (key : String) : Input :=
  { i with key := Function.update i.key key true }

/-- The listener of `keyup`: `delete scene.input.key[e.key]`. -/
def Input.keyup (i : Input) (key : String) : Input :=
  { i with key := Function.update i.key key false }

namespace scene

/-- The variable `goalX` of `_update`. -/
def goalX (key : String → Bool) : ℚ :=
  let goalX : ℚ := 0
  let goalX := if key "a" || key "ArrowLeft" then goalX - 1 else goalX
  if key "d" || key "ArrowRight" then goalX + 1 else goalX

/-- The variable `goalY` of `_update`. -/
def goalY (key : String → Bool) : ℚ :=
  let goalY : ℚ := 0
  let goalY := if key "s" || key "ArrowDown" then goalY - 1 else goalY
  if key "w" || key "ArrowUp" then goalY + 1 else goalY

/-- The two assignments to `scene.input.horizontal` and `scene.input.vertical` at the start
of `_update`. -/
def smoothInput (i : Input) : Input :=
  { i with
    horizontal := i.horizontal * 0.9 + goalX i.key * 0.1
    vertical := i.vertical * 0.9 + goalY i.key * 0.1 }

/-- Function `scene.shake(seconds, intensity)`, with the value `now` of
`new Date().getTime()` as an argument. -/
def shake (s : Scene) (now seconds intensity : ℚ) : Scene :=
  { s with
    _shakeStart := now
    _shakeDuration := seconds * 1000
    _shakeIntensity := intensity }

/-- Function `scene._shake()`, with the value `now` of `new Date().getTime()` and the values
`randomX`, `randomY` of the two calls of `Math.random()` as arguments. With
`_shakeDuration` equal to `0` the quotient `currentShakeInterpolation` is `Infinity` when
the time since the start is positive, which is larger than `1`; otherwise it is `NaN` or
`-Infinity`, the offsets are then not finite numbers and the result is `none`. -/
def _shake (s : Scene) (now randomX randomY : ℚ) : Option Scene :=
  if s._shakeIntensity > 0 then
    if s._shakeDuration = 0 then
      if now - s._shakeStart > 0 then
        some { s with
          _shakeStart := 0
          _shakeDuration := 0
          _shakeIntensity := 0
          _shakeX := 0 - s.cameraPosition.x
          _shakeY := 0 - s.cameraPosition.y }
      else none
    else
      let currentShakeInterpolation := (now - s._shakeStart) / s._shakeDuration
      if currentShakeInterpolation > 1 then
        some { s with
          _shakeStart := 0
          _shakeDuration := 0
          _shakeIntensity := 0
          _shakeX := 0 - s.cameraPosition.x
          _shakeY := 0 - s.cameraPosition.y }
      else
        some { s with
          _shakeX := (randomX * 2 - 1) * s._shakeIntensity * (1 - currentShakeInterpolation)
            - s.cameraPosition.x
          _shakeY := (randomY * 2 - 1) * s._shakeIntensity * (1 - currentShakeInterpolation)
            - s.cameraPosition.y }
  else
    some { s with
      _shakeX := 0 - s.cameraPosition.x
      _shakeY := 0 - s.cameraPosition.y }

end scene

/-- One step of `scene._draw()` that the registry decides: the arrow function of one of the
four `forEach` is called with `object` (it draws that object on `ctx`), or
`scene.afterDraw()` is called. -/
inductive DrawCall where
  | object (object : Entity)
  | afterDraw
  deriving DecidableEq, Repr

namespace scene

/-- One call of the arrow function of a `forEach` of `_draw`, on the calls so far. -/
def drawObject (calls : List DrawCall) (object : Entity) : List DrawCall :=
  calls ++ [DrawCall.object object]

/-- Function `scene._draw()`, on the calls so far: the four `forEach`, then
`scene.afterDraw()`. The calls on `ctx` are taken not to raise an error. -/
def _draw (s : Scene) (calls : List DrawCall) : List DrawCall :=
  let calls := (s._ui.filter fun el => el.info.background).foldl drawObject calls
  let calls := s._static.foldl drawObject calls
  let calls := s._dynamic.foldl drawObject calls
  let calls := (s._ui.filter fun el => !el.info.background).foldl drawObject calls
  calls ++ [DrawCall.afterDraw]

end scene

/-- What the browser and the game hand to one call of `scene._update()`: the two readings
of the clock (in `_update` and in `_shake`), the two values of `Math.random()`, the size of
the window, and the function `scene.update`. The function `update` gives the scene as the
call leaves it and whether the call ended by raising an error. -/
structure Host where
  newTime : ℚ
  shakeTime : ℚ
  randomX : ℚ
  randomY : ℚ
  innerWidth : ℚ
  innerHeight : ℚ
  update : ℚ → Scene → Scene × Bool

/-- The state that one frame hands to the next. -/
structure Engine where
  scene : Scene
  input : Input
  _lastDraw : ℚ

/-- The state when the script has loaded, `now` being the clock at that moment. -/
def Engine.init (now : ℚ) : Engine :=
  { scene := scene.init, input := Input.init, _lastDraw := now }

/-- One call of `scene._update()`: the state it leaves, the events of `_physics`, whether
`console.error(error)` and `requestAnimationFrame(scene._update)` were called, the calls of
`_draw`, and how the call ended (`running`: it returned; `threw`: an error left it). -/
structure Frame where
  engine : Engine
  log : List Event
  consoleError : Bool
  requested : Bool
  drawn : List DrawCall
  status : scene.Status

namespace scene

/-- Function `scene._update()`. An error raised in `_physics` is not caught and ends the
call; an error raised by `scene.update(deltaTime)` is caught by the `try`, which skips the
rest of the `try` block. -/
def _update (host : Host) (e : Engine) : Frame :=
  let input := smoothInput e.input
  let newTime := host.newTime
  let deltaTime := (newTime - e._lastDraw) / 1000
  let physics := _physics e.scene deltaTime
  match physics.status with
  | .running =>
    match _shake physics.scene host.shakeTime host.randomX host.randomY with
    | some shaken =>
      let updated := host.update deltaTime shaken
      let swept := _removeDynamicsOutsideScreen updated.1 host.innerWidth host.innerHeight
      { engine := { scene := swept, input := input, _lastDraw := newTime }
        log := physics.log
        consoleError := updated.2
        requested := !updated.2
        drawn := _draw swept []
        status := .running }
    | none =>
      { engine := { scene := physics.scene, input := input, _lastDraw := e._lastDraw }
        log := physics.log
        consoleError := false
        requested := false
        drawn := []
        status := .notFinite }
  | status =>
    { engine := { scene := physics.scene, input := input, _lastDraw := e._lastDraw }
      log := physics.log
      consoleError := false
      requested := false
      drawn := []
      status := status }

/-- The frames run one after the other, each with what the host hands to it. -/
def frames (hosts : List Host) (e : Engine) : Engine :=
  hosts.foldl (fun e host => (_update host e).engine) e

end scene

/-! ## The listener of `mousedown` -/

/-- The properties of the event `e` that the listener of `mousedown` reads. -/
structure MouseEvent where
  clientX : ℚ
  clientY : ℚ
  button : Nat
  deriving DecidableEq, Repr

/-- A call `handler(mouseNames[e.button])` of a function `click`; the argument is `none`
when the array has no entry at that index. -/
structure ClickCall where
  handler : Callback
  button : Option String
  deriving DecidableEq, Repr

/-- The property `click` of an element of `scene._dynamic`, `scene._static` or `scene._ui`.
The elements are the objects `{position, size, guid, info}` that `scene.add` pushes; they
have no property of that name, so the read gives `undefined`. -/
def Entity.click (_object : Entity) : Option Callback := none

namespace scene

/-- The array `mouseNames` of the listener. -/
def mouseNames : List String := ["left", "middle", "right"]

/-- The first four conjuncts of the `if` of the listener: `sceneCoordinates` is strictly
inside the box of `object`, shifted by the shake offset. -/
def pointerInside (s : Scene) (sceneCoordinates : Vector2) (object : Entity) : Bool :=
  let minX := (object.position.x + s._shakeX) - (object.size.x / 2)
  let minY := (object.position.y + s._shakeY) - (object.size.y / 2)
  let maxX := (object.position.x + s._shakeX) + (object.size.x / 2)
  let maxY := (object.position.y + s._shakeY) + (object.size.y / 2)
  decide (sceneCoordinates.x > minX ∧ sceneCoordinates.x < maxX
    ∧ sceneCoordinates.y > minY ∧ sceneCoordinates.y < maxY)

/-- The arrow function of a `forEach` of the listener, `click` being the last conjunct of
its `if` (`object.click` or `object.info.click`). -/
def clickObject (s : Scene) (sceneCoordinates : Vector2) (button : Nat)
    (click : Entity → Option Callback) (calls : List ClickCall) (object : Entity) :
    List ClickCall :=
  if pointerInside s sceneCoordinates object then
    match click object with
    | some handler => calls ++ [{ handler := handler, button := mouseNames[button]? }]
    | none => calls
  else calls

/-- The listener of `mousedown`, on the calls so far; `_oldviewSize` is the field
`scene._oldviewSize`. -/
def mousedown (s : Scene) (_oldviewSize : Vector2) (e : MouseEvent) (calls : List ClickCall) :
    List ClickCall :=
  let sceneCoordinates : Vector2 :=
    ⟨e.clientX - (_oldviewSize.x / 2), -(e.clientY - (_oldviewSize.y / 2))⟩
  let calls := s._dynamic.foldl
    (clickObject s sceneCoordinates e.button fun object => object.click) calls
  let calls := s._static.foldl
    (clickObject s sceneCoordinates e.button fun object => object.click) calls
  s._ui.foldl (clickObject s sceneCoordinates e.button fun object => object.info.click) calls

end scene

/-! ## The level manager (`levelManager.js`) -/

/-- Function `Array.prototype.pickRandom`, with the value `r` of `Math.random()` as an
argument: `this[Math.floor(r * this.length)]`. -/
def List.pickRandom {α : Type} (xs : List α) (r : ℚ) : Option α :=
  match ⌊r * (xs.length : ℚ)⌋ with
  | Int.ofNat i => xs[i]?
  | Int.negSucc _ => none

/-- The array `level_functions` of `levels.conf.js`, by the names of the functions. -/
def level_functions : List String := ["falling_blocks", "rugby", "football_keeper"]

/-- A call of a level function from the level manager: `default_level()`, a function taken
from `level_functions`, or the call of a missing array element. The level functions are
game code; here they are only logged. -/
inductive LevelCall where
  | default_level
  | level (name : String)
  | typeError
  deriving DecidableEq, Repr

/-- The two arrow functions handed to `scene.removeAll` by the level manager:
`() => { score += addToScore; level_functions.pickRandom()(); }` in `levelPassed` and
`() => { default_level(); }` in `levelFailed`. -/
inductive Closure where
  | passed (addToScore : ℚ)
  | failed
  deriving DecidableEq, Repr

/-- The engine together with the level manager: the global `score`, the arrow functions
created so far (the identifier of one is its index in `closures`) and the calls of level
functions so far. -/
structure Game where
  world : World
  score : ℚ
  closures : List Closure
  started : List LevelCall
  deriving DecidableEq, Repr

/-- The game when the scripts have loaded: `var score = 0`. -/
def Game.init : Game := { world := World.init, score := 0, closures := [], started := [] }

/-- Function `levelPassed(addToScore = 1, isFirstLevel = false)`; a missing argument is
`none`. -/
def levelPassed (g : Game) (addToScore : Option ℚ) (isFirstLevel : Option Bool) : Game :=
  let addToScore := addToScore.getD 1
  let isFirstLevel := isFirstLevel.getD false
  if isFirstLevel then
    { g with started := g.started ++ [LevelCall.default_level] }
  else
    { g with
      closures := g.closures ++ [Closure.passed addToScore]
      world := scene.removeAll g.world (some g.closures.length) }

/-- Function `levelFailed(isFirstLevel = false)`. -/
def levelFailed (g : Game) (isFirstLevel : Option Bool) : Game :=
  let isFirstLevel := isFirstLevel.getD false
  if isFirstLevel then
    { g with started := g.started ++ [LevelCall.default_level] }
  else
    { g with
      closures := g.closures ++ [Closure.failed]
      world := scene.removeAll g.world (some g.closures.length) }

/-- The body of an arrow function of the level manager, `r` being the value of
`Math.random()` inside `pickRandom`. -/
def Closure.run (g : Game) (r : ℚ) : Closure → Game
  | .passed addToScore =>
    { g with
      score := g.score + addToScore
      started := g.started ++
        [match level_functions.pickRandom r with
          | some name => LevelCall.level name
          | none => LevelCall.typeError] }
  | .failed => { g with started := g.started ++ [LevelCall.default_level] }

/-- The function `whenDone` of a pending task, if the task has one. -/
def Timer.whenDone : Timer → Option Callback
  | .remove _ whenDone => whenDone
  | .removeAll whenDone => whenDone

/-- The event loop takes the oldest pending task and runs it; when its `whenDone` is an
arrow function of the level manager, the call of `whenDone` runs the body of that
function. -/
def Game.runTimer (g : Game) (r : ℚ) : Game :=
  match g.world.timers with
  | [] => g
  | t :: _ =>
    let g := { g with world := scene.runTimer g.world }
    match t.whenDone with
    | some cb =>
      match g.closures[cb]? with
      | some closure => closure.run g r
      | none => g
    | none => g

/-! ## The frame loop and the listeners in the words of the specification -/

/-- A host whose `update` does nothing and returns. -/
def idleHost : Host :=
  { newTime := 16, shakeTime := 16, randomX := 0, randomY := 0,
    innerWidth := 800, innerHeight := 600, update := fun _ s => (s, false) }

/-- A host whose `update` raises an error at once. -/
def failingHost : Host :=
  { newTime := 16, shakeTime := 16, randomX := 0, randomY := 0,
    innerWidth := 800, innerHeight := 600, update := fun _ s => (s, true) }

/-- The state after loading at clock `0` and a `keydown` of `d`. -/
def rightHeld : Engine :=
  { Engine.init 0 with input := Input.init.keydown "d" }

/-- The state after loading at clock `0` and a `keydown` of `w`. -/
def upHeld : Engine :=
  { Engine.init 0 with input := Input.init.keydown "w" }

/-- The order of drawing in the words of the specification: the ui entities with
`background`, the static entities, the dynamic entities, the other ui entities. -/
def drawOrder (s : Scene) : List Entity :=
  s._ui.filter (fun el => el.info.background = true) ++ s._static ++ s._dynamic
    ++ s._ui.filter (fun el => el.info.background = false)

/-- The point `p` is strictly inside the box of `e` shifted by the shake offset. -/
def insideShaken (shakeX shakeY : ℚ) (p : Vector2) (e : Entity) : Prop :=
  (e.position.x + shakeX) - e.size.x / 2 < p.x ∧ p.x < (e.position.x + shakeX) + e.size.x / 2
    ∧ (e.position.y + shakeY) - e.size.y / 2 < p.y
    ∧ p.y < (e.position.y + shakeY) + e.size.y / 2

instance (shakeX shakeY : ℚ) (p : Vector2) (e : Entity) :
    Decidable (insideShaken shakeX shakeY p e) :=
  inferInstanceAs (Decidable (_ ∧ _ ∧ _ ∧ _))

/-- The scene coordinates of the pointer of a `mousedown` event. -/
def sceneCoordinates (_oldviewSize : Vector2) (e : MouseEvent) : Vector2 :=
  ⟨e.clientX - (_oldviewSize.x / 2), -(e.clientY - (_oldviewSize.y / 2))⟩

/-- The calls that a click owes to the entities `xs`, in the words of the specification:
every entity whose shifted box strictly contains the pointer and whose `info` has a function
`click` gets one call with the name of the button, in the order of `xs`. -/
def clickCalls (s : Scene) (p : Vector2) (button : Nat) (xs : List Entity) : List ClickCall :=
  xs.filterMap fun object =>
    if insideShaken s._shakeX s._shakeY p object then
      object.info.click.map fun handler => { handler := handler, button := scene.mouseNames[button]? }
    else none

/-- The example of the doc comment of `click`: a dynamic entity at `(0, 0)` of size
`(50, 50)` with a function `click`. -/
def clickScene : Scene :=
  (scene.add.dynamic scene.init ⟨0, 0⟩ ⟨50, 50⟩ { whiteFill with click := some 7 }).2

/-- A click with the left button in the middle of a window of `800` by `600`. -/
def centreClick : MouseEvent := { clientX := 400, clientY := 300, button := 0 }

/-- A ui entity at `(0, 0)` of the given size with a function `click`. -/
def button (guid : Nat) (size : ℚ) (click : Callback) : Entity :=
  { position := ⟨0, 0⟩, size := ⟨size, size⟩, guid := guid,
    info := { whiteFill with click := some click } }

/-- Two stacked ui entities, the larger one added first. -/
def stackedScene : Scene :=
  { scene.init with _ui := [button 0 100 7, button 1 50 8], _guid := 2 }

/-- The scene after `scene.shake(-1, 10)` at clock `0`. -/
def backwardShake : Scene := scene.shake scene.init 0 (-1) 10

/-- A registry in which the box `fallingBox (-90)` with velocity `(5, 0)` overlaps the floor
of `bounce` `1`: the centres have the same `x`. -/
def slideScene : Scene :=
  { scene.init with
    _dynamic := [fallingBox (-90) ⟨5, 0⟩ none]
    _static := [floorEntity (some 1) none]
    _guid := 2 }

/-! ## Corner overlaps, the sweep as a filter and free fall in the words of the
specification -/

/-- The boxes of `d` and `s` overlap in a region of positive area: on both axes the larger
of the two lower borders is below the smaller of the two upper borders. -/
def boxesOverlap (d s : Entity) : Prop :=
  max (d.position.x - d.size.x / 2) (s.position.x - s.size.x / 2)
      < min (d.position.x + d.size.x / 2) (s.position.x + s.size.x / 2)
    ∧ max (d.position.y - d.size.y / 2) (s.position.y - s.size.y / 2)
      < min (d.position.y + d.size.y / 2) (s.position.y + s.size.y / 2)

instance (d s : Entity) : Decidable (boxesOverlap d s) :=
  inferInstanceAs (Decidable (_ ∧ _))

/-- A dynamic entity of size `(10, 10)` at `(0, 0)` with velocity `(3, 0)` and the `whenHit`
function `7`; its box is `(-5, 5) x (-5, 5)`. -/
def cornerBox : Entity :=
  { position := ⟨0, 0⟩, size := ⟨10, 10⟩, guid := 0,
    info := { whiteFill with velocity := some ⟨3, 0⟩, whenHit := some 7 } }

/-- A static entity of size `(10, 10)` at `(9, 9)` with `bounce: 0.5` and the `whenHit`
function `8`; its box is `(4, 14) x (4, 14)`. -/
def cornerWall : Entity :=
  { position := ⟨9, 9⟩, size := ⟨10, 10⟩, guid := 1,
    info := { whiteFill with bounce := some (1 / 2), whenHit := some 8 } }

/-- A registry with `cornerBox` and `cornerWall`: the boxes share the square
`(4, 5) x (4, 5)`. -/
def cornerScene : Scene :=
  { scene.init with _dynamic := [cornerBox], _static := [cornerWall], _guid := 2 }

/-- The auto-removal sweep in the words of the specification: the dynamic partition becomes
the sub-sequence of the entities that are not (marked `autoRemove` and entirely outside the
viewport of `W` by `H`); nothing else changes. -/
def sweepSpec (s : Scene) (W H : ℚ) : Scene :=
  { s with
    _dynamic := s._dynamic.filter fun e =>
      decide (¬ (e.info.autoRemove = true ∧ whollyOutside s._shakeX s._shakeY W H e)) }

/-- A registry for the sweep in a window of `800 x 600` without shake in which adjacent
entities are removed: two `autoRemove` particles outside, one inside, two more outside, one
outside without `autoRemove`. -/
def burstScene : Scene :=
  { scene.init with
    _dynamic := [particle 0 500 true, particle 1 600 true, particle 2 0 true,
      particle 3 700 true, particle 4 800 true, particle 5 900 false]
    _guid := 6 }

/-- Free fall in closed form, in the words of the specification: the velocity and the
position after `n` ticks of length `dt` at speed `s`, for the gravity scale `g`, from the
position `p` and the velocity `v`; `G = 9.8`. -/
def freeFall (g s dt : ℚ) (p v : Vector2) (n : Nat) : Vector2 × Vector2 :=
  (⟨v.x, v.y - n * 9.8 * g * s⟩,
   ⟨p.x + n * v.x * dt * s, p.y + dt * s * (n * v.y - 9.8 * g * s * n * (n + 1) / 2)⟩)

/-- A dynamic entity at `(1, 2)` with velocity `(3, 4)` and `multiplyGravity: 2`. -/
def dropBox : Entity :=
  { position := ⟨1, 2⟩, size := ⟨10, 10⟩, guid := 0,
    info := { whiteFill with velocity := some ⟨3, 4⟩, multiplyGravity := some 2 } }

/-- A registry without static entities that holds `dropBox`, at half speed. -/
def dropScene : Scene :=
  { scene.init with _dynamic := [dropBox], _guid := 1, physicSpeed := 1 / 2 }

/-- A host whose `update` adds two `autoRemove` entities in the frame: one at `(1000, 0)`,
outside a window of `800` by `600`, and one at `(0, 0)`. -/
def spawningHost : Host :=
  { newTime := 16, shakeTime := 16, randomX := 0, randomY := 0,
    innerWidth := 800, innerHeight := 600,
    update := fun _ s =>
      ((scene.add.dynamic
          (scene.add.dynamic s ⟨1000, 0⟩ ⟨10, 10⟩ { whiteFill with autoRemove := true }).2
          ⟨0, 0⟩ ⟨10, 10⟩ { whiteFill with autoRemove := true }).2, false) }

/-! ## The physics step on objects by reference -/

/-- The state threaded through the loop of `_physics` on objects by reference. -/
structure Store.PhysicsState where
  store : Store
  log : List Event
  status : scene.Status

namespace Store

/-- The body of the loop of `_physics(deltaTime)` on objects by reference; `physicSpeed` is
the field `scene.physicSpeed`. The round reads the position and info objects of the entity
and of the colliders as they are when it starts; it writes the new `velocity` into the info
object of the entity and calls `add` on its position object. -/
def physicsBody (physicSpeed deltaTime : ℚ) (i : Nat) (st : PhysicsState) : PhysicsState :=
  match st.status with
  | .running =>
    match st.store._dynamic[i]? with
    | none => { st with status := .threw, log := st.log ++ [Event.typeError] }
    | some e =>
      match (st.store.infos e.info).velocity with
      | none => { st with status := .threw, log := st.log ++ [Event.typeError] }
      | some velocity =>
        let gMul := scene.orOne (st.store.infos e.info).multiplyGravity
        let wantedVelocity : Vector2 :=
          ⟨velocity.x, velocity.y - (scene._gravityValue * gMul * physicSpeed)⟩
        match (st.store._static.map st.store.deref).foldl (scene.collide (st.store.deref e))
            (some (wantedVelocity, [])) with
        | none => { st with status := .notFinite }
        | some (v, events) =>
          { st with
            store := { st.store with
              infos := Function.update st.store.infos e.info
                { st.store.infos e.info with velocity := some v }
              vectors := Function.update st.store.vectors e.position
                ((st.store.vectors e.position).add
                  ⟨(v.x * deltaTime) * physicSpeed, (v.y * deltaTime) * physicSpeed⟩) }
            log := st.log ++ events }
  | _ => st

/-- Function `scene._physics(deltaTime)` on objects by reference. -/
def _physics (m : Store) (physicSpeed deltaTime : ℚ) : PhysicsState :=
  scene.forUp (physicsBody physicSpeed deltaTime) m._dynamic.length 0
    { store := m, log := [], status := .running }

end Store

/-- The store after `scene.add.dynamic(p, ...); scene.add.static(q, ...)` with two position
objects (`p` at address `0`, `q` at address `1`) and two info objects. -/
def separateStore : Store :=
  (Store.add.static
    (Store.add.dynamic (Store.init exampleVectors (fun _ => whiteFill)) 0 ⟨10, 10⟩ 0).2
    1 ⟨10, 10⟩ 1).2

namespace scene

/-! ## Lemmas on the loops -/

theorem getElem?_assignAt (guid : Nat) (f : Entity → Entity) (i j : Nat) (xs : List Entity) :
    (assignAt guid f i xs)[j]? =
      if j = i then (xs[j]?).map (fun e => if e.guid = guid then f e else e) else xs[j]? := by
  unfold assignAt
  by_cases hji : j = i
  · subst hji
    cases h : xs[j]? with
    | none => simp [h]
    | some e =>
      have hj : j < xs.length := by
        rcases List.getElem?_eq_some_iff.mp h with ⟨hj, _⟩
        exact hj
      by_cases hg : e.guid = guid
      · simp [h, hg, List.getElem?_set, hj]
      · simp [h, hg]
  · cases h : xs[i]? with
    | none => simp [hji]
    | some e =>
      by_cases hg : e.guid = guid
      · have : i ≠ j := fun hh => hji hh.symm
        simp [hg, hji, List.getElem?_set, this]
      · simp [hg, hji]

theorem getElem?_forDown_assignAt (guid : Nat) (f : Entity → Entity) (n j : Nat)
    (xs : List Entity) :
    (forDown (assignAt guid f) n xs)[j]? =
      if j < n then (xs[j]?).map (fun e => if e.guid = guid then f e else e) else xs[j]? := by
  induction n generalizing xs with
  | zero => simp [forDown]
  | succ n ih =>
    rw [forDown, ih, getElem?_assignAt]
    by_cases h1 : j < n
    · have : j ≠ n := by omega
      have h2 : j < n + 1 := by omega
      simp [h1, this, h2]
    · by_cases h2 : j = n
      · simp [h2]
      · have : ¬ j < n + 1 := by omega
        simp [h1, h2, this]

theorem getElem?_forUp_assignAt (guid : Nat) (f : Entity → Entity) (n i j : Nat)
    (xs : List Entity) :
    (forUp (assignAt guid f) n i xs)[j]? =
      if i ≤ j ∧ j < i + n then (xs[j]?).map (fun e => if e.guid = guid then f e else e)
      else xs[j]? := by
  induction n generalizing i xs with
  | zero =>
    have : ¬ (i ≤ j ∧ j < i) := by omega
    simp [forUp, this]
  | succ n ih =>
    rw [forUp, ih, getElem?_assignAt]
    by_cases h1 : j = i
    · have h2 : ¬ (i + 1 ≤ j ∧ j < i + 1 + n) := by omega
      have h3 : i ≤ j ∧ j < i + (n + 1) := by omega
      simp only [h1, h2, h3, if_true, if_false]
      simp
    · by_cases h2 : i + 1 ≤ j ∧ j < i + 1 + n
      · have h3 : i ≤ j ∧ j < i + (n + 1) := by omega
        simp only [h1, h2, h3, if_true, if_false]
      · have h3 : ¬ (i ≤ j ∧ j < i + (n + 1)) := by omega
        simp only [h1, h2, h3, if_false]

/-- A descending assignment loop over a whole partition is a `map`. -/
theorem forDown_assignAt (guid : Nat) (f : Entity → Entity) (xs : List Entity) :
    forDown (assignAt guid f) xs.length xs =
      xs.map (fun e => if e.guid = guid then f e else e) := by
  apply List.ext_getElem?
  intro j
  rw [getElem?_forDown_assignAt, List.getElem?_map]
  by_cases h : j < xs.length
  · simp [h]
  · have : xs[j]? = none := List.getElem?_eq_none (by omega)
    simp [h, this]

/-- An ascending assignment loop over a whole partition is a `map`. -/
theorem forUp_assignAt (guid : Nat) (f : Entity → Entity) (xs : List Entity) :
    forUp (assignAt guid f) xs.length 0 xs =
      xs.map (fun e => if e.guid = guid then f e else e) := by
  apply List.ext_getElem?
  intro j
  rw [getElem?_forUp_assignAt, List.getElem?_map]
  by_cases h : j < xs.length
  · simp [h]
  · have : xs[j]? = none := List.getElem?_eq_none (by omega)
    simp [h, this]

/-- A descending loop whose body splices index `i` out when `p` holds of the entry keeps,
of the first `n` entries, those on which `p` fails, in order. -/
theorem forDown_erase (p : Entity → Bool) (body : Nat → List Entity → List Entity)
    (hbody : ∀ i xs, body i xs =
      match xs[i]? with
      | some e => if p e then xs.eraseIdx i else xs
      | none => xs)
    (n : Nat) (xs : List Entity) :
    forDown body n xs = (xs.take n).filter (fun e => !p e) ++ xs.drop n := by
  induction n generalizing xs with
  | zero => simp [forDown]
  | succ n ih =>
    rw [forDown, ih, hbody]
    cases h : xs[n]? with
    | none =>
      have hn : xs.length ≤ n := List.getElem?_eq_none_iff.mp h
      simp only []
      rw [List.take_of_length_le hn, List.take_of_length_le (Nat.le_succ_of_le hn),
        List.drop_of_length_le hn, List.drop_of_length_le (Nat.le_succ_of_le hn)]
    | some e =>
      have hn : n < xs.length := by
        rcases List.getElem?_eq_some_iff.mp h with ⟨hn, _⟩
        exact hn
      have hdrop : xs.drop n = e :: xs.drop (n + 1) := by
        rw [List.drop_eq_getElem_cons hn]
        have : xs[n] = e := by
          rcases List.getElem?_eq_some_iff.mp h with ⟨_, he⟩
          exact he
        rw [this]
      have htake : xs.take (n + 1) = xs.take n ++ [e] := by
        rw [List.take_succ, h]
        rfl
      by_cases hp : p e = true
      · have hlen : (xs.take n).length = n := by
          rw [List.length_take]; omega
        simp only [hp, if_true]
        rw [List.eraseIdx_eq_take_drop_succ, htake, List.filter_append]
        have h1 : (xs.take n ++ xs.drop (n + 1)).take n = xs.take n := List.take_left' hlen
        have h2 : (xs.take n ++ xs.drop (n + 1)).drop n = xs.drop (n + 1) :=
          List.drop_left' hlen
        rw [h1, h2]
        simp [hp]
      · have hp' : p e = false := by simpa using hp
        simp only [hp', Bool.false_eq_true, if_false]
        rw [htake, List.filter_append, hdrop]
        simp [hp']

/-- The splice loop of `remove` over a whole partition keeps exactly the entries whose
handle differs from `guid`, in order. -/
theorem forDown_spliceAt (guid : Nat) (xs : List Entity) :
    forDown (spliceAt guid) xs.length xs = xs.filter (fun e => decide (e.guid ≠ guid)) := by
  rw [forDown_erase (fun e => decide (e.guid = guid)) (spliceAt guid)]
  · simp
  · intro i ys
    unfold spliceAt
    cases ys[i]? with
    | none => rfl
    | some e => simp

/-- The loop of the auto-removal sweep over a whole partition keeps exactly the entries
that are not (marked `autoRemove` and outside the window), in order. -/
theorem forDown_sweepAt (shakeX shakeY innerWidth innerHeight : ℚ) (xs : List Entity) :
    forDown (sweepAt shakeX shakeY innerWidth innerHeight) xs.length xs =
      xs.filter (fun e =>
        !(e.info.autoRemove && outsideScreen shakeX shakeY innerWidth innerHeight e)) := by
  rw [forDown_erase
    (fun e => e.info.autoRemove && outsideScreen shakeX shakeY innerWidth innerHeight e)
    (sweepAt shakeX shakeY innerWidth innerHeight)]
  · simp
  · intro i ys
    unfold sweepAt
    cases ys[i]? with
    | none => rfl
    | some e =>
      cases h1 : e.info.autoRemove <;>
        cases h2 : outsideScreen shakeX shakeY innerWidth innerHeight e <;> simp [h1, h2]

/-- A descending scan finds the last of the first `n` entries that holds `guid`. -/
theorem scanDown_eq (guid : Nat) (xs : List Entity) (n : Nat) :
    scanDown guid xs n = ((xs.take n).reverse).find? (fun e => decide (e.guid = guid)) := by
  induction n with
  | zero => simp [scanDown]
  | succ n ih =>
    rw [scanDown, List.take_succ]
    cases h : xs[n]? with
    | none => simp [ih]
    | some e =>
      by_cases hg : e.guid = guid
      · simp [hg, List.find?_cons]
      · simp [hg, ih, List.find?_cons]

/-- An ascending scan finds the first of the `n` entries from index `i` that holds `guid`. -/
theorem scanUp_eq (guid : Nat) (xs : List Entity) (n i : Nat) :
    scanUp guid xs n i = ((xs.drop i).take n).find? (fun e => decide (e.guid = guid)) := by
  induction n generalizing i with
  | zero => simp [scanUp]
  | succ n ih =>
    rw [scanUp]
    cases h : xs[i]? with
    | none =>
      have hi : xs.length ≤ i := List.getElem?_eq_none_iff.mp h
      simp [ih, List.drop_of_length_le hi, List.drop_of_length_le (Nat.le_succ_of_le hi)]
    | some e =>
      have hi : i < xs.length := by
        rcases List.getElem?_eq_some_iff.mp h with ⟨hi, _⟩
        exact hi
      have he : xs[i] = e := by
        rcases List.getElem?_eq_some_iff.mp h with ⟨_, he⟩
        exact he
      rw [List.drop_eq_getElem_cons hi, he, List.take_succ_cons, List.find?_cons]
      by_cases hg : e.guid = guid
      · simp [hg]
      · simp [hg, ih]

/-- A descending scan of a whole partition. -/
theorem scanDown_length (guid : Nat) (xs : List Entity) :
    scanDown guid xs xs.length = xs.reverse.find? (fun e => decide (e.guid = guid)) := by
  rw [scanDown_eq, List.take_length]

/-- An ascending scan of a whole partition. -/
theorem scanUp_length (guid : Nat) (xs : List Entity) :
    scanUp guid xs xs.length 0 = xs.find? (fun e => decide (e.guid = guid)) := by
  rw [scanUp_eq, List.drop_zero, List.take_length]

/-! ## The handles of the registry under each operation -/

theorem map_guid_assign (guid : Nat) (f : Entity → Entity) (hf : ∀ e, (f e).guid = e.guid)
    (xs : List Entity) :
    (xs.map (fun e => if e.guid = guid then f e else e)).map Entity.guid
      = xs.map Entity.guid := by
  rw [List.map_map]
  apply List.map_congr_left
  intro e _
  by_cases h : e.guid = guid
  · simp [h, hf]
  · simp [h]

theorem map_guid_forUp (guid : Nat) (f : Entity → Entity) (hf : ∀ e, (f e).guid = e.guid)
    (xs : List Entity) :
    (forUp (assignAt guid f) xs.length 0 xs).map Entity.guid = xs.map Entity.guid := by
  rw [forUp_assignAt, map_guid_assign guid f hf]

theorem map_guid_forDown (guid : Nat) (f : Entity → Entity) (hf : ∀ e, (f e).guid = e.guid)
    (xs : List Entity) :
    (forDown (assignAt guid f) xs.length xs).map Entity.guid = xs.map Entity.guid := by
  rw [forDown_assignAt, map_guid_assign guid f hf]

theorem guids_setVelocity (s : Scene) (guid : Nat) (v : Vector2) :
    (setVelocity s guid v).guids = s.guids ∧ (setVelocity s guid v)._guid = s._guid := by
  refine ⟨?_, rfl⟩
  simp only [setVelocity, Scene.guids, List.map_append]
  simp [map_guid_forUp]

theorem guids_setPosition (s : Scene) (guid : Nat) (v : Vector2) :
    (setPosition s guid v).guids = s.guids ∧ (setPosition s guid v)._guid = s._guid := by
  refine ⟨?_, rfl⟩
  simp only [setPosition, Scene.guids, List.map_append]
  simp [map_guid_forUp]

theorem guids_setSize (s : Scene) (guid : Nat) (v : Vector2) :
    (setSize s guid v).guids = s.guids ∧ (setSize s guid v)._guid = s._guid := by
  refine ⟨?_, rfl⟩
  simp only [setSize, Scene.guids, List.map_append]
  simp [map_guid_forUp]

theorem guids_movePosition (s : Scene) (guid : Nat) (v : Vector2) :
    (movePosition s guid v).guids = s.guids ∧ (movePosition s guid v)._guid = s._guid := by
  refine ⟨?_, rfl⟩
  simp only [movePosition, Scene.guids, List.map_append]
  simp [map_guid_forUp]

theorem guids_setInfo (s : Scene) (guid : Nat) (i : Info) :
    (setInfo s guid i).guids = s.guids ∧ (setInfo s guid i)._guid = s._guid := by
  refine ⟨?_, rfl⟩
  simp only [setInfo, Scene.guids, List.map_append]
  simp [map_guid_forDown]

theorem guids_setInfoProperty (s : Scene) (guid : Nat) (p : InfoProperty) :
    (setInfoProperty s guid p).guids = s.guids
      ∧ (setInfoProperty s guid p)._guid = s._guid := by
  refine ⟨?_, rfl⟩
  simp only [setInfoProperty, Scene.guids, List.map_append]
  simp [map_guid_forDown]

theorem guids_removeLoops (s : Scene) (guid : Nat) :
    (removeLoops s guid).guids = s.guids.filter (fun h => decide (h ≠ guid))
      ∧ (removeLoops s guid)._guid = s._guid := by
  simp [removeLoops, Scene.guids, forDown_spliceAt, List.filter_map, Function.comp_def]

theorem guids_sweep (s : Scene) (innerWidth innerHeight : ℚ) :
    (_removeDynamicsOutsideScreen s innerWidth innerHeight).guids.Sublist s.guids
      ∧ (_removeDynamicsOutsideScreen s innerWidth innerHeight)._guid = s._guid := by
  refine ⟨?_, rfl⟩
  simp only [_removeDynamicsOutsideScreen, Scene.guids, forDown_sweepAt, List.map_append]
  exact List.Sublist.append (List.Sublist.append
    (List.Sublist.map _ (List.filter_sublist _)) (List.Sublist.refl _)) (List.Sublist.refl _)

/-- One iteration of the physics loop leaves the static and ui partitions, the counter and
the handles of the dynamic partition as they are. -/
theorem physicsBody_frame (deltaTime : ℚ) (i : Nat) (st : PhysicsState) :
    (physicsBody deltaTime i st).scene._dynamic.map Entity.guid
        = st.scene._dynamic.map Entity.guid
      ∧ (physicsBody deltaTime i st).scene._static = st.scene._static
      ∧ (physicsBody deltaTime i st).scene._ui = st.scene._ui
      ∧ (physicsBody deltaTime i st).scene._guid = st.scene._guid := by
  unfold physicsBody
  split
  · split
    · exact ⟨rfl, rfl, rfl, rfl⟩
    · rename_i d hd
      split
      · exact ⟨rfl, rfl, rfl, rfl⟩
      · dsimp only
        split
        · exact ⟨rfl, rfl, rfl, rfl⟩
        · refine ⟨?_, rfl, rfl, rfl⟩
          simp only [List.map_set]
          apply List.ext_getElem?
          intro j
          rw [List.getElem?_set]
          by_cases hj : i = j
          · subst hj
            rcases List.getElem?_eq_some_iff.mp hd with ⟨hi, he⟩
            simp [hi, he]
          · simp [hj]
  · exact ⟨rfl, rfl, rfl, rfl⟩

theorem forUp_physicsBody_frame (deltaTime : ℚ) (n i : Nat) (st : PhysicsState) :
    (forUp (physicsBody deltaTime) n i st).scene._dynamic.map Entity.guid
        = st.scene._dynamic.map Entity.guid
      ∧ (forUp (physicsBody deltaTime) n i st).scene._static = st.scene._static
      ∧ (forUp (physicsBody deltaTime) n i st).scene._ui = st.scene._ui
      ∧ (forUp (physicsBody deltaTime) n i st).scene._guid = st.scene._guid := by
  induction n generalizing i st with
  | zero => exact ⟨rfl, rfl, rfl, rfl⟩
  | succ n ih =>
    rw [forUp]
    obtain ⟨h1, h2, h3, h4⟩ := ih (i + 1) (physicsBody deltaTime i st)
    obtain ⟨k1, k2, k3, k4⟩ := physicsBody_frame deltaTime i st
    exact ⟨h1.trans k1, h2.trans k2, h3.trans k3, h4.trans k4⟩

theorem guids_physics (s : Scene) (deltaTime : ℚ) :
    (_physics s deltaTime).scene.guids = s.guids
      ∧ (_physics s deltaTime).scene._guid = s._guid := by
  obtain ⟨h1, h2, h3, h4⟩ :=
    forUp_physicsBody_frame deltaTime s._dynamic.length 0
      { scene := s, log := [], status := .running }
  refine ⟨?_, h4⟩
  simp only [Scene.guids, List.map_append, _physics]
  rw [h1, h2, h3]

/-! ## Lemmas on the scans -/

theorem scanDown_eq_none_iff (guid : Nat) (xs : List Entity) :
    scanDown guid xs xs.length = none ↔ ∀ e ∈ xs, e.guid ≠ guid := by
  rw [scanDown_length, List.find?_eq_none]
  simp

theorem scanDown_eq_some {guid : Nat} {xs : List Entity} {e : Entity}
    (h : scanDown guid xs xs.length = some e) : e ∈ xs ∧ e.guid = guid := by
  rw [scanDown_length] at h
  have h1 := List.mem_of_find?_eq_some h
  have h2 := List.find?_some h
  exact ⟨List.mem_reverse.mp h1, by simpa using h2⟩

theorem scanUp_eq_none_iff (guid : Nat) (xs : List Entity) :
    scanUp guid xs xs.length 0 = none ↔ ∀ e ∈ xs, e.guid ≠ guid := by
  rw [scanUp_length, List.find?_eq_none]
  simp

/-- The call `scene.exists(guid)` is `true` exactly when some stored entity holds `guid`. -/
theorem exists_eq_true_iff (s : Scene) (guid : Nat) :
    «exists» s guid = true ↔ ∃ e ∈ s._dynamic ++ s._static ++ s._ui, e.guid = guid := by
  unfold «exists»
  cases h1 : scanDown guid s._dynamic s._dynamic.length with
  | some e =>
    obtain ⟨hm, hg⟩ := scanDown_eq_some h1
    simp only [true_iff]
    exact ⟨e, List.mem_append_left _ (List.mem_append_left _ hm), hg⟩
  | none =>
    cases h2 : scanDown guid s._static s._static.length with
    | some e =>
      obtain ⟨hm, hg⟩ := scanDown_eq_some h2
      simp only [true_iff]
      exact ⟨e, List.mem_append_left _ (List.mem_append_right _ hm), hg⟩
    | none =>
      cases h3 : scanDown guid s._ui s._ui.length with
      | some e =>
        obtain ⟨hm, hg⟩ := scanDown_eq_some h3
        simp only [true_iff]
        exact ⟨e, List.mem_append_right _ hm, hg⟩
      | none =>
        simp only [Bool.false_eq_true, false_iff]
        rintro ⟨e, hm, hg⟩
        rcases List.mem_append.mp hm with hm | hm
        · rcases List.mem_append.mp hm with hm | hm
          · exact (scanDown_eq_none_iff _ _).mp h1 e hm hg
          · exact (scanDown_eq_none_iff _ _).mp h2 e hm hg
        · exact (scanDown_eq_none_iff _ _).mp h3 e hm hg

/-- The call `scene.exists(guid)` is `false` exactly when no stored entity holds `guid`. -/
theorem exists_eq_false_iff (s : Scene) (guid : Nat) :
    «exists» s guid = false ↔ ∀ e ∈ s._dynamic ++ s._static ++ s._ui, e.guid ≠ guid := by
  rw [← Bool.not_eq_true, exists_eq_true_iff]
  constructor
  · intro h e he hg
    exact h ⟨e, he, hg⟩
  · rintro h ⟨e, he, hg⟩
    exact h e he hg

/-- The loops of the task of `remove` are the removal of the specification. -/
theorem removeLoops_eq_removeSpec (s : Scene) (guid : Nat) :
    removeLoops s guid = removeSpec s guid := by
  simp only [removeLoops, removeSpec, forDown_spliceAt]

/-! ## Loops that find no entity with the handle -/

theorem map_assign_absent (guid : Nat) (f : Entity → Entity) (xs : List Entity)
    (h : ∀ e ∈ xs, e.guid ≠ guid) :
    xs.map (fun e => if e.guid = guid then f e else e) = xs := by
  conv_rhs => rw [← List.map_id xs]
  apply List.map_congr_left
  intro e he
  simp [h e he]

theorem forUp_assignAt_absent (guid : Nat) (f : Entity → Entity) (xs : List Entity)
    (h : ∀ e ∈ xs, e.guid ≠ guid) :
    forUp (assignAt guid f) xs.length 0 xs = xs := by
  rw [forUp_assignAt, map_assign_absent guid f xs h]

theorem forDown_assignAt_absent (guid : Nat) (f : Entity → Entity) (xs : List Entity)
    (h : ∀ e ∈ xs, e.guid ≠ guid) :
    forDown (assignAt guid f) xs.length xs = xs := by
  rw [forDown_assignAt, map_assign_absent guid f xs h]

/-! ## The getters as searches -/

theorem getPosition_eq (s : Scene) (h : Nat) :
    getPosition s h =
      ((s._dynamic.reverse ++ s._static.reverse ++ s._ui.reverse).find?
        (fun e => decide (e.guid = h))).map Entity.position := by
  unfold getPosition
  rw [scanDown_length, scanDown_length, scanDown_length, List.find?_append, List.find?_append]
  cases s._dynamic.reverse.find? (fun e => decide (e.guid = h)) <;>
    cases s._static.reverse.find? (fun e => decide (e.guid = h)) <;>
    cases s._ui.reverse.find? (fun e => decide (e.guid = h)) <;> rfl

theorem getInfo_eq (s : Scene) (h : Nat) :
    getInfo s h =
      ((s._dynamic.reverse ++ s._static.reverse ++ s._ui.reverse).find?
        (fun e => decide (e.guid = h))).map Entity.info := by
  unfold getInfo
  rw [scanDown_length, scanDown_length, scanDown_length, List.find?_append, List.find?_append]
  cases s._dynamic.reverse.find? (fun e => decide (e.guid = h)) <;>
    cases s._static.reverse.find? (fun e => decide (e.guid = h)) <;>
    cases s._ui.reverse.find? (fun e => decide (e.guid = h)) <;> rfl

theorem getSize_eq (s : Scene) (h : Nat) :
    getSize s h =
      ((s._dynamic ++ s._static ++ s._ui).find?
        (fun e => decide (e.guid = h))).map Entity.size := by
  unfold getSize
  rw [scanUp_length, scanUp_length, scanUp_length, List.find?_append, List.find?_append]
  cases s._dynamic.find? (fun e => decide (e.guid = h)) <;>
    cases s._static.find? (fun e => decide (e.guid = h)) <;>
    cases s._ui.find? (fun e => decide (e.guid = h)) <;> rfl

theorem getVelocity_eq (s : Scene) (h : Nat) :
    getVelocity s h =
      (s._dynamic.reverse.find? (fun e => decide (e.guid = h))).bind
        (fun e => e.info.velocity) := by
  unfold getVelocity
  rw [scanDown_length]
  cases s._dynamic.reverse.find? (fun e => decide (e.guid = h)) <;> rfl

theorem exists_eq_isSome (s : Scene) (h : Nat) :
    «exists» s h =
      ((s._dynamic.reverse ++ s._static.reverse ++ s._ui.reverse).find?
        (fun e => decide (e.guid = h))).isSome := by
  unfold «exists»
  rw [scanDown_length, scanDown_length, scanDown_length, List.find?_append, List.find?_append]
  cases s._dynamic.reverse.find? (fun e => decide (e.guid = h)) <;>
    cases s._static.reverse.find? (fun e => decide (e.guid = h)) <;>
    cases s._ui.reverse.find? (fun e => decide (e.guid = h)) <;> rfl

/-- When at most one entry satisfies `p`, searching from the end finds what searching from
the start finds. -/
theorem find?_reverse_of_countP_le_one (p : Entity → Bool) (xs : List Entity)
    (h : xs.countP p ≤ 1) : xs.reverse.find? p = xs.find? p := by
  induction xs with
  | nil => rfl
  | cons a xs ih =>
    rw [List.reverse_cons, List.find?_append, List.find?_cons]
    cases hp : p a with
    | true =>
      have h0 : xs.countP p = 0 := by
        rw [List.countP_cons_of_pos _ _ hp] at h
        omega
      have hnone : xs.reverse.find? p = none := by
        rw [List.find?_eq_none]
        intro e he
        have := (List.countP_eq_zero.mp h0) e (List.mem_reverse.mp he)
        simpa using this
      simp [hnone, List.find?_cons, hp]
    | false =>
      have h1 : xs.countP p ≤ 1 := by
        rw [List.countP_cons_of_neg _ _ (by simp [hp])] at h
        exact h
      simp [List.find?_cons, hp, ih h1]

/-- The descending scans find the first holder when no partition holds `h` twice. -/
theorem find?_reverse_partitions (s : Scene) (h : Nat)
    (hd : s._dynamic.countP (fun e => decide (e.guid = h)) ≤ 1)
    (hs : s._static.countP (fun e => decide (e.guid = h)) ≤ 1)
    (hu : s._ui.countP (fun e => decide (e.guid = h)) ≤ 1) :
    (s._dynamic.reverse ++ s._static.reverse ++ s._ui.reverse).find?
        (fun e => decide (e.guid = h))
      = (s._dynamic ++ s._static ++ s._ui).find? (fun e => decide (e.guid = h)) := by
  rw [List.find?_append, List.find?_append, List.find?_append, List.find?_append,
    find?_reverse_of_countP_le_one _ _ hd, find?_reverse_of_countP_le_one _ _ hs,
    find?_reverse_of_countP_le_one _ _ hu]

/-! ## Searches after an assignment loop, and in a registry without duplicates -/

theorem find?_map_assign (h : Nat) (f : Entity → Entity) (hf : ∀ e, (f e).guid = e.guid)
    (xs : List Entity) :
    (xs.map (fun e => if e.guid = h then f e else e)).find? (fun e => decide (e.guid = h))
      = (xs.find? (fun e => decide (e.guid = h))).map f := by
  induction xs with
  | nil => rfl
  | cons a xs ih =>
    by_cases ha : a.guid = h
    · simp [List.find?_cons, ha, hf]
    · simp only [List.map_cons, List.find?_cons, ha, if_false, decide_False]
      exact ih

theorem find?_of_nodup_guid (xs : List Entity) (hn : (xs.map Entity.guid).Nodup)
    (e : Entity) (he : e ∈ xs) :
    xs.find? (fun x => decide (x.guid = e.guid)) = some e := by
  induction xs with
  | nil => cases he
  | cons a xs ih =>
    rw [List.map_cons, List.nodup_cons] at hn
    by_cases ha : a.guid = e.guid
    · rcases List.mem_cons.mp he with hea | hex
      · subst hea
        simp [List.find?_cons]
      · exact absurd (ha ▸ List.mem_map_of_mem Entity.guid hex) hn.1
    · rcases List.mem_cons.mp he with hea | hex
      · exact absurd (hea ▸ rfl) ha
      · simp only [List.find?_cons, ha, decide_False]
        exact ih hn.2 hex

theorem find?_reverse_of_nodup_guid (xs : List Entity) (hn : (xs.map Entity.guid).Nodup)
    (e : Entity) (he : e ∈ xs) :
    xs.reverse.find? (fun x => decide (x.guid = e.guid)) = some e := by
  apply find?_of_nodup_guid
  · rw [List.map_reverse]
    exact List.nodup_reverse.mpr hn
  · exact List.mem_reverse.mpr he

/-! ## Frame of an assignment loop -/

theorem forall₂_map_assign (R : Entity → Entity → Prop) (h : Nat) (f : Entity → Entity)
    (hsame : ∀ e, R e e) (hf : ∀ e, e.guid = h → R e (f e)) (xs : List Entity) :
    List.Forall₂ R xs (xs.map (fun e => if e.guid = h then f e else e)) := by
  rw [List.forall₂_map_right_iff, List.forall₂_same]
  intro e _
  by_cases he : e.guid = h
  · simp only [he, if_true]
    exact hf e he
  · simp only [he, if_false]
    exact hsame e

/-- Some stored entity holds `h` exactly when the descending search over the partitions
finds one. -/
theorem find?_reverse_isSome_of_exists (s : Scene) (h : Nat) (hex : «exists» s h = true) :
    ∃ e, (s._dynamic.reverse ++ s._static.reverse ++ s._ui.reverse).find?
        (fun e => decide (e.guid = h)) = some e ∧ e.guid = h := by
  rw [exists_eq_isSome] at hex
  obtain ⟨e, he⟩ := Option.isSome_iff_exists.mp hex
  exact ⟨e, he, by simpa using List.find?_some he⟩

/-- Some stored entity holds `h` exactly when the ascending search over the partitions
finds one. -/
theorem find?_isSome_of_exists (s : Scene) (h : Nat) (hex : «exists» s h = true) :
    ∃ e, (s._dynamic ++ s._static ++ s._ui).find?
        (fun e => decide (e.guid = h)) = some e ∧ e.guid = h := by
  rw [exists_eq_true_iff] at hex
  obtain ⟨e0, hm, hg⟩ := hex
  have hsome : ((s._dynamic ++ s._static ++ s._ui).find?
      (fun e => decide (e.guid = h))).isSome := by
    rw [List.find?_isSome]
    exact ⟨e0, hm, by simpa using hg⟩
  obtain ⟨e, he⟩ := Option.isSome_iff_exists.mp hsome
  exact ⟨e, he, by simpa using List.find?_some he⟩

end scene

/-! ## Handles along a run -/

/-- What one step does to the stored handles and to the counter: either no handle is
returned, the stored handles become a sub-sequence and the counter stays; or the old
counter value is returned, it is the one new stored handle, and the counter grows by one. -/
theorem step_guids {w w' : World} {r : Option Nat} (h : Step w r w') :
    (r = none ∧ w'.scene.guids.Sublist w.scene.guids ∧ w'.scene._guid = w.scene._guid)
    ∨ (r = some w.scene._guid ∧ w'.scene.guids.Perm (w.scene._guid :: w.scene.guids)
        ∧ w'.scene._guid = w.scene._guid + 1) := by
  cases h with
  | addDynamic position size info =>
    right
    unfold add.dynamic
    split
    · refine ⟨rfl, ?_, rfl⟩
      simp only [Scene.guids, List.map_append, List.map_cons, List.map_nil, List.append_assoc,
        List.singleton_append]
      exact List.perm_middle
    · refine ⟨rfl, ?_, rfl⟩
      simp only [Scene.guids, List.map_append, List.map_cons, List.map_nil, List.append_assoc,
        List.singleton_append]
      exact List.perm_middle
  | addStatic position size info =>
    right
    refine ⟨rfl, ?_, rfl⟩
    simp only [add.static, Scene.guids, List.map_append, List.map_cons, List.map_nil,
      List.append_assoc, List.singleton_append]
    exact (List.perm_middle.append_left _).trans List.perm_middle
  | addUi position size info =>
    right
    refine ⟨rfl, ?_, rfl⟩
    simp only [add.ui, Scene.guids, List.map_append, List.map_cons, List.map_nil,
      List.append_assoc]
    rw [← List.append_assoc, ← List.append_assoc]
    have := List.perm_append_singleton w.scene._guid
      (List.map Entity.guid w.scene._dynamic ++ List.map Entity.guid w.scene._static
        ++ List.map Entity.guid w.scene._ui)
    simpa only [List.append_assoc] using this
  | setVelocity guid v =>
    left
    exact ⟨rfl, by rw [(guids_setVelocity _ _ _).1], (guids_setVelocity _ _ _).2⟩
  | setPosition guid v =>
    left
    exact ⟨rfl, by rw [(guids_setPosition _ _ _).1], (guids_setPosition _ _ _).2⟩
  | setSize guid v =>
    left
    exact ⟨rfl, by rw [(guids_setSize _ _ _).1], (guids_setSize _ _ _).2⟩
  | movePosition guid v =>
    left
    exact ⟨rfl, by rw [(guids_movePosition _ _ _).1], (guids_movePosition _ _ _).2⟩
  | setInfo guid i =>
    left
    exact ⟨rfl, by rw [(guids_setInfo _ _ _).1], (guids_setInfo _ _ _).2⟩
  | setInfoProperty guid p =>
    left
    exact ⟨rfl, by rw [(guids_setInfoProperty _ _ _).1], (guids_setInfoProperty _ _ _).2⟩
  | remove guid whenDone => exact Or.inl ⟨rfl, List.Sublist.refl _, rfl⟩
  | removeAll whenDone => exact Or.inl ⟨rfl, List.Sublist.refl _, rfl⟩
  | timer =>
    left
    refine ⟨rfl, ?_⟩
    unfold runTimer
    cases w.timers with
    | nil => exact ⟨List.Sublist.refl _, rfl⟩
    | cons t ts =>
      cases t with
      | remove guid whenDone =>
        cases whenDone with
        | none =>
          exact ⟨by
            show (removeLoops w.scene guid).guids.Sublist w.scene.guids
            rw [(guids_removeLoops _ _).1]
            exact List.filter_sublist _, (guids_removeLoops _ _).2⟩
        | some cb =>
          exact ⟨by
            show (removeLoops w.scene guid).guids.Sublist w.scene.guids
            rw [(guids_removeLoops _ _).1]
            exact List.filter_sublist _, (guids_removeLoops _ _).2⟩
      | removeAll whenDone =>
        cases whenDone with
        | none => exact ⟨by simp [runTask, clearAll, Scene.guids], rfl⟩
        | some cb => exact ⟨by simp [runTask, clearAll, Scene.guids], rfl⟩
  | physics deltaTime finite =>
    left
    exact ⟨rfl, by
      show (_physics w.scene deltaTime).scene.guids.Sublist w.scene.guids
      rw [(guids_physics _ _).1], (guids_physics _ _).2⟩
  | sweep innerWidth innerHeight =>
    left
    exact ⟨rfl, (guids_sweep _ _ _).1, (guids_sweep _ _ _).2⟩
  | configure c => exact Or.inl ⟨rfl, List.Sublist.refl _, rfl⟩
  | touch dynamic static ui hd hs hu =>
    left
    refine ⟨rfl, ?_, rfl⟩
    simp only [Scene.guids, List.map_append, hd, hs, hu]
    exact List.Sublist.refl _

/-- Along a run the returned handles are strictly increasing and all below the counter. -/
theorem run_handles {hs : List Nat} {w : World} (h : Run hs w) :
    hs.Pairwise (· < ·) ∧ ∀ g ∈ hs, g < w.scene._guid := by
  induction h with
  | start => exact ⟨List.Pairwise.nil, by simp⟩
  | step hrun hstep ih =>
    obtain ⟨hp, hlt⟩ := ih
    rcases step_guids hstep with ⟨hr, _, hg⟩ | ⟨hr, _, hg⟩
    · subst hr
      simp only [Option.toList, List.append_nil]
      exact ⟨hp, fun g hgm => by rw [hg]; exact hlt g hgm⟩
    · subst hr
      simp only [Option.toList]
      refine ⟨?_, ?_⟩
      · rw [List.pairwise_append]
        refine ⟨hp, List.pairwise_singleton _ _, ?_⟩
        intro a ha b hb
        simp only [List.mem_singleton] at hb
        subst hb
        exact hlt a ha
      · intro g hgm
        rw [hg]
        rcases List.mem_append.mp hgm with hm | hm
        · exact Nat.lt_succ_of_lt (hlt g hm)
        · simp only [List.mem_singleton] at hm
          subst hm
          exact Nat.lt_succ_self _

/-- Along a run no two stored entities hold the same handle, and every stored handle is
below the counter. -/
theorem run_guids {hs : List Nat} {w : World} (h : Run hs w) :
    w.scene.guids.Nodup ∧ ∀ g ∈ w.scene.guids, g < w.scene._guid := by
  induction h with
  | start => exact ⟨by simp [World.init, scene.init, Scene.guids], by
      simp [World.init, scene.init, Scene.guids]⟩
  | step hrun hstep ih =>
    obtain ⟨hn, hlt⟩ := ih
    rcases step_guids hstep with ⟨_, hsub, hg⟩ | ⟨_, hperm, hg⟩
    · exact ⟨hn.sublist hsub, fun g hgm => by rw [hg]; exact hlt g (hsub.subset hgm)⟩
    · refine ⟨?_, ?_⟩
      · rw [hperm.nodup_iff, List.nodup_cons]
        exact ⟨fun hmem => Nat.lt_irrefl _ (hlt _ hmem), hn⟩
      · intro g hgm
        rw [hg]
        rcases List.mem_cons.mp (hperm.subset hgm) with hm | hm
        · rw [hm]; exact Nat.lt_succ_self _
        · exact Nat.lt_succ_of_lt (hlt g hm)

/-- C1: in every run of the engine from its initial state (calls of `scene.add.dynamic`,
`scene.add.static`, `scene.add.ui` interleaved in any way with the setters, `remove`,
`removeAll`, the pending tasks, physics steps and sweeps) the handles returned by the `add`
calls, listed in the order of the calls, are strictly increasing; in particular no handle
is returned twice. -/
theorem add_handles_strictly_increasing (hs : List Nat) (w : World) (h : Run hs w) :
    hs.Pairwise (· < ·) ∧ hs.Nodup := by
  have hp := (run_handles h).1
  exact ⟨hp, hp.imp (fun hab => Nat.ne_of_lt hab)⟩

/-- Witness of C1: a dynamic entity is added and removed, then a static and a ui entity are
added; the three handles are `0`, `1`, `2`. -/
theorem add_handles_strictly_increasing_witness :
    ∃ w : World, Run [0, 1, 2] w ∧ ([0, 1, 2].Pairwise (· < ·) ∧ [0, 1, 2].Nodup) := by
  have hrun :=
    Run.step (Run.step (Run.step (Run.step (Run.step Run.start
      (Step.addDynamic _ ⟨0, 0⟩ ⟨50, 50⟩ whiteFill))
      (Step.remove _ 0 none))
      (Step.timer _))
      (Step.addStatic _ ⟨0, 0⟩ ⟨50, 50⟩ whiteFill))
      (Step.addUi _ ⟨0, 0⟩ ⟨50, 50⟩ whiteFill)
  exact ⟨_, hrun, add_handles_strictly_increasing _ _ hrun⟩

/-- C2: in every world reached by a run from the initial (empty) registry, no handle occurs
twice in `_dynamic ++ _static ++ _ui`, so no handle is in two partitions, and every stored
handle is smaller than the counter `scene._guid`. -/
theorem registry_handles_unique (hs : List Nat) (w : World) (h : Run hs w) :
    ((w.scene._dynamic ++ w.scene._static ++ w.scene._ui).map Entity.guid).Nodup
    ∧ (∀ g : Nat, ((w.scene._dynamic ++ w.scene._static ++ w.scene._ui).map Entity.guid).count g
        ≤ 1)
    ∧ (∀ g : Nat, ¬ (g ∈ w.scene._dynamic.map Entity.guid ∧ g ∈ w.scene._static.map Entity.guid))
    ∧ (∀ g : Nat, ¬ (g ∈ w.scene._dynamic.map Entity.guid ∧ g ∈ w.scene._ui.map Entity.guid))
    ∧ (∀ g : Nat, ¬ (g ∈ w.scene._static.map Entity.guid ∧ g ∈ w.scene._ui.map Entity.guid))
    ∧ (∀ e ∈ w.scene._dynamic ++ w.scene._static ++ w.scene._ui, e.guid < w.scene._guid) := by
  obtain ⟨hn, hlt⟩ := run_guids h
  have hn' : ((w.scene._dynamic ++ w.scene._static ++ w.scene._ui).map Entity.guid).Nodup := hn
  refine ⟨hn', fun g => List.nodup_iff_count_le_one.mp hn' g, ?_, ?_, ?_, ?_⟩
  · rintro g ⟨h1, h2⟩
    simp only [List.map_append, List.nodup_append] at hn'
    exact hn'.1.2.2 h1 h2
  · rintro g ⟨h1, h2⟩
    simp only [List.map_append, List.nodup_append] at hn'
    exact hn'.2.2 (List.mem_append_left _ h1) h2
  · rintro g ⟨h1, h2⟩
    simp only [List.map_append, List.nodup_append] at hn'
    exact hn'.2.2 (List.mem_append_right _ h1) h2
  · intro e he
    exact hlt e.guid (List.mem_map_of_mem _ he)

/-- Witness of C2: after adding one entity to each partition the registry holds the handles
`0`, `1`, `2` and the counter is `3`. -/
theorem registry_handles_unique_witness :
    ∃ w : World, Run [0, 1, 2] w
      ∧ (((w.scene._dynamic ++ w.scene._static ++ w.scene._ui).map Entity.guid).Nodup
      ∧ (∀ g : Nat,
          ((w.scene._dynamic ++ w.scene._static ++ w.scene._ui).map Entity.guid).count g ≤ 1)
      ∧ (∀ g : Nat,
          ¬ (g ∈ w.scene._dynamic.map Entity.guid ∧ g ∈ w.scene._static.map Entity.guid))
      ∧ (∀ g : Nat,
          ¬ (g ∈ w.scene._dynamic.map Entity.guid ∧ g ∈ w.scene._ui.map Entity.guid))
      ∧ (∀ g : Nat,
          ¬ (g ∈ w.scene._static.map Entity.guid ∧ g ∈ w.scene._ui.map Entity.guid))
      ∧ (∀ e ∈ w.scene._dynamic ++ w.scene._static ++ w.scene._ui, e.guid < w.scene._guid)) := by
  have hrun :=
    Run.step (Run.step (Run.step Run.start
      (Step.addDynamic _ ⟨0, 0⟩ ⟨50, 50⟩ whiteFill))
      (Step.addStatic _ ⟨0, -100⟩ ⟨200, 20⟩ whiteFill))
      (Step.addUi _ ⟨0, 0⟩ ⟨50, 50⟩ whiteFill)
  exact ⟨_, hrun, registry_handles_unique _ _ hrun⟩

/-- C3: right after `scene.add.dynamic`, `scene.add.static` or `scene.add.ui` returned the
handle `h`, `scene.exists(h)` is `true`; and when the task of `remove(h, onDone)` calls
`onDone`, `scene.exists(h)` is `false` in the registry of that moment (which is also the
registry the task leaves behind). -/
theorem exists_after_add_and_after_remove (s : Scene) (position size : Vector2) (info : Info)
    (w : World) (h : Nat) (onDone : Callback) :
    scene.«exists» (add.dynamic s position size info).2 (add.dynamic s position size info).1
      = true
    ∧ scene.«exists» (add.static s position size info).2 (add.static s position size info).1
      = true
    ∧ scene.«exists» (add.ui s position size info).2 (add.ui s position size info).1 = true
    ∧ ∃ snapshot : Scene,
        (runTask w (Timer.remove h (some onDone))).log
          = w.log ++ [Event.whenDone onDone snapshot]
        ∧ scene.«exists» snapshot h = false
        ∧ (runTask w (Timer.remove h (some onDone))).scene = snapshot := by
  refine ⟨?_, ?_, ?_, ?_⟩
  · rw [exists_eq_true_iff]
    unfold add.dynamic
    split
    · exact ⟨⟨position, size, s._guid, { info with velocity := some ⟨0, 0⟩ }⟩, by simp, rfl⟩
    · exact ⟨⟨position, size, s._guid, info⟩, by simp, rfl⟩
  · rw [exists_eq_true_iff]
    exact ⟨⟨position, size, s._guid, info⟩, by simp [add.static], rfl⟩
  · rw [exists_eq_true_iff]
    exact ⟨⟨position, size, s._guid, info⟩, by simp [add.ui], rfl⟩
  · refine ⟨removeLoops w.scene h, rfl, ?_, rfl⟩
    rw [exists_eq_false_iff, removeLoops_eq_removeSpec]
    intro e he
    simp only [removeSpec, List.mem_append, List.mem_filter, decide_eq_true_eq] at he
    rcases he with (he | he) | he <;> exact he.2

/-- C4: the calls `remove(h, onDone)` and `removeAll(onDone)` leave the scene (so the three
partitions) and the event log as they are and only add one pending task at the end of the
queue; when that task runs, the one call of `onDone` is logged with the registry after the
removal, which is the registry the task leaves behind. -/
theorem remove_is_deferred (w : World) (h : Nat) (whenDone : Option Callback)
    (onDone : Callback) :
    (remove w h whenDone).scene = w.scene
    ∧ (remove w h whenDone).log = w.log
    ∧ (remove w h whenDone).timers = w.timers ++ [Timer.remove h whenDone]
    ∧ (removeAll w whenDone).scene = w.scene
    ∧ (removeAll w whenDone).log = w.log
    ∧ (removeAll w whenDone).timers = w.timers ++ [Timer.removeAll whenDone]
    ∧ (runTask w (Timer.remove h (some onDone))).scene = removeSpec w.scene h
    ∧ (runTask w (Timer.remove h (some onDone))).log
        = w.log ++ [Event.whenDone onDone (removeSpec w.scene h)]
    ∧ (runTask w (Timer.removeAll (some onDone))).scene = clearAll w.scene
    ∧ (runTask w (Timer.removeAll (some onDone))).log
        = w.log ++ [Event.whenDone onDone (clearAll w.scene)] := by
  refine ⟨rfl, rfl, rfl, rfl, rfl, rfl, ?_, ?_, rfl, rfl⟩
  · exact removeLoops_eq_removeSpec _ _
  · show w.log ++ [Event.whenDone onDone (removeLoops w.scene h)] = _
    rw [removeLoops_eq_removeSpec]

/-- C5: for every registry (duplicate handles included) the task of `remove(h)` turns each
partition into the sub-sequence of its entities whose handle differs from `h`, exactly as
the removal of the specification does; nothing else of the scene changes. So no entity of
the result holds `h`, and every entity with another handle is kept, unchanged and in its
place relative to the others. -/
theorem remove_task_is_filter (w : World) (h : Nat) (whenDone : Option Callback) :
    (runTask w (Timer.remove h whenDone)).scene = removeSpec w.scene h
    ∧ (runTask w (Timer.remove h whenDone)).scene._dynamic
        = w.scene._dynamic.filter (fun e => decide (e.guid ≠ h))
    ∧ (runTask w (Timer.remove h whenDone)).scene._static
        = w.scene._static.filter (fun e => decide (e.guid ≠ h))
    ∧ (runTask w (Timer.remove h whenDone)).scene._ui
        = w.scene._ui.filter (fun e => decide (e.guid ≠ h))
    ∧ (∀ e ∈ (runTask w (Timer.remove h whenDone)).scene._dynamic
          ++ (runTask w (Timer.remove h whenDone)).scene._static
          ++ (runTask w (Timer.remove h whenDone)).scene._ui, e.guid ≠ h) := by
  have hscene : (runTask w (Timer.remove h whenDone)).scene = removeSpec w.scene h := by
    cases whenDone with
    | none => exact removeLoops_eq_removeSpec _ _
    | some cb => exact removeLoops_eq_removeSpec _ _
  refine ⟨hscene, ?_, ?_, ?_, ?_⟩
  · rw [hscene]; rfl
  · rw [hscene]; rfl
  · rw [hscene]; rfl
  · rw [hscene]
    intro e he
    simp only [removeSpec, List.mem_append, List.mem_filter, decide_eq_true_eq] at he
    rcases he with (he | he) | he <;> exact he.2

/-- C6: for every registry, the task of `removeAll(onDone)` leaves `_dynamic`, `_static` and
`_ui` empty, so that `scene.exists(h)` is `false` for every `h`, and adds exactly one event
to the log: the call of `onDone`, made when the registry is already the cleared one. -/
theorem removeAll_task_clears (w : World) (onDone : Callback) :
    (runTask w (Timer.removeAll (some onDone))).scene._dynamic = []
    ∧ (runTask w (Timer.removeAll (some onDone))).scene._static = []
    ∧ (runTask w (Timer.removeAll (some onDone))).scene._ui = []
    ∧ (∀ h : Nat, scene.«exists» (runTask w (Timer.removeAll (some onDone))).scene h = false)
    ∧ (runTask w (Timer.removeAll (some onDone))).log
        = w.log ++ [Event.whenDone onDone (runTask w (Timer.removeAll (some onDone))).scene]
    ∧ (runTask w (Timer.removeAll (some onDone))).log.countP
          (fun ev => match ev with
            | Event.whenDone cb _ => decide (cb = onDone)
            | _ => false)
        = w.log.countP
          (fun ev => match ev with
            | Event.whenDone cb _ => decide (cb = onDone)
            | _ => false) + 1 := by
  refine ⟨rfl, rfl, rfl, ?_, rfl, ?_⟩
  · intro h
    rw [exists_eq_false_iff]
    intro e he
    simp [runTask, clearAll] at he
  · simp [runTask]

/-- C7: for every registry and every handle `h` that no stored entity holds
(`scene.exists(h)` is `false`), `getPosition(h)`, `getSize(h)`, `getVelocity(h)` and
`getInfo(h)` return `undefined` (`none`), and `setPosition`, `setSize`, `setVelocity`,
`setInfo`, `setInfoProperty` and `movePosition` called with `h` return the scene they were
given. -/
theorem absent_handle_is_harmless (s : Scene) (h : Nat) (hab : scene.«exists» s h = false)
    (v : Vector2) (i : Info) (p : InfoProperty) :
    getPosition s h = none ∧ getSize s h = none ∧ getVelocity s h = none
    ∧ getInfo s h = none
    ∧ setPosition s h v = s ∧ setSize s h v = s ∧ setVelocity s h v = s
    ∧ setInfo s h i = s ∧ setInfoProperty s h p = s ∧ movePosition s h v = s := by
  rw [exists_eq_false_iff] at hab
  have hd : ∀ e ∈ s._dynamic, e.guid ≠ h := fun e he =>
    hab e (List.mem_append_left _ (List.mem_append_left _ he))
  have hs : ∀ e ∈ s._static, e.guid ≠ h := fun e he =>
    hab e (List.mem_append_left _ (List.mem_append_right _ he))
  have hu : ∀ e ∈ s._ui, e.guid ≠ h := fun e he => hab e (List.mem_append_right _ he)
  have kd := (scanDown_eq_none_iff h s._dynamic).mpr hd
  have ks := (scanDown_eq_none_iff h s._static).mpr hs
  have ku := (scanDown_eq_none_iff h s._ui).mpr hu
  have kd' := (scanUp_eq_none_iff h s._dynamic).mpr hd
  have ks' := (scanUp_eq_none_iff h s._static).mpr hs
  have ku' := (scanUp_eq_none_iff h s._ui).mpr hu
  refine ⟨?_, ?_, ?_, ?_, ?_, ?_, ?_, ?_, ?_, ?_⟩
  · simp only [getPosition, kd, ks, ku]
  · simp only [getSize, kd', ks', ku']
  · simp only [getVelocity, kd]
  · simp only [getInfo, kd, ks, ku]
  · unfold setPosition
    rw [forUp_assignAt_absent _ _ _ hd, forUp_assignAt_absent _ _ _ hs,
      forUp_assignAt_absent _ _ _ hu]
  · unfold setSize
    rw [forUp_assignAt_absent _ _ _ hd, forUp_assignAt_absent _ _ _ hs,
      forUp_assignAt_absent _ _ _ hu]
  · unfold setVelocity
    rw [forUp_assignAt_absent _ _ _ hd]
  · unfold setInfo
    rw [forDown_assignAt_absent _ _ _ hd, forDown_assignAt_absent _ _ _ hs,
      forDown_assignAt_absent _ _ _ hu]
  · unfold setInfoProperty
    rw [forDown_assignAt_absent _ _ _ hd, forDown_assignAt_absent _ _ _ hs,
      forDown_assignAt_absent _ _ _ hu]
  · unfold movePosition
    rw [forUp_assignAt_absent _ _ _ hd, forUp_assignAt_absent _ _ _ hs,
      forUp_assignAt_absent _ _ _ hu]

/-- Witness of C7: the registry holds one dynamic entity with handle `0`; the handle `7` is
not stored. -/
theorem absent_handle_is_harmless_witness :
    scene.«exists» (add.dynamic scene.init ⟨0, 0⟩ ⟨50, 50⟩ whiteFill).2 7 = false
    ∧ (getPosition (add.dynamic scene.init ⟨0, 0⟩ ⟨50, 50⟩ whiteFill).2 7 = none
      ∧ getSize (add.dynamic scene.init ⟨0, 0⟩ ⟨50, 50⟩ whiteFill).2 7 = none
      ∧ getVelocity (add.dynamic scene.init ⟨0, 0⟩ ⟨50, 50⟩ whiteFill).2 7 = none
      ∧ getInfo (add.dynamic scene.init ⟨0, 0⟩ ⟨50, 50⟩ whiteFill).2 7 = none
      ∧ setPosition (add.dynamic scene.init ⟨0, 0⟩ ⟨50, 50⟩ whiteFill).2 7 ⟨1, 2⟩
          = (add.dynamic scene.init ⟨0, 0⟩ ⟨50, 50⟩ whiteFill).2
      ∧ setSize (add.dynamic scene.init ⟨0, 0⟩ ⟨50, 50⟩ whiteFill).2 7 ⟨1, 2⟩
          = (add.dynamic scene.init ⟨0, 0⟩ ⟨50, 50⟩ whiteFill).2
      ∧ setVelocity (add.dynamic scene.init ⟨0, 0⟩ ⟨50, 50⟩ whiteFill).2 7 ⟨1, 2⟩
          = (add.dynamic scene.init ⟨0, 0⟩ ⟨50, 50⟩ whiteFill).2
      ∧ setInfo (add.dynamic scene.init ⟨0, 0⟩ ⟨50, 50⟩ whiteFill).2 7 whiteFill
          = (add.dynamic scene.init ⟨0, 0⟩ ⟨50, 50⟩ whiteFill).2
      ∧ setInfoProperty (add.dynamic scene.init ⟨0, 0⟩ ⟨50, 50⟩ whiteFill).2 7
          (InfoProperty.autoRemove true)
          = (add.dynamic scene.init ⟨0, 0⟩ ⟨50, 50⟩ whiteFill).2
      ∧ movePosition (add.dynamic scene.init ⟨0, 0⟩ ⟨50, 50⟩ whiteFill).2 7 ⟨1, 2⟩
          = (add.dynamic scene.init ⟨0, 0⟩ ⟨50, 50⟩ whiteFill).2) :=
  ⟨by decide, absent_handle_is_harmless _ 7 (by decide) ⟨1, 2⟩ whiteFill
    (InfoProperty.autoRemove true)⟩

/-- C8, as stated, fails on a registry that holds a handle twice in one partition: in
`twinScene` the first entity holding `0` is at `(0, 0)` with the colour white, while
`getPosition(0)` and `getInfo(0)` answer with the entity added last, at `(5, 5)` with the
colour red. -/
theorem lookup_first_holder_counterexample :
    getPosition twinScene 0 = some ⟨5, 5⟩
    ∧ (firstHolder twinScene 0).map Entity.position = some ⟨0, 0⟩
    ∧ getPosition twinScene 0 ≠ (firstHolder twinScene 0).map Entity.position
    ∧ getInfo twinScene 0 ≠ (firstHolder twinScene 0).map Entity.info := by
  refine ⟨rfl, rfl, ?_, ?_⟩
  · have h1 : getPosition twinScene 0 = some ⟨5, 5⟩ := rfl
    have h2 : (firstHolder twinScene 0).map Entity.position = some ⟨0, 0⟩ := rfl
    rw [h1, h2]
    intro h
    have hx := congrArg Vector2.x (Option.some.inj h)
    norm_num at hx
  · have h1 : (getInfo twinScene 0).map Info.color = some (some "red") := rfl
    have h2 : ((firstHolder twinScene 0).map Entity.info).map Info.color
        = some (some "white") := rfl
    intro h
    rw [h, h2] at h1
    exact absurd h1 (by decide)

/-- C8, amended: for every registry and handle `h`, `getSize(h)` returns the size of the
first entity holding `h` in the order dynamic, static, ui (insertion order inside a
partition); `getPosition(h)` and `getInfo(h)` return the position and info of the entity
found by going through the partitions in the same order but through each partition from
its newest entry to its oldest; each of the three returns a present value exactly when
`scene.exists(h)` is `true`; and when no partition holds `h` twice, `getPosition(h)` and
`getInfo(h)` are about the first holder as well. -/
theorem lookup_scans_partitions (s : Scene) (h : Nat) :
    getSize s h = (firstHolder s h).map Entity.size
    ∧ getPosition s h =
        ((s._dynamic.reverse ++ s._static.reverse ++ s._ui.reverse).find?
          (fun e => decide (e.guid = h))).map Entity.position
    ∧ getInfo s h =
        ((s._dynamic.reverse ++ s._static.reverse ++ s._ui.reverse).find?
          (fun e => decide (e.guid = h))).map Entity.info
    ∧ (getPosition s h).isSome = scene.«exists» s h
    ∧ (getSize s h).isSome = scene.«exists» s h
    ∧ (getInfo s h).isSome = scene.«exists» s h
    ∧ (s._dynamic.countP (fun e => decide (e.guid = h)) ≤ 1 →
        s._static.countP (fun e => decide (e.guid = h)) ≤ 1 →
        s._ui.countP (fun e => decide (e.guid = h)) ≤ 1 →
        getPosition s h = (firstHolder s h).map Entity.position
        ∧ getInfo s h = (firstHolder s h).map Entity.info) := by
  refine ⟨getSize_eq s h, getPosition_eq s h, getInfo_eq s h, ?_, ?_, ?_, ?_⟩
  · rw [getPosition_eq, exists_eq_isSome, Option.isSome_map']
  · rw [getSize_eq, Option.isSome_map', Bool.eq_iff_iff, exists_eq_true_iff,
      List.find?_isSome]
    simp only [decide_eq_true_eq]
  · rw [getInfo_eq, exists_eq_isSome, Option.isSome_map']
  · intro hd hs hu
    rw [getPosition_eq, getInfo_eq, find?_reverse_partitions s h hd hs hu]
    exact ⟨rfl, rfl⟩

/-- Witness of the amended C8: a registry with one entity in each partition, handles `0`,
`1`, `2`; the lookup of `1` is about the static entity. -/
theorem lookup_scans_partitions_witness :
    (add.ui (add.static (add.dynamic scene.init ⟨0, 0⟩ ⟨10, 10⟩ whiteFill).2
        ⟨0, -100⟩ ⟨200, 20⟩ whiteFill).2 ⟨3, 4⟩ ⟨50, 50⟩ whiteFill).2._static.countP
      (fun e => decide (e.guid = 1)) ≤ 1
    ∧ getPosition (add.ui (add.static (add.dynamic scene.init ⟨0, 0⟩ ⟨10, 10⟩ whiteFill).2
        ⟨0, -100⟩ ⟨200, 20⟩ whiteFill).2 ⟨3, 4⟩ ⟨50, 50⟩ whiteFill).2 1
      = (firstHolder (add.ui (add.static (add.dynamic scene.init ⟨0, 0⟩ ⟨10, 10⟩ whiteFill).2
        ⟨0, -100⟩ ⟨200, 20⟩ whiteFill).2 ⟨3, 4⟩ ⟨50, 50⟩ whiteFill).2 1).map Entity.position
    ∧ getInfo (add.ui (add.static (add.dynamic scene.init ⟨0, 0⟩ ⟨10, 10⟩ whiteFill).2
        ⟨0, -100⟩ ⟨200, 20⟩ whiteFill).2 ⟨3, 4⟩ ⟨50, 50⟩ whiteFill).2 1
      = (firstHolder (add.ui (add.static (add.dynamic scene.init ⟨0, 0⟩ ⟨10, 10⟩ whiteFill).2
        ⟨0, -100⟩ ⟨200, 20⟩ whiteFill).2 ⟨3, 4⟩ ⟨50, 50⟩ whiteFill).2 1).map Entity.info :=
  ⟨by decide,
    (lookup_scans_partitions _ 1).2.2.2.2.2.2 (by decide) (by decide) (by decide)⟩

/-- C9: in every world reached by a run, for every vector `v`: for an entity of the dynamic
partition, `getVelocity` of its handle is the velocity stored in its info, and after
`setVelocity(handle, v)` it is `v`; for an entity of the static or ui partition (whatever
its info holds), `getVelocity` of its handle is `undefined` and `setVelocity(handle, v)`
returns the scene it was given. -/
theorem velocity_only_dynamic (hs : List Nat) (w : World) (hrun : Run hs w) (v : Vector2) :
    (∀ e ∈ w.scene._dynamic,
      getVelocity w.scene e.guid = e.info.velocity
      ∧ getVelocity (setVelocity w.scene e.guid v) e.guid = some v)
    ∧ (∀ e ∈ w.scene._static ++ w.scene._ui,
      getVelocity w.scene e.guid = none
      ∧ setVelocity w.scene e.guid v = w.scene) := by
  have hn : ((w.scene._dynamic ++ w.scene._static ++ w.scene._ui).map Entity.guid).Nodup :=
    (run_guids hrun).1
  simp only [List.map_append, List.append_assoc] at hn
  rw [List.nodup_append] at hn
  obtain ⟨hnd, _, hdisj⟩ := hn
  constructor
  · intro e he
    have hfind := find?_reverse_of_nodup_guid _ hnd e he
    constructor
    · rw [getVelocity_eq, hfind]
      rfl
    · rw [getVelocity_eq]
      simp only [setVelocity, forUp_assignAt]
      rw [← List.map_reverse,
        find?_map_assign e.guid
          (fun x => { x with info := { x.info with velocity := some v } }) (fun _ => rfl),
        hfind]
      rfl
  · intro e he
    have habs : ∀ d ∈ w.scene._dynamic, d.guid ≠ e.guid := by
      intro d hd hde
      have h1 : e.guid ∈ w.scene._dynamic.map Entity.guid :=
        hde ▸ List.mem_map_of_mem Entity.guid hd
      have h2 : e.guid ∈ w.scene._static.map Entity.guid ++ w.scene._ui.map Entity.guid := by
        rw [← List.map_append]
        exact List.mem_map_of_mem Entity.guid he
      exact hdisj h1 h2
    constructor
    · simp only [getVelocity, (scanDown_eq_none_iff _ _).mpr habs]
    · unfold setVelocity
      rw [forUp_assignAt_absent _ _ _ habs]

/-- Witness of C9: a run that adds a dynamic entity (handle `0`) and a static one
(handle `1`). -/
theorem velocity_only_dynamic_witness :
    ∃ w : World, Run [0, 1] w
      ∧ ((∀ e ∈ w.scene._dynamic,
          getVelocity w.scene e.guid = e.info.velocity
          ∧ getVelocity (setVelocity w.scene e.guid ⟨3, 4⟩) e.guid = some ⟨3, 4⟩)
        ∧ (∀ e ∈ w.scene._static ++ w.scene._ui,
          getVelocity w.scene e.guid = none
          ∧ setVelocity w.scene e.guid ⟨3, 4⟩ = w.scene)) := by
  have hrun :=
    Run.step (Run.step Run.start
      (Step.addDynamic _ ⟨0, 0⟩ ⟨10, 10⟩ whiteFill))
      (Step.addStatic _ ⟨0, -100⟩ ⟨200, 20⟩ { whiteFill with velocity := some ⟨1, 1⟩ })
  exact ⟨_, hrun, velocity_only_dynamic _ _ hrun ⟨3, 4⟩⟩

/-- C10: for every registry (so for every reachable one), every handle `h` with
`scene.exists(h)` and every vector `p` and info `i`: after `setPosition(h, p)`,
`getPosition(h)` returns `p`, and each partition has the same entities in the same order
with handle, size and info unchanged and the position unchanged for every entity with
another handle; likewise `getSize(h)` returns `p` after `setSize(h, p)` and `getInfo(h)`
returns `i` after `setInfo(h, i)`, with the corresponding frame. -/
theorem set_get_round_trip (s : Scene) (h : Nat) (hex : scene.«exists» s h = true)
    (p : Vector2) (i : Info) :
    (getPosition (setPosition s h p) h = some p
      ∧ List.Forall₂ (keptBySetPosition h) s._dynamic (setPosition s h p)._dynamic
      ∧ List.Forall₂ (keptBySetPosition h) s._static (setPosition s h p)._static
      ∧ List.Forall₂ (keptBySetPosition h) s._ui (setPosition s h p)._ui)
    ∧ (getSize (setSize s h p) h = some p
      ∧ List.Forall₂ (keptBySetSize h) s._dynamic (setSize s h p)._dynamic
      ∧ List.Forall₂ (keptBySetSize h) s._static (setSize s h p)._static
      ∧ List.Forall₂ (keptBySetSize h) s._ui (setSize s h p)._ui)
    ∧ (getInfo (setInfo s h i) h = some i
      ∧ List.Forall₂ (keptBySetInfo h) s._dynamic (setInfo s h i)._dynamic
      ∧ List.Forall₂ (keptBySetInfo h) s._static (setInfo s h i)._static
      ∧ List.Forall₂ (keptBySetInfo h) s._ui (setInfo s h i)._ui) := by
  have hpos : ∀ xs : List Entity, List.Forall₂ (keptBySetPosition h) xs
      (xs.map (fun e => if e.guid = h then { e with position := p } else e)) := fun xs =>
    forall₂_map_assign _ h _ (fun e => ⟨rfl, rfl, rfl, fun _ => rfl⟩)
      (fun e he => ⟨rfl, rfl, rfl, fun hne => absurd he hne⟩) xs
  have hsize : ∀ xs : List Entity, List.Forall₂ (keptBySetSize h) xs
      (xs.map (fun e => if e.guid = h then { e with size := p } else e)) := fun xs =>
    forall₂_map_assign _ h _ (fun e => ⟨rfl, rfl, rfl, fun _ => rfl⟩)
      (fun e he => ⟨rfl, rfl, rfl, fun hne => absurd he hne⟩) xs
  have hinfo : ∀ xs : List Entity, List.Forall₂ (keptBySetInfo h) xs
      (xs.map (fun e => if e.guid = h then { e with info := i } else e)) := fun xs =>
    forall₂_map_assign _ h _ (fun e => ⟨rfl, rfl, rfl, fun _ => rfl⟩)
      (fun e he => ⟨rfl, rfl, rfl, fun hne => absurd he hne⟩) xs
  obtain ⟨e1, hfind1, _⟩ := find?_reverse_isSome_of_exists s h hex
  obtain ⟨e2, hfind2, _⟩ := find?_isSome_of_exists s h hex
  refine ⟨⟨?_, ?_, ?_, ?_⟩, ⟨?_, ?_, ?_, ?_⟩, ⟨?_, ?_, ?_, ?_⟩⟩
  · rw [getPosition_eq]
    simp only [setPosition, forUp_assignAt]
    rw [← List.map_reverse, ← List.map_reverse, ← List.map_reverse, ← List.map_append,
      ← List.map_append,
      find?_map_assign h (fun e => { e with position := p }) (fun _ => rfl), hfind1]
    rfl
  · simp only [setPosition, forUp_assignAt]; exact hpos _
  · simp only [setPosition, forUp_assignAt]; exact hpos _
  · simp only [setPosition, forUp_assignAt]; exact hpos _
  · rw [getSize_eq]
    simp only [setSize, forUp_assignAt]
    rw [← List.map_append, ← List.map_append,
      find?_map_assign h (fun e => { e with size := p }) (fun _ => rfl), hfind2]
    rfl
  · simp only [setSize, forUp_assignAt]; exact hsize _
  · simp only [setSize, forUp_assignAt]; exact hsize _
  · simp only [setSize, forUp_assignAt]; exact hsize _
  · rw [getInfo_eq]
    simp only [setInfo, forDown_assignAt]
    rw [← List.map_reverse, ← List.map_reverse, ← List.map_reverse, ← List.map_append,
      ← List.map_append,
      find?_map_assign h (fun e => { e with info := i }) (fun _ => rfl), hfind1]
    rfl
  · simp only [setInfo, forDown_assignAt]; exact hinfo _
  · simp only [setInfo, forDown_assignAt]; exact hinfo _
  · simp only [setInfo, forDown_assignAt]; exact hinfo _

/-- Witness of C10: in `pairScene` the handle `0` exists; position, size and info of it are
set and read back, and the static partition keeps its entity. -/
theorem set_get_round_trip_witness :
    scene.«exists» pairScene 0 = true
    ∧ getPosition (setPosition pairScene 0 ⟨7, 8⟩) 0 = some ⟨7, 8⟩
    ∧ List.Forall₂ (keptBySetPosition 0) pairScene._static
        (setPosition pairScene 0 ⟨7, 8⟩)._static
    ∧ getSize (setSize pairScene 0 ⟨7, 8⟩) 0 = some ⟨7, 8⟩
    ∧ getInfo (setInfo pairScene 0 { whiteFill with color := some "red" }) 0
        = some { whiteFill with color := some "red" } :=
  ⟨by decide,
    (set_get_round_trip pairScene 0 (by decide) ⟨7, 8⟩
      { whiteFill with color := some "red" }).1.1,
    (set_get_round_trip pairScene 0 (by decide) ⟨7, 8⟩
      { whiteFill with color := some "red" }).1.2.2.1,
    (set_get_round_trip pairScene 0 (by decide) ⟨7, 8⟩
      { whiteFill with color := some "red" }).2.1.1,
    (set_get_round_trip pairScene 0 (by decide) ⟨7, 8⟩
      { whiteFill with color := some "red" }).2.2.1⟩

/-! ## The physics step, entity by entity -/

namespace scene

theorem foldl_collide_none (d : Entity) (cs : List Entity) :
    cs.foldl (collide d) none = none := by
  induction cs with
  | nil => rfl
  | cons c cs ih => simpa [List.foldl_cons, collide] using ih

/-- A round of the loop of `_physics` on an entity whose round completes. -/
theorem physicsBody_of_tick {deltaTime : ℚ} {i : Nat} {st : PhysicsState} {d : Entity}
    {r : Entity × List Event} (hs : st.status = Status.running)
    (hd : st.scene._dynamic[i]? = some d)
    (hr : tickEntity st.scene._static st.scene.physicSpeed deltaTime d = some r) :
    physicsBody deltaTime i st =
      { st with
        scene := { st.scene with _dynamic := st.scene._dynamic.set i r.1 }
        log := st.log ++ r.2 } := by
  unfold tickEntity at hr
  unfold physicsBody
  rw [hs, hd]
  dsimp only
  cases hv : d.info.velocity with
  | none => simp [hv] at hr
  | some v =>
    rw [hv] at hr
    dsimp only at hr ⊢
    unfold wantedVelocity at hr
    cases hf : List.foldl (collide d)
        (some (⟨v.x, v.y - _gravityValue * orOne d.info.multiplyGravity
          * st.scene.physicSpeed⟩, [])) st.scene._static with
    | none => simp [hf] at hr
    | some p =>
      obtain ⟨v', evs⟩ := p
      rw [hf] at hr
      simp only [Option.some.injEq] at hr
      subst hr
      simp [hs, integrate]

/-- A round of the loop of `_physics` on an entity whose round does not complete. -/
theorem physicsBody_of_no_tick {deltaTime : ℚ} {i : Nat} {st : PhysicsState} {d : Entity}
    (hs : st.status = Status.running) (hd : st.scene._dynamic[i]? = some d)
    (hr : tickEntity st.scene._static st.scene.physicSpeed deltaTime d = none) :
    (physicsBody deltaTime i st).status ≠ Status.running
      ∧ (physicsBody deltaTime i st).scene = st.scene := by
  unfold tickEntity at hr
  unfold physicsBody
  rw [hs, hd]
  dsimp only
  cases hv : d.info.velocity with
  | none => simp
  | some v =>
    rw [hv] at hr
    dsimp only at hr ⊢
    unfold wantedVelocity at hr
    cases hf : List.foldl (collide d)
        (some (⟨v.x, v.y - _gravityValue * orOne d.info.multiplyGravity
          * st.scene.physicSpeed⟩, [])) st.scene._static with
    | none => simp
    | some p => simp [hf] at hr

/-- A round of the loop of `_physics` after the run has stopped does nothing. -/
theorem physicsBody_of_stopped {deltaTime : ℚ} {i : Nat} {st : PhysicsState}
    (hs : st.status ≠ Status.running) : physicsBody deltaTime i st = st := by
  unfold physicsBody
  cases h : st.status with
  | running => exact absurd h hs
  | threw => rfl
  | notFinite => rfl

theorem forUp_physicsBody_of_stopped (deltaTime : ℚ) (n i : Nat) (st : PhysicsState)
    (hs : st.status ≠ Status.running) : forUp (physicsBody deltaTime) n i st = st := by
  induction n generalizing i with
  | zero => rfl
  | succ n ih => rw [forUp, physicsBody_of_stopped hs, ih]

end scene

namespace scene

/-- The loop of `_physics` over entities whose rounds all complete: each is replaced by
its round's result, and the calls of the rounds are logged in order. -/
theorem forUp_physicsBody_complete (deltaTime : ℚ) (rest pre : List Entity)
    (st : PhysicsState) (hs : st.status = Status.running)
    (hdyn : st.scene._dynamic = pre ++ rest)
    (hall : ∀ d ∈ rest,
      (tickEntity st.scene._static st.scene.physicSpeed deltaTime d).isSome) :
    forUp (physicsBody deltaTime) rest.length pre.length st =
      { scene := { st.scene with
          _dynamic := pre ++ rest.map (fun d =>
            ((tickEntity st.scene._static st.scene.physicSpeed deltaTime d).map
              Prod.fst).getD d) }
        log := st.log ++ rest.flatMap (fun d =>
          ((tickEntity st.scene._static st.scene.physicSpeed deltaTime d).map
            Prod.snd).getD [])
        status := Status.running } := by
  induction rest generalizing pre st with
  | nil =>
    simp only [List.length_nil, forUp, List.map_nil, List.append_nil, List.flatMap_nil]
    cases st with
    | mk scene log status =>
      simp only at hs hdyn
      subst hs
      simp only [List.append_nil] at hdyn
      simp [← hdyn]
  | cons d rest ih =>
    obtain ⟨r, hr⟩ := Option.isSome_iff_exists.mp (hall d (List.mem_cons_self _ _))
    have hd : st.scene._dynamic[pre.length]? = some d := by
      rw [hdyn, List.getElem?_append_right (Nat.le_refl _)]
      simp
    rw [List.length_cons, forUp, physicsBody_of_tick hs hd hr]
    have hset : st.scene._dynamic.set pre.length r.1 = (pre ++ [r.1]) ++ rest := by
      rw [hdyn]
      simp
    have hlen : pre.length + 1 = (pre ++ [r.1]).length := by simp
    have key := ih (pre ++ [r.1])
      { st with
        scene := { st.scene with _dynamic := st.scene._dynamic.set pre.length r.1 }
        log := st.log ++ r.2 }
      hs hset (fun e he => hall e (List.mem_cons_of_mem _ he))
    rw [hlen, key]
    simp [hr]

/-- The loop of `_physics` ends in the state `running` only if it started in it and the
round of every entity it went through completes. -/
theorem forUp_physicsBody_running (deltaTime : ℚ) (rest pre : List Entity)
    (st : PhysicsState) (hdyn : st.scene._dynamic = pre ++ rest)
    (hrun : (forUp (physicsBody deltaTime) rest.length pre.length st).status
      = Status.running) :
    st.status = Status.running
      ∧ ∀ d ∈ rest, (tickEntity st.scene._static st.scene.physicSpeed deltaTime d).isSome := by
  induction rest generalizing pre st with
  | nil => exact ⟨hrun, by simp⟩
  | cons d rest ih =>
    by_cases hs : st.status = Status.running
    · refine ⟨hs, ?_⟩
      have hd : st.scene._dynamic[pre.length]? = some d := by
        rw [hdyn, List.getElem?_append_right (Nat.le_refl _)]
        simp
      rw [List.length_cons, forUp] at hrun
      cases hr : tickEntity st.scene._static st.scene.physicSpeed deltaTime d with
      | none =>
        obtain ⟨hne, _⟩ := physicsBody_of_no_tick hs hd hr
        rw [forUp_physicsBody_of_stopped _ _ _ _ hne] at hrun
        exact absurd hrun hne
      | some r =>
        rw [physicsBody_of_tick hs hd hr] at hrun
        have hlen : pre.length + 1 = (pre ++ [r.1]).length := by simp
        rw [hlen] at hrun
        have hset : st.scene._dynamic.set pre.length r.1 = (pre ++ [r.1]) ++ rest := by
          rw [hdyn]
          simp
        have := (ih (pre ++ [r.1])
          { st with
            scene := { st.scene with _dynamic := st.scene._dynamic.set pre.length r.1 }
            log := st.log ++ r.2 }
          hset hrun).2
        intro e he
        rcases List.mem_cons.mp he with rfl | he
        · rw [hr]; rfl
        · exact this e he
    · rw [forUp_physicsBody_of_stopped _ _ _ _ hs] at hrun
      exact absurd hrun hs

/-- A run of `_physics(deltaTime)` completes exactly when the round of every dynamic
entity completes. -/
theorem physics_running_iff (s : Scene) (deltaTime : ℚ) :
    (_physics s deltaTime).status = Status.running
      ↔ ∀ d ∈ s._dynamic, (tickEntity s._static s.physicSpeed deltaTime d).isSome := by
  constructor
  · intro h
    exact (forUp_physicsBody_running deltaTime s._dynamic []
      { scene := s, log := [], status := Status.running } rfl h).2
  · intro h
    have := forUp_physicsBody_complete deltaTime s._dynamic []
      { scene := s, log := [], status := Status.running } rfl rfl h
    unfold _physics
    rw [List.length_nil] at this
    rw [this]

/-- A run of `_physics(deltaTime)` that completes replaces every dynamic entity by the
result of its round, leaves the rest of the scene as it is and logs the calls of the
rounds in the order of the dynamic partition. -/
theorem physics_of_running (s : Scene) (deltaTime : ℚ)
    (h : (_physics s deltaTime).status = Status.running) :
    _physics s deltaTime =
      { scene := { s with
          _dynamic := s._dynamic.map (fun d =>
            ((tickEntity s._static s.physicSpeed deltaTime d).map Prod.fst).getD d) }
        log := s._dynamic.flatMap (fun d =>
          ((tickEntity s._static s.physicSpeed deltaTime d).map Prod.snd).getD [])
        status := Status.running } := by
  have := forUp_physicsBody_complete deltaTime s._dynamic []
    { scene := s, log := [], status := Status.running } rfl rfl
    ((physics_running_iff s deltaTime).mp h)
  unfold _physics
  rw [List.length_nil] at this
  rw [this]
  simp

end scene

namespace scene

/-- The condition of the source is the edge-midpoint test of the specification. -/
theorem hitTest_iff (d c : Entity) : hitTest d c = true ↔ midpointHit d c := by
  simp only [hitTest, midpointHit, edgeMidpoints, strictlyInside, decide_eq_true_eq,
    List.mem_cons, List.mem_singleton, List.not_mem_nil, or_false, gt_iff_lt,
    exists_eq_or_imp, exists_eq_left]

theorem hitTest_eq_decide (d c : Entity) : hitTest d c = decide (midpointHit d c) := by
  rw [Bool.eq_iff_iff, hitTest_iff, decide_eq_true_eq]

theorem hitEvents_eq_pairCalls (d c : Entity) : hitEvents d c = pairCalls d c := rfl

/-- The `forEach` over the static partition, when it completes: the velocity has been
multiplied by the `HitEffect` of every collider that is hit, in order, and the calls of
the hits have been added to the log, in order. -/
theorem foldl_collide_some (d : Entity) (cs : List Entity) (v v' : Vector2)
    (evs evs' : List Event)
    (h : cs.foldl (collide d) (some (v, evs)) = some (v', evs')) :
    v' = (cs.filter (fun c => hitTest d c)).foldl (fun w c => w.multiply (hitEffect d c)) v
      ∧ evs' = evs ++ cs.flatMap (fun c => if hitTest d c then hitEvents d c else []) := by
  induction cs generalizing v evs with
  | nil =>
    simp only [List.foldl_nil, Option.some.injEq, Prod.mk.injEq] at h
    simp [h.1, h.2]
  | cons c cs ih =>
    rw [List.foldl_cons] at h
    by_cases hh : hitTest d c = true
    · by_cases hz : d.size.x = 0 ∨ d.size.y = 0
      · simp only [collide, hh, hz, if_true] at h
        rw [foldl_collide_none] at h
        cases h
      · simp only [collide, hh, hz, if_true, if_false] at h
        obtain ⟨h1, h2⟩ := ih _ _ h
        simp [h1, h2, hh, List.filter_cons]
    · simp only [collide, hh, if_false, Bool.false_eq_true] at h
      obtain ⟨h1, h2⟩ := ih _ _ h
      simp [h1, h2, hh, List.filter_cons]

/-- The `forEach` over the static partition completes when the sizes of `d` are not `0`. -/
theorem foldl_collide_isSome (d : Entity) (cs : List Entity) (acc : Vector2 × List Event)
    (hx : d.size.x ≠ 0) (hy : d.size.y ≠ 0) :
    (cs.foldl (collide d) (some acc)).isSome := by
  induction cs generalizing acc with
  | nil => rfl
  | cons c cs ih =>
    rw [List.foldl_cons]
    obtain ⟨v, evs⟩ := acc
    by_cases hh : hitTest d c = true
    · simp only [collide, hh, hx, hy, or_self, if_true, if_false]
      exact ih _
    · simp only [collide, hh, if_false, Bool.false_eq_true]
      exact ih _

/-- The `forEach` over the static partition changes nothing when no collider is hit. -/
theorem foldl_collide_no_hit (d : Entity) (cs : List Entity) (acc : Vector2 × List Event)
    (h : ∀ c ∈ cs, hitTest d c = false) :
    cs.foldl (collide d) (some acc) = some acc := by
  induction cs with
  | nil => rfl
  | cons c cs ih =>
    rw [List.foldl_cons]
    obtain ⟨v, evs⟩ := acc
    simp only [collide, h c (List.mem_cons_self _ _), Bool.false_eq_true, if_false]
    exact ih (fun e he => h e (List.mem_cons_of_mem _ he))

/-- The round of an entity completes when it has a velocity and its sizes are not `0`. -/
theorem tickEntity_isSome (statics : List Entity) (physicSpeed deltaTime : ℚ) (d : Entity)
    (hv : d.info.velocity ≠ none) (hx : d.size.x ≠ 0) (hy : d.size.y ≠ 0) :
    (tickEntity statics physicSpeed deltaTime d).isSome := by
  unfold tickEntity
  cases h : d.info.velocity with
  | none => exact absurd h hv
  | some v =>
    dsimp only
    obtain ⟨p, hp⟩ := Option.isSome_iff_exists.mp
      (foldl_collide_isSome d statics (wantedVelocity physicSpeed d v, []) hx hy)
    rw [hp]
    rfl

/-- The round of an entity that hits no collider: gravity, then integration. -/
theorem tickEntity_no_hit (statics : List Entity) (physicSpeed deltaTime : ℚ) (d : Entity)
    (v : Vector2) (hv : d.info.velocity = some v)
    (h : ∀ c ∈ statics, hitTest d c = false) :
    tickEntity statics physicSpeed deltaTime d =
      some (integrate physicSpeed deltaTime d (wantedVelocity physicSpeed d v), []) := by
  unfold tickEntity
  rw [hv]
  dsimp only
  rw [foldl_collide_no_hit d statics _ h]

end scene

/-! ## Claims on the physics step -/

/-- In a run of `_physics(deltaTime)` that completes, a dynamic entity with velocity `v` that
hits no static entity keeps `v.x`, gets the vertical velocity
`v.y - 9.8 * (multiplyGravity || 1) * physicSpeed`, and its position grows by the new
velocity times `deltaTime` times `physicSpeed`. -/
theorem scene.physics_entity_no_hit (s : Scene) (deltaTime : ℚ) (i : Nat) (d : Entity)
    (v : Vector2) (hrun : (_physics s deltaTime).status = Status.running)
    (hd : s._dynamic[i]? = some d) (hv : d.info.velocity = some v)
    (hno : ∀ c ∈ s._static, ¬ midpointHit d c) :
    (_physics s deltaTime).scene._dynamic[i]? =
      some { d with
        info := { d.info with
          velocity := some ⟨v.x, v.y - 9.8 * orOne d.info.multiplyGravity * s.physicSpeed⟩ }
        position :=
          ⟨d.position.x + v.x * deltaTime * s.physicSpeed,
           d.position.y
            + (v.y - 9.8 * orOne d.info.multiplyGravity * s.physicSpeed) * deltaTime
              * s.physicSpeed⟩ } := by
  rw [physics_of_running s deltaTime hrun]
  simp only [List.getElem?_map, hd, Option.map_some']
  rw [tickEntity_no_hit s._static s.physicSpeed deltaTime d v hv
    (fun c hc => by
      have := hno c hc
      rw [← hitTest_iff] at this
      simpa using this)]
  simp [integrate, wantedVelocity, _gravityValue, Vector2.add]

/-- C13, evaluated where the code departs from it: the entity of `weightlessScene` has
`multiplyGravity: 0`, velocity `(0, 0)` and hits nothing (there is no static entity), and
`physicSpeed` is `1`. By the claim one tick with `deltaTime = 1` leaves the vertical
velocity at `0 - 9.8 * 0 * 1 = 0` and the position at `(0, 0)`; the code takes
`0 || 1 = 1` as the gravity scale and ends with the velocity `(0, -9.8)` at `(0, -9.8)`. -/
theorem gravity_scale_zero_counts_as_one :
    weightlessScene._static = []
    ∧ weightlessScene._dynamic =
        [{ position := ⟨0, 0⟩, size := ⟨10, 10⟩, guid := 0, info := boxInfo (some 0) }]
    ∧ _physics weightlessScene 1 =
        { scene := { weightlessScene with
            _dynamic := [{ position := ⟨0, -9.8⟩, size := ⟨10, 10⟩, guid := 0,
                           info := { boxInfo (some 0) with velocity := some ⟨0, -9.8⟩ } }] }
          log := []
          status := Status.running }
    ∧ (0 : ℚ) - 9.8 * 0 * weightlessScene.physicSpeed ≠ -9.8 := by
  refine ⟨rfl, ?_, ?_, ?_⟩
  · simp [weightlessScene, add.dynamic, scene.init, boxInfo, whiteFill]
  · simp [_physics, forUp, physicsBody, weightlessScene, add.dynamic, scene.init, boxInfo,
      whiteFill, orOne, _gravityValue, Vector2.add]
  · norm_num

/-- C14, evaluated where the code departs from it: the entity of `weightlessScene` is
created at `(0, 0)` with `multiplyGravity: 0` and velocity `(0, 0)`; after two physics
ticks with `deltaTime` `1` and `1/2` it is at `(0, -19.6)`, not where it started. -/
theorem weightless_entity_falls :
    weightlessScene._dynamic.map Entity.position = [⟨0, 0⟩]
    ∧ (scene.ticks weightlessScene [1, 1 / 2])._dynamic.map Entity.position = [⟨0, -19.6⟩]
    ∧ (scene.ticks weightlessScene [1, 1 / 2])._dynamic.map Entity.position
        ≠ weightlessScene._dynamic.map Entity.position := by
  have h1 : weightlessScene._dynamic.map Entity.position = [⟨0, 0⟩] := by
    simp [weightlessScene, add.dynamic, scene.init, boxInfo, whiteFill]
  have h2 : (scene.ticks weightlessScene [1, 1 / 2])._dynamic.map Entity.position
      = [⟨0, -19.6⟩] := by
    norm_num [scene.ticks, _physics, forUp, physicsBody, weightlessScene, add.dynamic,
      scene.init, boxInfo, whiteFill, orOne, _gravityValue, Vector2.add]
  refine ⟨h1, h2, ?_⟩
  rw [h1, h2]
  norm_num

/-- C15: for every dynamic entity `d` and static entity `s`, the condition under which the
physics step treats the pair as a hit is that one of the four edge midpoints of `d`
(bottom, top, left, right, at the position `d` has when its round starts) lies strictly
inside the box of `s`; without a hit the round keeps velocity and log, at a hit (sizes of
`d` not `0`) it multiplies the velocity and logs the calls; and a midpoint that lies on an
edge of the box of `s` is not strictly inside. -/
theorem hit_iff_edge_midpoint_inside (d s : Entity) (v : Vector2) (evs : List Event) :
    (hitTest d s = true ↔ midpointHit d s)
    ∧ (¬ midpointHit d s → collide d (some (v, evs)) s = some (v, evs))
    ∧ (midpointHit d s → d.size.x ≠ 0 → d.size.y ≠ 0 →
        collide d (some (v, evs)) s
          = some (v.multiply (hitEffect d s), evs ++ hitEvents d s))
    ∧ (∀ p : Vector2,
        (p.x = s.position.x - s.size.x / 2 ∨ p.x = s.position.x + s.size.x / 2
          ∨ p.y = s.position.y - s.size.y / 2 ∨ p.y = s.position.y + s.size.y / 2) →
        ¬ strictlyInside p s) := by
  refine ⟨hitTest_iff d s, ?_, ?_, ?_⟩
  · intro h
    rw [← hitTest_iff] at h
    simp [collide, h]
  · intro h hx hy
    rw [← hitTest_iff] at h
    simp [collide, h, hx, hy]
  · rintro p (h | h | h | h) ⟨h1, h2, h3, h4⟩
    · rw [h] at h1; exact lt_irrefl _ h1
    · rw [h] at h2; exact lt_irrefl _ h2
    · rw [h] at h3; exact lt_irrefl _ h3
    · rw [h] at h4; exact lt_irrefl _ h4

/-- Witness of C15: a box at `(0, -86)` has its bottom midpoint `(0, -91)` inside the floor
and is a hit; a box at `(0, -85)` has its bottom midpoint `(0, -90)` on the upper edge of
the floor and is no hit. -/
theorem hit_iff_edge_midpoint_inside_witness :
    midpointHit (fallingBox (-86) ⟨0, -1⟩ none) (floorEntity none none)
    ∧ collide (fallingBox (-86) ⟨0, -1⟩ none) (some (⟨0, -1⟩, [])) (floorEntity none none)
        = some (Vector2.multiply ⟨0, -1⟩
            (hitEffect (fallingBox (-86) ⟨0, -1⟩ none) (floorEntity none none)),
          [] ++ hitEvents (fallingBox (-86) ⟨0, -1⟩ none) (floorEntity none none))
    ∧ ¬ midpointHit (fallingBox (-85) ⟨0, -1⟩ none) (floorEntity none none)
    ∧ collide (fallingBox (-85) ⟨0, -1⟩ none) (some (⟨0, -1⟩, [])) (floorEntity none none)
        = some (⟨0, -1⟩, [])
    ∧ ¬ strictlyInside ⟨0, -90⟩ (floorEntity none none) := by
  have hin : midpointHit (fallingBox (-86) ⟨0, -1⟩ none) (floorEntity none none) := by
    norm_num [midpointHit, edgeMidpoints, strictlyInside, fallingBox, floorEntity]
  have hout : ¬ midpointHit (fallingBox (-85) ⟨0, -1⟩ none) (floorEntity none none) := by
    norm_num [midpointHit, edgeMidpoints, strictlyInside, fallingBox, floorEntity]
  exact ⟨hin,
    (hit_iff_edge_midpoint_inside _ _ ⟨0, -1⟩ []).2.2.1 hin
      (by norm_num [fallingBox]) (by norm_num [fallingBox]),
    hout,
    (hit_iff_edge_midpoint_inside _ _ ⟨0, -1⟩ []).2.1 hout,
    (hit_iff_edge_midpoint_inside (fallingBox (-85) ⟨0, -1⟩ none) (floorEntity none none)
      ⟨0, -1⟩ []).2.2.2 ⟨0, -90⟩ (by norm_num [floorEntity])⟩

/-- C16, evaluated where the code departs from it: a box at `(0, -90)` with the velocity
`(3, -19.6)` hits a floor with `bounce: 0`. By the claim (and by the comment on `bounce`)
the velocity after the hit is `(0, 0)`; the code takes `0 || 1 = 1` as the restitution,
multiplies by `(0, -1)` and leaves the velocity `(0, 19.6)`. -/
theorem bounce_zero_counts_as_one :
    hitTest (fallingBox (-90) ⟨3, -19.6⟩ none) (floorEntity (some 0) none) = true
    ∧ hitEffect (fallingBox (-90) ⟨3, -19.6⟩ none) (floorEntity (some 0) none) = ⟨0, -1⟩
    ∧ collide (fallingBox (-90) ⟨3, -19.6⟩ none) (some (⟨3, -19.6⟩, []))
        (floorEntity (some 0) none) = some (⟨0, 19.6⟩, [])
    ∧ (⟨0, 19.6⟩ : Vector2) ≠ ⟨0, 0⟩ := by
  refine ⟨?_, ?_, ?_, ?_⟩
  · norm_num [hitTest, fallingBox, floorEntity]
  · norm_num [hitEffect, fallingBox, floorEntity, whiteFill, orOne, Vector2.multiply,
      Math.round]
  · norm_num [collide, hitTest, hitEffect, hitEvents, fallingBox, floorEntity, whiteFill,
      orOne, Vector2.multiply, Math.round]
  · intro h
    have hy := congrArg Vector2.y h
    norm_num at hy

/-- C17, evaluated where the code departs from it: in `floorScene` the first tick
(`deltaTime = 450/49`) starts with the bottom midpoint `(0, -5)` outside the floor and
brings the entity to `(0, -90)` with velocity `(0, -9.8)`; the second tick
(`deltaTime = 1`) is the first one that starts with the bottom midpoint, `(0, -95)`,
strictly inside the box of the floor, and after it the vertical velocity is `19.6`, not
`0`: the floor's `bounce: 0` is taken as `1`. -/
theorem floor_scenario_bounces :
    floorScene._static = [floorEntity (some 0) none]
    ∧ ¬ strictlyInside ⟨0, 0 - 10 / 2⟩ (floorEntity (some 0) none)
    ∧ (scene.ticks floorScene [450 / 49])._dynamic =
        [{ position := ⟨0, -90⟩, size := ⟨10, 10⟩, guid := 0,
           info := { boxInfo (some 1) with velocity := some ⟨0, -9.8⟩ } }]
    ∧ strictlyInside ⟨0, -90 - 10 / 2⟩ (floorEntity (some 0) none)
    ∧ (scene.ticks floorScene [450 / 49, 1])._dynamic =
        [{ position := ⟨0, -70.4⟩, size := ⟨10, 10⟩, guid := 0,
           info := { boxInfo (some 1) with velocity := some ⟨0, 19.6⟩ } }] := by
  refine ⟨?_, ?_, ?_, ?_, ?_⟩
  · simp [floorScene, add.static, add.dynamic, scene.init, floorEntity, whiteFill, boxInfo]
  · norm_num [strictlyInside, floorEntity]
  · norm_num [scene.ticks, _physics, forUp, physicsBody, floorScene, add.dynamic, add.static,
      scene.init, boxInfo, whiteFill, orOne, _gravityValue, Vector2.add, collide, hitTest]
  · norm_num [strictlyInside, floorEntity]
  · norm_num [scene.ticks, _physics, forUp, physicsBody, floorScene, add.dynamic, add.static,
      scene.init, boxInfo, whiteFill, orOne, _gravityValue, Vector2.add, collide, hitTest,
      hitEffect, hitEvents, Vector2.multiply, Math.round]

/-- C18, evaluated where the code departs from it: a box at `(0, -90)` with the velocity
`(5, -19.6)` hits a floor with `bounce: 1`. The factor is
`round((0 - 0) / 10) * 1 = 0` on the x axis and `round((-100 + 90) / 10) * 1 = -1` on the
y axis, so the velocity after the hit is `(0, 19.6)`: the horizontal speed `5` is lost. -/
theorem bounce_one_loses_speed :
    hitTest (fallingBox (-90) ⟨5, -19.6⟩ none) (floorEntity (some 1) none) = true
    ∧ collide (fallingBox (-90) ⟨5, -19.6⟩ none) (some (⟨5, -19.6⟩, []))
        (floorEntity (some 1) none) = some (⟨0, 19.6⟩, [])
    ∧ |(0 : ℚ)| ≠ |(5 : ℚ)| := by
  refine ⟨?_, ?_, ?_⟩
  · norm_num [hitTest, fallingBox, floorEntity]
  · norm_num [collide, hitTest, hitEffect, hitEvents, fallingBox, floorEntity, whiteFill,
      orOne, Vector2.multiply, Math.round]
  · norm_num

namespace scene

/-- The calls logged by the round of an entity that completes: for each collider that is
hit, in the order of the static partition, the calls of the pair. -/
theorem tickEntity_events (statics : List Entity) (physicSpeed deltaTime : ℚ) (d : Entity)
    (r : Entity × List Event) (h : tickEntity statics physicSpeed deltaTime d = some r) :
    r.2 = statics.flatMap (fun c => if midpointHit d c then pairCalls d c else []) := by
  unfold tickEntity at h
  cases hv : d.info.velocity with
  | none => simp [hv] at h
  | some v =>
    rw [hv] at h
    dsimp only at h
    cases hf : List.foldl (collide d) (some (wantedVelocity physicSpeed d v, [])) statics with
    | none => simp [hf] at h
    | some p =>
      obtain ⟨v', evs⟩ := p
      rw [hf] at h
      simp only [Option.some.injEq] at h
      subst h
      have := (foldl_collide_some d statics _ _ _ _ hf).2
      simp only [List.nil_append] at this
      rw [this]
      show (statics.flatMap fun c => if hitTest d c = true then hitEvents d c else [])
        = statics.flatMap fun c => if midpointHit d c then pairCalls d c else []
      congr 1
      funext c
      by_cases hh : midpointHit d c
      · rw [if_pos hh, if_pos ((hitTest_iff d c).mpr hh)]
        rfl
      · rw [if_neg hh, if_neg (fun k => hh ((hitTest_iff d c).mp k))]

/-- The velocity after the round of an entity that completes: the velocity after gravity,
multiplied by the `HitEffect` of each collider that is hit, in the order of the static
partition. -/
theorem tickEntity_velocity (statics : List Entity) (physicSpeed deltaTime : ℚ) (d : Entity)
    (v : Vector2) (hv : d.info.velocity = some v)
    (r : Entity × List Event) (h : tickEntity statics physicSpeed deltaTime d = some r) :
    r.1.info.velocity =
      some ((statics.filter (fun c => decide (midpointHit d c))).foldl
        (fun w c => w.multiply (hitEffect d c)) (wantedVelocity physicSpeed d v)) := by
  unfold tickEntity at h
  rw [hv] at h
  dsimp only at h
  cases hf : List.foldl (collide d) (some (wantedVelocity physicSpeed d v, [])) statics with
  | none => simp [hf] at h
  | some p =>
    obtain ⟨v', evs⟩ := p
    rw [hf] at h
    simp only [Option.some.injEq] at h
    subst h
    have := (foldl_collide_some d statics _ _ _ _ hf).1
    simp only [integrate]
    rw [this]
    congr 3
    funext c
    exact hitTest_eq_decide d c

end scene

/-- C19: in a physics tick that completes, the event log is that of the specification:
the dynamic entities in insertion order, for each the static entities in insertion order,
and for each pair that is a hit under the edge-midpoint test first `d.whenHit(s.handle)`
if `d` has a handler, then `s.whenHit(d.handle)` if `s` has one, and nothing for a pair
that is no hit. The velocity of a dynamic entity is multiplied once for each static entity
it hits, in the order of the static partition. Every logged call belongs to a pair of a
dynamic and a static entity that is a hit; with no static entity nothing is logged. -/
theorem hit_callbacks_in_order (s : Scene) (deltaTime : ℚ)
    (hrun : (_physics s deltaTime).status = Status.running) :
    (_physics s deltaTime).log = hitLogSpec s
    ∧ (∀ (i : Nat) (d : Entity) (v : Vector2), s._dynamic[i]? = some d →
        d.info.velocity = some v →
        ((_physics s deltaTime).scene._dynamic[i]?).bind (fun e => e.info.velocity) =
          some ((s._static.filter (fun c => decide (midpointHit d c))).foldl
            (fun w c => w.multiply (hitEffect d c)) (wantedVelocity s.physicSpeed d v)))
    ∧ (∀ ev ∈ (_physics s deltaTime).log,
        ∃ d ∈ s._dynamic, ∃ c ∈ s._static, midpointHit d c ∧ ev ∈ pairCalls d c)
    ∧ (s._static = [] → (_physics s deltaTime).log = []) := by
  have hall := (physics_running_iff s deltaTime).mp hrun
  have hlog : (_physics s deltaTime).log = hitLogSpec s := by
    rw [physics_of_running s deltaTime hrun]
    simp only [hitLogSpec]
    apply List.flatMap_congr
    intro d hd
    obtain ⟨r, hr⟩ := Option.isSome_iff_exists.mp (hall d hd)
    rw [hr]
    exact tickEntity_events _ _ _ _ _ hr
  refine ⟨hlog, ?_, ?_, ?_⟩
  · intro i d v hd hv
    obtain ⟨r, hr⟩ := Option.isSome_iff_exists.mp (hall d (List.getElem?_mem hd))
    rw [physics_of_running s deltaTime hrun]
    simp only [List.getElem?_map, hd, Option.map_some', hr, Option.getD_some,
      Option.some_bind]
    exact tickEntity_velocity _ _ _ _ _ hv _ hr
  · intro ev hev
    rw [hlog] at hev
    simp only [hitLogSpec, List.mem_flatMap] at hev
    obtain ⟨d, hd, c, hc, hmem⟩ := hev
    by_cases hh : midpointHit d c
    · rw [if_pos hh] at hmem
      exact ⟨d, hd, c, hc, hh, hmem⟩
    · rw [if_neg hh] at hmem
      cases hmem
  · intro hst
    rw [hlog]
    simp [hitLogSpec, hst]

/-- Witness of C19: in `hitScene` the tick completes and logs the call of the box's
function with the floor's handle, then the call of the floor's function with the box's
handle. -/
theorem hit_callbacks_in_order_witness :
    (_physics hitScene 1).status = Status.running
    ∧ (_physics hitScene 1).log = hitLogSpec hitScene
    ∧ hitLogSpec hitScene = [Event.whenHit 7 1, Event.whenHit 8 0] := by
  have hrun : (_physics hitScene 1).status = Status.running := by
    norm_num [_physics, forUp, physicsBody, hitScene, scene.init, fallingBox, floorEntity,
      whiteFill, collide, hitTest]
  refine ⟨hrun, (hit_callbacks_in_order hitScene 1 hrun).1, ?_⟩
  have hh : midpointHit (fallingBox (-90) ⟨0, -9.8⟩ (some 7))
      (floorEntity (some 1) (some 8)) := by
    norm_num [midpointHit, edgeMidpoints, strictlyInside, fallingBox, floorEntity]
  simp only [hitLogSpec, hitScene, List.flatMap_cons, List.flatMap_nil, List.append_nil,
    if_pos hh]
  rfl

namespace scene

/-- The condition of the sweep in the source is that of the specification. -/
theorem outsideScreen_eq_decide (shakeX shakeY W H : ℚ) (e : Entity) :
    outsideScreen shakeX shakeY W H e = decide (whollyOutside shakeX shakeY W H e) := by
  simp only [outsideScreen, whollyOutside, gt_iff_lt]

end scene

/-- C20: for every scene and window of `W x H`, the sweep keeps, in order, exactly the
dynamic entities that are not (marked `autoRemove` and with the box, shifted by the shake
offset, entirely outside the window: `maxX < -W/2` or `maxY < -H/2` or `minX > W/2` or
`minY > H/2`); so an entity not marked `autoRemove` stays, and an `autoRemove` entity
whose shifted box has a point in common with `[-W/2, W/2] x [-H/2, H/2]` (overlapping or
only touching) stays; the static and ui partitions are not changed. -/
theorem sweep_removes_exactly_outside (s : Scene) (W H : ℚ) :
    (_removeDynamicsOutsideScreen s W H)._dynamic
        = s._dynamic.filter (fun e =>
            decide (¬ (e.info.autoRemove = true ∧ whollyOutside s._shakeX s._shakeY W H e)))
    ∧ (∀ e : Entity, e ∈ (_removeDynamicsOutsideScreen s W H)._dynamic
        ↔ e ∈ s._dynamic
          ∧ ¬ (e.info.autoRemove = true ∧ whollyOutside s._shakeX s._shakeY W H e))
    ∧ (∀ e ∈ s._dynamic, e.info.autoRemove = false →
        e ∈ (_removeDynamicsOutsideScreen s W H)._dynamic)
    ∧ (∀ e ∈ s._dynamic, ∀ q : Vector2,
        ((e.position.x + s._shakeX) - e.size.x / 2 ≤ q.x
          ∧ q.x ≤ (e.position.x + s._shakeX) + e.size.x / 2
          ∧ (e.position.y + s._shakeY) - e.size.y / 2 ≤ q.y
          ∧ q.y ≤ (e.position.y + s._shakeY) + e.size.y / 2) →
        (-(W / 2) ≤ q.x ∧ q.x ≤ W / 2 ∧ -(H / 2) ≤ q.y ∧ q.y ≤ H / 2) →
        e ∈ (_removeDynamicsOutsideScreen s W H)._dynamic)
    ∧ (_removeDynamicsOutsideScreen s W H)._static = s._static
    ∧ (_removeDynamicsOutsideScreen s W H)._ui = s._ui := by
  have hfilter : (_removeDynamicsOutsideScreen s W H)._dynamic
      = s._dynamic.filter (fun e =>
          decide (¬ (e.info.autoRemove = true
            ∧ whollyOutside s._shakeX s._shakeY W H e))) := by
    simp only [_removeDynamicsOutsideScreen, forDown_sweepAt]
    apply List.filter_congr
    intro e _
    rw [outsideScreen_eq_decide]
    by_cases h1 : e.info.autoRemove = true <;>
      by_cases h2 : whollyOutside s._shakeX s._shakeY W H e <;> simp [h1, h2]
  have hmem : ∀ e : Entity, e ∈ (_removeDynamicsOutsideScreen s W H)._dynamic
      ↔ e ∈ s._dynamic
        ∧ ¬ (e.info.autoRemove = true ∧ whollyOutside s._shakeX s._shakeY W H e) := by
    intro e
    rw [hfilter, List.mem_filter, decide_eq_true_eq]
  refine ⟨hfilter, hmem, ?_, ?_, rfl, rfl⟩
  · intro e he hno
    exact (hmem e).mpr ⟨he, fun h => by simp [hno] at h⟩
  · intro e he q hq hv
    refine (hmem e).mpr ⟨he, ?_⟩
    rintro ⟨_, h | h | h | h⟩
    · linarith [hq.2.1, hv.1]
    · linarith [hq.2.2.2, hv.2.2.1]
    · have h' : W / 2 < (e.position.x + s._shakeX) - e.size.x / 2 := h
      linarith [hq.1, hv.2.1]
    · have h' : H / 2 < (e.position.y + s._shakeY) - e.size.y / 2 := h
      linarith [hq.2.2.1, hv.2.2.2]

/-- Witness of C20: in `sweepScene`, window `800 x 600`, the particle whose box starts at
`401` is removed, the one whose box touches the border at `400` stays (the point
`(400, 0)` is common to box and window) and the one without `autoRemove` stays. -/
theorem sweep_removes_exactly_outside_witness :
    (_removeDynamicsOutsideScreen sweepScene 800 600)._dynamic
        = [particle 1 405 true, particle 2 1000 false]
    ∧ particle 1 405 true ∈ (_removeDynamicsOutsideScreen sweepScene 800 600)._dynamic
    ∧ particle 2 1000 false ∈ (_removeDynamicsOutsideScreen sweepScene 800 600)._dynamic := by
  refine ⟨?_, ?_, ?_⟩
  · rw [(sweep_removes_exactly_outside sweepScene 800 600).1]
    norm_num [sweepScene, scene.init, particle, whollyOutside, List.filter_cons, whiteFill]
  · exact (sweep_removes_exactly_outside sweepScene 800 600).2.2.2.1
      (particle 1 405 true) (by simp [sweepScene]) ⟨400, 0⟩
      (by norm_num [sweepScene, scene.init, particle])
      (by norm_num)
  · exact (sweep_removes_exactly_outside sweepScene 800 600).2.2.1
      (particle 2 1000 false) (by simp [sweepScene]) (by simp [particle])

/-! ## Objects by reference: `movePosition` and `add` -/

namespace Store

/-- One round of a loop of `movePosition` as a step of a fold over the partition. -/
theorem forUp_addAt (guid movement : Nat) (xs : List Slot) (n i : Nat)
    (vectors : Nat → Vector2) :
    forUp (addAt guid movement xs) n i vectors =
      ((xs.drop i).take n).foldl
        (fun vs e => if e.guid = guid then
          Function.update vs e.position ((vs e.position).add (vs movement)) else vs)
        vectors := by
  induction n generalizing i vectors with
  | zero => simp [forUp]
  | succ n ih =>
    rw [forUp, ih]
    cases h : xs[i]? with
    | none =>
      have hi : xs.length ≤ i := List.getElem?_eq_none_iff.mp h
      simp [addAt, h, List.drop_of_length_le hi, List.drop_of_length_le (Nat.le_succ_of_le hi)]
    | some e =>
      have hi : i < xs.length := by
        rcases List.getElem?_eq_some_iff.mp h with ⟨hi, _⟩
        exact hi
      have he : xs[i] = e := by
        rcases List.getElem?_eq_some_iff.mp h with ⟨_, he⟩
        exact he
      rw [List.drop_eq_getElem_cons hi, he, List.take_succ_cons, List.foldl_cons]
      simp only [addAt, h]

/-- The three loops of `movePosition` are one fold over `_dynamic ++ _static ++ _ui`. -/
theorem movePosition_vectors (m : Store) (guid movement : Nat) :
    (m.movePosition guid movement).vectors =
      (m._dynamic ++ m._static ++ m._ui).foldl
        (fun vs e => if e.guid = guid then
          Function.update vs e.position ((vs e.position).add (vs movement)) else vs)
        m.vectors := by
  simp only [movePosition, forUp_addAt, List.drop_zero, List.take_length, List.foldl_append]

theorem foldl_add_absent (guid movement : Nat) (xs : List Slot) (vectors : Nat → Vector2)
    (h : ∀ e ∈ xs, e.guid ≠ guid) :
    xs.foldl
      (fun vs e => if e.guid = guid then
        Function.update vs e.position ((vs e.position).add (vs movement)) else vs)
      vectors = vectors := by
  induction xs generalizing vectors with
  | nil => rfl
  | cons a xs ih =>
    rw [List.foldl_cons, if_neg (h a (List.mem_cons_self _ _))]
    exact ih _ (fun e he => h e (List.mem_cons_of_mem _ he))

/-- When exactly one slot holds the handle, the loops call `add` once, on its position
object. -/
theorem foldl_add_unique (movement : Nat) (xs : List Slot) (vectors : Nat → Vector2)
    (hn : (xs.map Slot.guid).Nodup) (e : Slot) (he : e ∈ xs) :
    xs.foldl
      (fun vs x => if x.guid = e.guid then
        Function.update vs x.position ((vs x.position).add (vs movement)) else vs)
      vectors =
      Function.update vectors e.position ((vectors e.position).add (vectors movement)) := by
  induction xs generalizing vectors with
  | nil => cases he
  | cons a xs ih =>
    rw [List.map_cons, List.nodup_cons] at hn
    rw [List.foldl_cons]
    by_cases ha : a.guid = e.guid
    · have hae : a = e := by
        rcases List.mem_cons.mp he with h | h
        · exact h.symm
        · exact absurd (ha ▸ List.mem_map_of_mem Slot.guid h) hn.1
      subst hae
      rw [if_pos rfl]
      apply foldl_add_absent
      intro x hx hxa
      exact hn.1 (hxa ▸ List.mem_map_of_mem Slot.guid hx)
    · rw [if_neg ha]
      rcases List.mem_cons.mp he with h | h
      · exact absurd (h ▸ rfl) ha
      · exact ih _ hn.2 h

theorem view_guids (m : Store) :
    m.view.guids = (m._dynamic ++ m._static ++ m._ui).map Slot.guid := by
  simp [view, Scene.guids, deref, Function.comp_def]

end Store

namespace scene

/-- In a registry without duplicate handles `getPosition` of the handle of a stored entity
is the position of that entity. -/
theorem getPosition_of_mem (s : Scene) (hn : s.guids.Nodup) (x : Entity)
    (hx : x ∈ s._dynamic ++ s._static ++ s._ui) :
    getPosition s x.guid = some x.position := by
  rw [getPosition_eq]
  have hperm : (s._dynamic.reverse ++ s._static.reverse ++ s._ui.reverse).Perm
      (s._dynamic ++ s._static ++ s._ui) :=
    ((List.reverse_perm _).append (List.reverse_perm _)).append (List.reverse_perm _)
  have hn' : ((s._dynamic.reverse ++ s._static.reverse ++ s._ui.reverse).map
      Entity.guid).Nodup := (hperm.map Entity.guid).nodup_iff.mpr hn
  rw [find?_of_nodup_guid _ hn' x (hperm.mem_iff.mpr hx)]
  rfl

end scene

/-- C11, as stated, fails when two entities hold the same position object: in
`sharedPositionStore` (handles `0` and `1`, no duplicate) the handle `0` exists, and after
`movePosition(0, delta)` with `delta = (1, 0)` the position of the other entity, handle
`1`, is `(1, 0)` where it was `(0, 0)`. -/
theorem movePosition_shared_object_counterexample :
    sharedPositionStore.view.guids = [0, 1]
    ∧ scene.«exists» sharedPositionStore.view 0 = true
    ∧ sharedPositionStore.vectors 1 = ⟨1, 0⟩
    ∧ scene.getPosition sharedPositionStore.view 1 = some ⟨0, 0⟩
    ∧ scene.getPosition (sharedPositionStore.movePosition 0 1).view 1 = some ⟨1, 0⟩
    ∧ scene.getPosition (sharedPositionStore.movePosition 0 1).view 1
        ≠ scene.getPosition sharedPositionStore.view 1 := by
  have h1 : scene.getPosition sharedPositionStore.view 1 = some ⟨0, 0⟩ := by
    simp [sharedPositionStore, Store.view, Store.deref, Store.add.static, Store.add.dynamic,
      Store.init, exampleVectors, whiteFill, getPosition, scanDown]
  have h2 : scene.getPosition (sharedPositionStore.movePosition 0 1).view 1
      = some ⟨1, 0⟩ := by
    simp [sharedPositionStore, Store.view, Store.deref, Store.add.static, Store.add.dynamic,
      Store.init, exampleVectors, whiteFill, getPosition, scanDown, Store.movePosition,
      forUp, Store.addAt, Function.update_apply, Vector2.add]
  refine ⟨?_, ?_, ?_, h1, h2, ?_⟩
  · simp [sharedPositionStore, Store.view_guids, Store.add.static, Store.add.dynamic,
      Store.init, whiteFill]
  · simp [sharedPositionStore, Store.view, Store.deref, Store.add.static, Store.add.dynamic,
      Store.init, whiteFill, scene.«exists», scanDown]
  · simp [sharedPositionStore, Store.add.static, Store.add.dynamic, Store.init,
      exampleVectors, whiteFill]
  · rw [h1, h2]
    intro h
    have hx := congrArg Vector2.x (Option.some.inj h)
    norm_num at hx

/-- C11, amended: in every store without duplicate handles (every reachable one) and for
every handle `h` with `scene.exists(h)`, `movePosition(h, delta)` keeps the entries of the
three partitions and all info objects, `getPosition(h)` afterwards is the earlier
`getPosition(h)` plus `delta` componentwise, and for the entity `e` holding `h` and every
stored entity `e'`: if `e'` holds another position object than `e`, its position is
unchanged; if it holds the same object, its position has grown by `delta` as well. -/
theorem movePosition_adds_in_place (m : Store) (h movement : Nat)
    (hn : m.view.guids.Nodup) (hex : scene.«exists» m.view h = true) :
    (m.movePosition h movement)._dynamic = m._dynamic
    ∧ (m.movePosition h movement)._static = m._static
    ∧ (m.movePosition h movement)._ui = m._ui
    ∧ (m.movePosition h movement).infos = m.infos
    ∧ (scene.getPosition m.view h).isSome
    ∧ scene.getPosition (m.movePosition h movement).view h
        = (scene.getPosition m.view h).map (fun p => p.add (m.vectors movement))
    ∧ (∀ e ∈ m._dynamic ++ m._static ++ m._ui, e.guid = h →
        ∀ e' ∈ m._dynamic ++ m._static ++ m._ui,
          (e'.position ≠ e.position →
            ((m.movePosition h movement).deref e').position = (m.deref e').position)
          ∧ (e'.position = e.position →
            ((m.movePosition h movement).deref e').position
              = (m.deref e').position.add (m.vectors movement))) := by
  rw [exists_eq_true_iff] at hex
  obtain ⟨x, hx, hxg⟩ := hex
  have hx' : x ∈ (m._dynamic ++ m._static ++ m._ui).map m.deref := by
    simpa [Store.view] using hx
  obtain ⟨e, he, hex⟩ := List.mem_map.mp hx'
  have heg : e.guid = h := by rw [← hxg, ← hex]; rfl
  subst heg
  have hn' : ((m._dynamic ++ m._static ++ m._ui).map Slot.guid).Nodup := by
    rw [← Store.view_guids]; exact hn
  have hvec : (m.movePosition e.guid movement).vectors
      = Function.update m.vectors e.position
          ((m.vectors e.position).add (m.vectors movement)) := by
    rw [Store.movePosition_vectors]
    exact Store.foldl_add_unique movement _ m.vectors hn' e he
  have hget : scene.getPosition m.view e.guid = some (m.vectors e.position) := by
    have hmem : m.deref e ∈ m.view._dynamic ++ m.view._static ++ m.view._ui := by
      rw [hex]; exact hx
    exact getPosition_of_mem m.view hn (m.deref e) hmem
  have hn2 : (m.movePosition e.guid movement).view.guids.Nodup := by
    rw [Store.view_guids]; exact hn'
  have hget2 : scene.getPosition (m.movePosition e.guid movement).view e.guid
      = some ((m.movePosition e.guid movement).vectors e.position) := by
    have hmem : (m.movePosition e.guid movement).deref e
        ∈ (m.movePosition e.guid movement).view._dynamic
          ++ (m.movePosition e.guid movement).view._static
          ++ (m.movePosition e.guid movement).view._ui := by
      have : (m.movePosition e.guid movement).deref e
          ∈ (m._dynamic ++ m._static ++ m._ui).map (m.movePosition e.guid movement).deref :=
        List.mem_map_of_mem _ he
      simpa [Store.view, Store.movePosition] using this
    exact getPosition_of_mem _ hn2 _ hmem
  refine ⟨rfl, rfl, rfl, rfl, ?_, ?_, ?_⟩
  · rw [hget]; rfl
  · rw [hget2, hget, hvec, Function.update_same]
    rfl
  · intro e0 he0 hg0 e' _
    have he0e : e0 = e := by
      by_contra hne
      have hinj := List.inj_on_of_nodup_map hn' he0 he hg0
      exact hne hinj
    subst he0e
    constructor
    · intro hp
      show (m.movePosition e0.guid movement).vectors e'.position = m.vectors e'.position
      rw [hvec, Function.update_noteq hp]
    · intro hp
      show (m.movePosition e0.guid movement).vectors e'.position
        = (m.vectors e'.position).add (m.vectors movement)
      rw [hvec, hp, Function.update_same]

/-- Witness of the amended C11: in `sharedPositionStore` the handles are `0` and `1`, the
handle `0` exists, and `getPosition(0)` after `movePosition(0, delta)` is the earlier value
plus `delta`. -/
theorem movePosition_adds_in_place_witness :
    sharedPositionStore.view.guids.Nodup
    ∧ scene.«exists» sharedPositionStore.view 0 = true
    ∧ scene.getPosition (sharedPositionStore.movePosition 0 1).view 0
        = (scene.getPosition sharedPositionStore.view 0).map
            (fun p => p.add (sharedPositionStore.vectors 1)) := by
  have hn : sharedPositionStore.view.guids.Nodup := by
    simp [sharedPositionStore, Store.view_guids, Store.add.static, Store.add.dynamic,
      Store.init, whiteFill]
  have hex : scene.«exists» sharedPositionStore.view 0 = true := by
    simp [sharedPositionStore, Store.view, Store.deref, Store.add.static, Store.add.dynamic,
      Store.init, whiteFill, scene.«exists», scanDown]
  exact ⟨hn, hex, (movePosition_adds_in_place sharedPositionStore 0 1 hn hex).2.2.2.2.2.1⟩

/-- C12, as stated, fails when the info object given to `add.dynamic` is held by an
earlier entity and has no velocity: in `sharedInfoStore` the static entity holds the info
object at address `0`, `{type: "fill", color: "white"}`; after
`scene.add.dynamic(position, size, info)` with that same object, the info of the static
entity has the velocity `(0, 0)`, so the static partition is not what it was. -/
theorem add_dynamic_shared_info_counterexample :
    sharedInfoStore.view._static.map Entity.info = [whiteFill]
    ∧ (Store.add.dynamic sharedInfoStore 5 ⟨10, 10⟩ 0).2.view._static.map Entity.info
        = [{ whiteFill with velocity := some ⟨0, 0⟩ }]
    ∧ (Store.add.dynamic sharedInfoStore 5 ⟨10, 10⟩ 0).2.view._static
        ≠ sharedInfoStore.view._static := by
  have h1 : sharedInfoStore.view._static.map Entity.info = [whiteFill] := by
    simp [sharedInfoStore, Store.view, Store.deref, Store.add.static, Store.init]
  have h2 : (Store.add.dynamic sharedInfoStore 5 ⟨10, 10⟩ 0).2.view._static.map Entity.info
      = [{ whiteFill with velocity := some ⟨0, 0⟩ }] := by
    simp [sharedInfoStore, Store.view, Store.deref, Store.add.static, Store.add.dynamic,
      Store.init, whiteFill]
  refine ⟨h1, h2, ?_⟩
  intro h
  have h3 := congrArg (List.map Entity.info) h
  rw [h1, h2] at h3
  have h4 := congrArg (List.map Info.velocity) h3
  simp [whiteFill] at h4

/-- C12, amended: for every store, `add.dynamic(position, size, info)` returns the old
counter value, appends one slot with the given position, size and info objects and that
handle at the end of `_dynamic`, keeps the entries of `_dynamic` before it and the entries
of `_static` and `_ui`, keeps every `Vector2` object and every info object other than
`info`, and leaves in the object `info` the zero vector as velocity when it had none and
its velocity otherwise, nothing else of it changed. So an earlier entity is unchanged
unless it holds the object `info` and that object had no velocity; then its info shows
the velocity `(0, 0)`. `add.static` and `add.ui` append one slot to their partition, return
its handle, and change no object and no other partition. -/
theorem add_appends_one_entity (m : Store) (position : Nat) (size : Vector2) (info : Nat) :
    ((Store.add.dynamic m position size info).1 = m._guid
      ∧ (Store.add.dynamic m position size info).2._dynamic
          = m._dynamic ++ [{ position := position, size := size, guid := m._guid,
                             info := info }]
      ∧ (Store.add.dynamic m position size info).2._static = m._static
      ∧ (Store.add.dynamic m position size info).2._ui = m._ui
      ∧ (Store.add.dynamic m position size info).2._guid = m._guid + 1
      ∧ (Store.add.dynamic m position size info).2.vectors = m.vectors
      ∧ (Store.add.dynamic m position size info).2.infos info
          = { m.infos info with
              velocity := if (m.infos info).velocity = none then some ⟨0, 0⟩
                else (m.infos info).velocity }
      ∧ (∀ a : Nat, a ≠ info →
          (Store.add.dynamic m position size info).2.infos a = m.infos a)
      ∧ (∀ e ∈ m._dynamic ++ m._static ++ m._ui,
          (e.info ≠ info ∨ (m.infos info).velocity ≠ none) →
          (Store.add.dynamic m position size info).2.deref e = m.deref e)
      ∧ (∀ e ∈ m._dynamic ++ m._static ++ m._ui,
          e.info = info → (m.infos info).velocity = none →
          (Store.add.dynamic m position size info).2.deref e
            = { m.deref e with
                info := { (m.deref e).info with velocity := some ⟨0, 0⟩ } }))
    ∧ ((Store.add.static m position size info).1 = m._guid
      ∧ (Store.add.static m position size info).2._static
          = m._static ++ [{ position := position, size := size, guid := m._guid,
                            info := info }]
      ∧ (Store.add.static m position size info).2._dynamic = m._dynamic
      ∧ (Store.add.static m position size info).2._ui = m._ui
      ∧ (Store.add.static m position size info).2._guid = m._guid + 1
      ∧ (Store.add.static m position size info).2.vectors = m.vectors
      ∧ (Store.add.static m position size info).2.infos = m.infos)
    ∧ ((Store.add.ui m position size info).1 = m._guid
      ∧ (Store.add.ui m position size info).2._ui
          = m._ui ++ [{ position := position, size := size, guid := m._guid,
                        info := info }]
      ∧ (Store.add.ui m position size info).2._dynamic = m._dynamic
      ∧ (Store.add.ui m position size info).2._static = m._static
      ∧ (Store.add.ui m position size info).2._guid = m._guid + 1
      ∧ (Store.add.ui m position size info).2.vectors = m.vectors
      ∧ (Store.add.ui m position size info).2.infos = m.infos) := by
  refine ⟨?_, ⟨rfl, rfl, rfl, rfl, rfl, rfl, rfl⟩, ⟨rfl, rfl, rfl, rfl, rfl, rfl, rfl⟩⟩
  by_cases hv : (m.infos info).velocity = none
  · have hadd : Store.add.dynamic m position size info =
        (m._guid, { m with
          infos := Function.update m.infos info
            { m.infos info with velocity := some ⟨0, 0⟩ }
          _dynamic := m._dynamic ++ [{ position := position, size := size, guid := m._guid,
                                       info := info }]
          _guid := m._guid + 1 }) := by
      unfold Store.add.dynamic
      rw [if_pos hv]
    rw [hadd]
    refine ⟨rfl, rfl, rfl, rfl, rfl, rfl, ?_, ?_, ?_, ?_⟩
    · simp only [Function.update_same, hv, if_true]
    · intro a ha
      exact Function.update_noteq ha _ _
    · intro e _ hor
      rcases hor with hne | hne
      · simp only [Store.deref, Function.update_noteq hne]
      · exact absurd hv hne
    · intro e _ heq _
      subst heq
      simp only [Store.deref, Function.update_same]
  · have hadd : Store.add.dynamic m position size info =
        (m._guid, { m with
          _dynamic := m._dynamic ++ [{ position := position, size := size, guid := m._guid,
                                       info := info }]
          _guid := m._guid + 1 }) := by
      unfold Store.add.dynamic
      rw [if_neg hv]
    rw [hadd]
    refine ⟨rfl, rfl, rfl, rfl, rfl, rfl, ?_, ?_, ?_, ?_⟩
    · simp only [hv, if_false]
    · intro a _; rfl
    · intro e _ _; rfl
    · intro e _ _ hnone
      exact absurd hnone hv

/-- Witness of the amended C12: in `sharedInfoStore` the static slot holds the info object at
address `0`, which has no velocity. After `add.dynamic` with that object the static entity
shows the velocity `(0, 0)`; after `add.dynamic` with the object at address `3` it is
unchanged. -/
theorem add_appends_one_entity_witness :
    (Store.add.dynamic sharedInfoStore 5 ⟨10, 10⟩ 0).2.deref
        { position := 0, size := ⟨200, 20⟩, guid := 0, info := 0 }
      = { sharedInfoStore.deref { position := 0, size := ⟨200, 20⟩, guid := 0, info := 0 } with
          info := { (sharedInfoStore.deref
            { position := 0, size := ⟨200, 20⟩, guid := 0, info := 0 }).info with
            velocity := some ⟨0, 0⟩ } }
    ∧ (Store.add.dynamic sharedInfoStore 5 ⟨10, 10⟩ 3).2.deref
        { position := 0, size := ⟨200, 20⟩, guid := 0, info := 0 }
      = sharedInfoStore.deref { position := 0, size := ⟨200, 20⟩, guid := 0, info := 0 } :=
  ⟨(add_appends_one_entity sharedInfoStore 5 ⟨10, 10⟩ 0).1.2.2.2.2.2.2.2.2.2
      { position := 0, size := ⟨200, 20⟩, guid := 0, info := 0 }
      (by simp [sharedInfoStore, Store.add.static, Store.init]) rfl
      (by simp [sharedInfoStore, Store.add.static, Store.init, whiteFill]),
    (add_appends_one_entity sharedInfoStore 5 ⟨10, 10⟩ 3).1.2.2.2.2.2.2.2.2.1
      { position := 0, size := ⟨200, 20⟩, guid := 0, info := 0 }
      (by simp [sharedInfoStore, Store.add.static, Store.init])
      (Or.inl (by decide))⟩

/-! ## The scene as the view of a store without shared objects -/

namespace Store

/-- Two stores that agree on the objects of the slots of a list give the same entities. -/
theorem map_deref_congr (m m' : Store) (xs : List Slot)
    (hv : ∀ e ∈ xs, m'.vectors e.position = m.vectors e.position)
    (hi : ∀ e ∈ xs, m'.infos e.info = m.infos e.info) :
    xs.map m'.deref = xs.map m.deref := by
  apply List.map_congr_left
  intro e he
  simp only [deref, hv e he, hi e he]

/-- On the view, `add.static` by reference is `scene.add.static`. -/
theorem view_add_static (m : Store) (position : Nat) (size : Vector2) (info : Nat) :
    (add.static m position size info).2.view
      = (scene.add.static m.view (m.vectors position) size (m.infos info)).2 := by
  simp only [add.static, scene.add.static, view, List.map_append, List.map_cons, List.map_nil]
  rfl

/-- On the view, `add.ui` by reference is `scene.add.ui`. -/
theorem view_add_ui (m : Store) (position : Nat) (size : Vector2) (info : Nat) :
    (add.ui m position size info).2.view
      = (scene.add.ui m.view (m.vectors position) size (m.infos info)).2 := by
  simp only [add.ui, scene.add.ui, view, List.map_append, List.map_cons, List.map_nil]
  rfl

/-- The view of a store that has one more dynamic slot than `m` and agrees with `m` on the
objects of the slots of `m`. -/
theorem view_append_dynamic (m m' : Store) (e : Slot)
    (hd : m'._dynamic = m._dynamic ++ [e]) (hs : m'._static = m._static)
    (hu : m'._ui = m._ui) (hg : m'._guid = m._guid + 1)
    (hv : ∀ x ∈ m._dynamic ++ m._static ++ m._ui, m'.vectors x.position = m.vectors x.position)
    (hi : ∀ x ∈ m._dynamic ++ m._static ++ m._ui, m'.infos x.info = m.infos x.info) :
    m'.view =
      { m.view with _dynamic := m.view._dynamic ++ [m'.deref e], _guid := m._guid + 1 } := by
  simp only [view, hd, hs, hu, hg, List.map_append, List.map_cons, List.map_nil]
  rw [map_deref_congr m m' m._dynamic
      (fun x hx => hv x (List.mem_append_left _ (List.mem_append_left _ hx)))
      (fun x hx => hi x (List.mem_append_left _ (List.mem_append_left _ hx))),
    map_deref_congr m m' m._static
      (fun x hx => hv x (List.mem_append_left _ (List.mem_append_right _ hx)))
      (fun x hx => hi x (List.mem_append_left _ (List.mem_append_right _ hx))),
    map_deref_congr m m' m._ui
      (fun x hx => hv x (List.mem_append_right _ hx))
      (fun x hx => hi x (List.mem_append_right _ hx))]

/-- On the view, `add.dynamic` by reference is `scene.add.dynamic` when no stored entity
holds the info object given to it. -/
theorem view_add_dynamic (m : Store) (position : Nat) (size : Vector2) (info : Nat)
    (hfresh : ∀ e ∈ m._dynamic ++ m._static ++ m._ui, e.info ≠ info) :
    (add.dynamic m position size info).2.view
      = (scene.add.dynamic m.view (m.vectors position) size (m.infos info)).2 := by
  by_cases hv : (m.infos info).velocity = none
  · have hadd : add.dynamic m position size info =
        (m._guid, { m with
          infos := Function.update m.infos info
            { m.infos info with velocity := some ⟨0, 0⟩ }
          _dynamic := m._dynamic ++ [{ position := position, size := size, guid := m._guid,
                                       info := info }]
          _guid := m._guid + 1 }) := by
      unfold add.dynamic
      rw [if_pos hv]
    rw [hadd, view_append_dynamic m
      { m with
        infos := Function.update m.infos info { m.infos info with velocity := some ⟨0, 0⟩ }
        _dynamic := m._dynamic ++ [{ position := position, size := size, guid := m._guid,
                                     info := info }]
        _guid := m._guid + 1 }
      { position := position, size := size, guid := m._guid, info := info }
      rfl rfl rfl rfl (fun _ _ => rfl)
      (fun x hx => Function.update_noteq (hfresh x hx) _ _)]
    simp [scene.add.dynamic, view, hv, deref]
  · have hadd : add.dynamic m position size info =
        (m._guid, { m with
          _dynamic := m._dynamic ++ [{ position := position, size := size, guid := m._guid,
                                       info := info }]
          _guid := m._guid + 1 }) := by
      unfold add.dynamic
      rw [if_neg hv]
    rw [hadd, view_append_dynamic m
      { m with
        _dynamic := m._dynamic ++ [{ position := position, size := size, guid := m._guid,
                                     info := info }]
        _guid := m._guid + 1 }
      { position := position, size := size, guid := m._guid, info := info }
      rfl rfl rfl rfl (fun _ _ => rfl) (fun _ _ => rfl)]
    simp [scene.add.dynamic, view, hv, deref]

end Store

namespace Store

/-- The fold of `movePosition` over slots with pairwise different position objects, none
of them the argument object: each position object gets `movement` added exactly when its
slot holds the handle. -/
theorem foldl_add_apply (h movement : Nat) (xs : List Slot) (vs : Nat → Vector2)
    (hn : (xs.map Slot.position).Nodup) (hmv : ∀ e ∈ xs, e.position ≠ movement) :
    (∀ e ∈ xs,
      (xs.foldl
        (fun vs e => if e.guid = h then
          Function.update vs e.position ((vs e.position).add (vs movement)) else vs)
        vs) e.position
        = if e.guid = h then (vs e.position).add (vs movement) else vs e.position)
    ∧ (∀ a : Nat, (∀ e ∈ xs, e.position ≠ a) →
      (xs.foldl
        (fun vs e => if e.guid = h then
          Function.update vs e.position ((vs e.position).add (vs movement)) else vs)
        vs) a = vs a) := by
  induction xs generalizing vs with
  | nil => exact ⟨fun e he => (by cases he), fun a _ => rfl⟩
  | cons x xs ih =>
    rw [List.map_cons, List.nodup_cons] at hn
    have hx : ∀ e ∈ xs, e.position ≠ x.position := fun e he heq =>
      hn.1 (heq ▸ List.mem_map_of_mem Slot.position he)
    have hmv' : ∀ e ∈ xs, e.position ≠ movement := fun e he =>
      hmv e (List.mem_cons_of_mem _ he)
    have hxm : movement ≠ x.position := fun hm => hmv x (List.mem_cons_self _ _) hm.symm
    simp only [List.foldl_cons]
    constructor
    · intro e he
      rcases List.mem_cons.mp he with rfl | he
      · rw [(ih _ hn.2 hmv').2 e.position hx]
        by_cases hg : e.guid = h
        · simp only [hg, if_true, Function.update_same]
        · simp only [hg, if_false]
      · rw [(ih _ hn.2 hmv').1 e he]
        by_cases hg : x.guid = h
        · simp only [hg, if_true, Function.update_noteq (hx e he), Function.update_noteq hxm]
        · simp only [hg, if_false]
    · intro a ha
      rw [(ih _ hn.2 hmv').2 a (fun e he => ha e (List.mem_cons_of_mem _ he))]
      by_cases hg : x.guid = h
      · simp only [hg, if_true]
        exact Function.update_noteq (fun hax => ha x (List.mem_cons_self _ _) hax.symm) _ _
      · simp only [hg, if_false]

/-- On the view, `movePosition` by reference is `scene.movePosition` when the stored
entities hold pairwise different position objects and the argument is none of them. -/
theorem view_movePosition (m : Store) (h movement : Nat)
    (hn : ((m._dynamic ++ m._static ++ m._ui).map Slot.position).Nodup)
    (hmv : ∀ e ∈ m._dynamic ++ m._static ++ m._ui, e.position ≠ movement) :
    (m.movePosition h movement).view = scene.movePosition m.view h (m.vectors movement) := by
  have hderef : ∀ e ∈ m._dynamic ++ m._static ++ m._ui,
      (m.movePosition h movement).deref e
        = (fun x : Entity =>
            if x.guid = h then { x with position := x.position.add (m.vectors movement) }
            else x) (m.deref e) := by
    intro e he
    have hpos := (foldl_add_apply h movement _ m.vectors hn hmv).1 e he
    rw [← movePosition_vectors] at hpos
    by_cases hg : e.guid = h
    · simp only [deref, hg, if_true] at hpos ⊢
      rw [hpos]
      rfl
    · simp only [deref, hg, if_false] at hpos ⊢
      rw [hpos]
      rfl
  have hmap : ∀ xs : List Slot, (∀ e ∈ xs, e ∈ m._dynamic ++ m._static ++ m._ui) →
      xs.map (m.movePosition h movement).deref
        = (xs.map m.deref).map (fun x : Entity =>
            if x.guid = h then { x with position := x.position.add (m.vectors movement) }
            else x) := by
    intro xs hxs
    rw [List.map_map]
    apply List.map_congr_left
    intro e he
    exact hderef e (hxs e he)
  simp only [scene.movePosition, forUp_assignAt]
  simp only [view]
  rw [show (m.movePosition h movement)._dynamic = m._dynamic from rfl,
    show (m.movePosition h movement)._static = m._static from rfl,
    show (m.movePosition h movement)._ui = m._ui from rfl,
    hmap m._dynamic (fun e he => List.mem_append_left _ (List.mem_append_left _ he)),
    hmap m._static (fun e he => List.mem_append_left _ (List.mem_append_right _ he)),
    hmap m._ui (fun e he => List.mem_append_right _ he)]
  rfl

end Store

/-! ## The helpers at the top of `lib.js` -/

theorem Vector2.call_self (m : Vector2 → Vector2 → Vector2) (vectors : Nat → Vector2)
    (a b : Nat) : Vector2.call m vectors a b a = m (vectors a) (vectors b) := by
  simp [Vector2.call]

theorem Vector2.call_other (m : Vector2 → Vector2 → Vector2) (vectors : Nat → Vector2)
    (a b c : Nat) (h : c ≠ a) : Vector2.call m vectors a b c = vectors c := by
  simp [Vector2.call, Function.update_noteq h]

/-- C27: on two distinct objects `a` and `b`, the methods `add`, `substract`, `multiply` and
`divide` overwrite `a` with the componentwise sum, difference, product and quotient (the
components of `b` not zero for `divide`) and leave `b` as it was; `dot` is
`a.x*b.x + a.y*b.y` and `sum` is `a.x + a.y`; on `(1,4)` and `(2,3)` the four methods give
`(3,7)`, `(-1,1)`, `(2,12)` and `(1/2,4/3)`; `pointFromOrigin` is the componentwise
difference, `(3,-1)` for the point `(4,2)` and the origin `(1,3)`. -/
theorem vector2_methods_componentwise (vectors : Nat → Vector2) (a b : Nat) (hab : a ≠ b) :
    (Vector2.call Vector2.add vectors a b a
        = ⟨(vectors a).x + (vectors b).x, (vectors a).y + (vectors b).y⟩
      ∧ Vector2.call Vector2.add vectors a b b = vectors b)
    ∧ (Vector2.call Vector2.substract vectors a b a
        = ⟨(vectors a).x - (vectors b).x, (vectors a).y - (vectors b).y⟩
      ∧ Vector2.call Vector2.substract vectors a b b = vectors b)
    ∧ (Vector2.call Vector2.multiply vectors a b a
        = ⟨(vectors a).x * (vectors b).x, (vectors a).y * (vectors b).y⟩
      ∧ Vector2.call Vector2.multiply vectors a b b = vectors b)
    ∧ ((vectors b).x ≠ 0 → (vectors b).y ≠ 0 →
        ∃ after, Vector2.callDivide vectors a b = some after
          ∧ after a = ⟨(vectors a).x / (vectors b).x, (vectors a).y / (vectors b).y⟩
          ∧ after b = vectors b)
    ∧ Vector2.dot (vectors a) (vectors b)
        = (vectors a).x * (vectors b).x + (vectors a).y * (vectors b).y
    ∧ Vector2.sum (vectors a) = (vectors a).x + (vectors a).y
    ∧ (Vector2.call Vector2.add docVectors 0 1 0 = ⟨3, 7⟩
      ∧ Vector2.call Vector2.substract docVectors 0 1 0 = ⟨-1, 1⟩
      ∧ Vector2.call Vector2.multiply docVectors 0 1 0 = ⟨2, 12⟩
      ∧ (Vector2.callDivide docVectors 0 1).map (fun after => after 0) = some ⟨1 / 2, 4 / 3⟩)
    ∧ (∀ point origin : Vector2,
        pointFromOrigin point origin = Vector2.call Vector2.substract
          (fun c => if c = 0 then point else origin) 0 1 0)
    ∧ pointFromOrigin ⟨4, 2⟩ ⟨1, 3⟩ = ⟨3, -1⟩ := by
  have hba : b ≠ a := fun h => hab h.symm
  refine ⟨⟨?_, ?_⟩, ⟨?_, ?_⟩, ⟨?_, ?_⟩, ?_, rfl, rfl, ⟨?_, ?_, ?_, ?_⟩, ?_, ?_⟩
  · rw [Vector2.call_self]; rfl
  · exact Vector2.call_other _ _ _ _ _ hba
  · rw [Vector2.call_self]; rfl
  · exact Vector2.call_other _ _ _ _ _ hba
  · rw [Vector2.call_self]; rfl
  · exact Vector2.call_other _ _ _ _ _ hba
  · intro hx hy
    refine ⟨Function.update vectors a
      ⟨(vectors a).x / (vectors b).x, (vectors a).y / (vectors b).y⟩, ?_, ?_, ?_⟩
    · simp [Vector2.callDivide, Vector2.divide, hx, hy]
    · simp
    · simp [Function.update_noteq hba]
  · rw [Vector2.call_self]; norm_num [docVectors, Vector2.add]
  · rw [Vector2.call_self]; norm_num [docVectors, Vector2.substract]
  · rw [Vector2.call_self]; norm_num [docVectors, Vector2.multiply]
  · norm_num [Vector2.callDivide, Vector2.divide, docVectors]
  · intro point origin
    rw [Vector2.call_self]; simp [pointFromOrigin, Vector2.substract]
  · norm_num [pointFromOrigin]

/-- Witness of C27: `myVector.add(otherVector)` leaves `otherVector` as it was. -/
theorem vector2_methods_componentwise_witness :
    (0 : Nat) ≠ 1 ∧ Vector2.call Vector2.add docVectors 0 1 1 = docVectors 1 :=
  ⟨by decide, (vector2_methods_componentwise docVectors 0 1 (by decide)).1.2⟩

theorem Math.round_eq_iff (q : ℚ) (n : ℤ) :
    Math.round q = (n : ℚ) ↔ (n : ℚ) - 1 / 2 ≤ q ∧ q < (n : ℚ) + 1 / 2 := by
  unfold Math.round
  rw [Int.cast_inj, Int.floor_eq_iff]
  constructor
  · rintro ⟨h1, h2⟩; constructor <;> linarith
  · rintro ⟨h1, h2⟩; constructor <;> linarith

/-- C28: for integers `min ≤ max` and a draw `r` in `[0,1)`, `random(min, max)` is a whole
number between `min` and `max`, both included, and every whole number of that range is the
result for some draw. -/
theorem random_whole_in_range (min max : ℤ) (hmm : min ≤ max) :
    (∀ r : ℚ, 0 ≤ r → r < 1 →
      ∃ n : ℤ, random r min max = (n : ℚ) ∧ min ≤ n ∧ n ≤ max)
    ∧ (∀ n : ℤ, min ≤ n → n ≤ max →
      ∃ r : ℚ, 0 ≤ r ∧ r < 1 ∧ random r min max = (n : ℚ)) := by
  have hq : (min : ℚ) ≤ (max : ℚ) := by exact_mod_cast hmm
  constructor
  · intro r h0 h1
    refine ⟨⌊(r * ((max : ℚ) - min)) + min + 1 / 2⌋, rfl, ?_, ?_⟩
    · rw [Int.le_floor]
      have : 0 ≤ r * ((max : ℚ) - min) := mul_nonneg h0 (by linarith)
      linarith
    · have hlt : ⌊(r * ((max : ℚ) - min)) + min + 1 / 2⌋ < max + 1 := by
        rw [Int.floor_lt]
        have : r * ((max : ℚ) - min) ≤ 1 * ((max : ℚ) - min) :=
          mul_le_mul_of_nonneg_right h1.le (by linarith)
        push_cast
        linarith
      omega
  · intro n hn1 hn2
    rcases eq_or_lt_of_le hmm with heq | hlt
    · refine ⟨0, le_refl _, by norm_num, ?_⟩
      have hn : n = min := by omega
      subst hn
      rw [random, Math.round_eq_iff]
      constructor <;> linarith
    · have hpos : (0 : ℚ) < (max : ℚ) - min := by
        have : (min : ℚ) < max := by exact_mod_cast hlt
        linarith
      have hone : (1 : ℚ) ≤ (max : ℚ) - min := by
        have : min + 1 ≤ max := by omega
        have : ((min + 1 : ℤ) : ℚ) ≤ max := by exact_mod_cast this
        push_cast at this
        linarith
      rcases eq_or_lt_of_le hn2 with htop | hbelow
      · subst htop
        refine ⟨1 - 1 / (2 * ((n : ℚ) - min)), ?_, ?_, ?_⟩
        · have : 1 / (2 * ((n : ℚ) - min)) ≤ 1 := by
            rw [div_le_one (by linarith)]; linarith
          linarith
        · have : 0 < 1 / (2 * ((n : ℚ) - min)) := by positivity
          linarith
        · rw [random, Math.round_eq_iff]
          have hval : (1 - 1 / (2 * ((n : ℚ) - min))) * ((n : ℚ) - min) + min
              = (n : ℚ) - 1 / 2 := by
            field_simp
            ring
          rw [hval]
          constructor <;> linarith
      · have hnq : (n : ℚ) < max := by exact_mod_cast hbelow
        have hnm : (min : ℚ) ≤ n := by exact_mod_cast hn1
        refine ⟨((n : ℚ) - min) / ((max : ℚ) - min), ?_, ?_, ?_⟩
        · exact div_nonneg (by linarith) hpos.le
        · rw [div_lt_one hpos]; linarith
        · rw [random, Math.round_eq_iff]
          have hval : ((n : ℚ) - min) / ((max : ℚ) - min) * ((max : ℚ) - min) + min
              = (n : ℚ) := by
            field_simp
          rw [hval]
          constructor <;> linarith

/-- Witness of C28: `random(-10, 10)` is a whole number from `-10` to `10`. -/
theorem random_whole_in_range_witness :
    ((-10 : ℤ) ≤ 10)
    ∧ (∀ r : ℚ, 0 ≤ r → r < 1 →
      ∃ n : ℤ, random r ((-10 : ℤ) : ℚ) ((10 : ℤ) : ℚ) = (n : ℚ) ∧ -10 ≤ n ∧ n ≤ 10) :=
  ⟨by decide, (random_whole_in_range (-10) 10 (by decide)).1⟩

/-! ## The frame loop -/

namespace scene

theorem update_input (host : Host) (e : Engine) :
    (_update host e).engine.input = smoothInput e.input := by
  unfold _update
  dsimp only
  split
  · split <;> rfl
  · rfl

theorem frames_append (hosts : List Host) (host : Host) (e : Engine) :
    frames (hosts ++ [host]) e = (_update host (frames hosts e)).engine := by
  simp [frames, List.foldl_append]

theorem frames_key (hosts : List Host) (e : Engine) :
    (frames hosts e).input.key = e.input.key := by
  induction hosts using List.reverseRecOn with
  | nil => rfl
  | append_singleton hosts host ih =>
    rw [frames_append, update_input]
    exact ih

theorem frames_horizontal (hosts : List Host) (e : Engine) (h0 : e.input.horizontal = 0)
    (hg : goalX e.input.key = 1) :
    (frames hosts e).input.horizontal = 1 - (9 / 10) ^ hosts.length := by
  induction hosts using List.reverseRecOn with
  | nil => simp [frames, h0]
  | append_singleton hosts host ih =>
    rw [frames_append, update_input]
    simp only [smoothInput, frames_key, hg, ih, List.length_append, List.length_singleton,
      pow_succ]
    norm_num
    ring

theorem frames_vertical (hosts : List Host) (e : Engine) (h0 : e.input.vertical = 0)
    (hg : goalY e.input.key = 1) :
    (frames hosts e).input.vertical = 1 - (9 / 10) ^ hosts.length := by
  induction hosts using List.reverseRecOn with
  | nil => simp [frames, h0]
  | append_singleton hosts host ih =>
    rw [frames_append, update_input]
    simp only [smoothInput, frames_key, hg, ih, List.length_append, List.length_singleton,
      pow_succ]
    norm_num
    ring

end scene

/-- C21: starting from `scene.input.horizontal = 0`, with `d` or `ArrowRight` held and
neither `a` nor `ArrowLeft` held, after `n` calls of `_update` (whatever the host hands to
them) `scene.input.horizontal` is `1 - (9/10)^n`; the same for `scene.input.vertical` with
`w` or `ArrowUp` held and neither `s` nor `ArrowDown`. -/
theorem axis_after_n_frames (hosts : List Host) (e : Engine) :
    (e.input.horizontal = 0 →
      (e.input.key "d" = true ∨ e.input.key "ArrowRight" = true) →
      e.input.key "a" = false → e.input.key "ArrowLeft" = false →
      (scene.frames hosts e).input.horizontal = 1 - (9 / 10) ^ hosts.length)
    ∧ (e.input.vertical = 0 →
      (e.input.key "w" = true ∨ e.input.key "ArrowUp" = true) →
      e.input.key "s" = false → e.input.key "ArrowDown" = false →
      (scene.frames hosts e).input.vertical = 1 - (9 / 10) ^ hosts.length) := by
  constructor
  · intro h0 hr ha hl
    apply scene.frames_horizontal hosts e h0
    rcases hr with hd | hd <;> simp [scene.goalX, ha, hl, hd]
  · intro h0 hr ha hl
    apply scene.frames_vertical hosts e h0
    rcases hr with hd | hd <;> simp [scene.goalY, ha, hl, hd]

/-- Witness of C21: with `d` held, after two frames the horizontal axis is `1 - (9/10)^2`. -/
theorem axis_after_n_frames_witness :
    rightHeld.input.horizontal = 0 ∧ rightHeld.input.key "d" = true
    ∧ (scene.frames [idleHost, failingHost] rightHeld).input.horizontal = 1 - (9 / 10) ^ 2 :=
  ⟨rfl, by simp [rightHeld, Input.keydown],
    (axis_after_n_frames [idleHost, failingHost] rightHeld).1 rfl
      (Or.inl (by simp [rightHeld, Input.keydown]))
      (by simp [rightHeld, Input.keydown, Input.init])
      (by simp [rightHeld, Input.keydown, Input.init])⟩

namespace scene

theorem foldl_drawObject (xs : List Entity) (calls : List DrawCall) :
    xs.foldl drawObject calls = calls ++ xs.map DrawCall.object := by
  induction xs generalizing calls with
  | nil => simp
  | cons x xs ih => simp [ih, drawObject]

theorem draw_eq (s : Scene) (calls : List DrawCall) :
    _draw s calls = calls ++ (drawOrder s).map DrawCall.object ++ [DrawCall.afterDraw] := by
  simp [_draw, drawOrder, foldl_drawObject]

theorem filter_background_perm (ui : List Entity) :
    (ui.filter (fun el => el.info.background = true)
      ++ ui.filter (fun el => el.info.background = false)).Perm ui := by
  have h := List.filter_append_perm (fun el : Entity => el.info.background) ui
  have e1 : (fun el : Entity => decide (el.info.background = true))
      = fun el : Entity => el.info.background := by
    funext el; simp
  have e2 : (fun el : Entity => decide (el.info.background = false))
      = fun el : Entity => !el.info.background := by
    funext el; cases el.info.background <;> rfl
  rw [e1, e2]
  exact h

end scene

/-- C22: one call of `_draw` visits the ui entities with `background` in the order of
`scene._ui`, then the static entities, then the dynamic entities, then the other ui
entities, and calls `afterDraw` once, after all of them; the visited entities are the stored
entities, each as often as it is stored. -/
theorem draw_visits_layers_in_order (s : Scene) :
    scene._draw s [] = (drawOrder s).map DrawCall.object ++ [DrawCall.afterDraw]
    ∧ (drawOrder s).Perm (s._ui ++ s._static ++ s._dynamic)
    ∧ (s._ui.filter (fun el => el.info.background = true)).Sublist s._ui
    ∧ (s._ui.filter (fun el => el.info.background = false)).Sublist s._ui := by
  refine ⟨by simpa using scene.draw_eq s [], ?_, List.filter_sublist _, List.filter_sublist _⟩
  unfold drawOrder
  have h := scene.filter_background_perm s._ui
  have h1 : (s._ui.filter (fun el => el.info.background = true) ++ s._static ++ s._dynamic
      ++ s._ui.filter (fun el => el.info.background = false)).Perm
      (s._ui.filter (fun el => el.info.background = true)
        ++ (s._ui.filter (fun el => el.info.background = false)
          ++ (s._static ++ s._dynamic))) := by
    simp only [List.append_assoc]
    refine List.Perm.append_left _ ?_
    rw [← List.append_assoc]
    exact List.perm_append_comm
  refine h1.trans ?_
  rw [← List.append_assoc, List.append_assoc s._ui]
  exact List.Perm.append_right _ h

namespace scene

theorem update_of_running (host : Host) (e : Engine) (shaken : Scene)
    (hp : (_physics e.scene ((host.newTime - e._lastDraw) / 1000)).status = Status.running)
    (hs : _shake (_physics e.scene ((host.newTime - e._lastDraw) / 1000)).scene
      host.shakeTime host.randomX host.randomY = some shaken) :
    _update host e =
      { engine :=
          { scene := _removeDynamicsOutsideScreen
              (host.update ((host.newTime - e._lastDraw) / 1000) shaken).1
              host.innerWidth host.innerHeight
            input := smoothInput e.input
            _lastDraw := host.newTime }
        log := (_physics e.scene ((host.newTime - e._lastDraw) / 1000)).log
        consoleError := (host.update ((host.newTime - e._lastDraw) / 1000) shaken).2
        requested := !(host.update ((host.newTime - e._lastDraw) / 1000) shaken).2
        drawn := _draw (_removeDynamicsOutsideScreen
          (host.update ((host.newTime - e._lastDraw) / 1000) shaken).1
          host.innerWidth host.innerHeight) []
        status := Status.running } := by
  unfold _update
  simp only [hp, hs]

theorem physics_init (deltaTime : ℚ) :
    _physics scene.init deltaTime = { scene := scene.init, log := [], status := .running } :=
  rfl

theorem shake_init (now randomX randomY : ℚ) :
    _shake scene.init now randomX randomY = some scene.init := by
  simp [_shake, scene.init]

end scene

/-- C25, the claim as stated fails: in a frame whose `update` raises an error,
`requestAnimationFrame(scene._update)` is not called. -/
theorem failing_update_stops_loop_counterexample :
    (failingHost.update ((failingHost.newTime - (Engine.init 0)._lastDraw) / 1000)
      scene.init).2 = true
    ∧ (scene._update failingHost (Engine.init 0)).status = scene.Status.running
    ∧ (scene._update failingHost (Engine.init 0)).requested = false := by
  rw [scene.update_of_running failingHost (Engine.init 0) scene.init
    (by rw [show (Engine.init 0).scene = scene.init from rfl, scene.physics_init])
    (by rw [show (Engine.init 0).scene = scene.init from rfl, scene.physics_init]
        exact scene.shake_init _ _ _)]
  exact ⟨rfl, rfl, rfl⟩

/-- C25 as amended: in a frame in which `_physics` and `_shake` complete and `update` raises
an error, the error is caught and passed to `console.error`, `_update` returns, the sweep
and the drawing are done and `_lastDraw` is set, but
`requestAnimationFrame(scene._update)` is not called; it is called exactly in the frames
whose `update` returns. -/
theorem update_error_caught_not_rescheduled (host : Host) (e : Engine) (shaken : Scene)
    (hp : (scene._physics e.scene ((host.newTime - e._lastDraw) / 1000)).status
      = scene.Status.running)
    (hs : scene._shake (scene._physics e.scene ((host.newTime - e._lastDraw) / 1000)).scene
      host.shakeTime host.randomX host.randomY = some shaken) :
    ((scene._update host e).requested = true
      ↔ (host.update ((host.newTime - e._lastDraw) / 1000) shaken).2 = false)
    ∧ ((host.update ((host.newTime - e._lastDraw) / 1000) shaken).2 = true →
      (scene._update host e).status = scene.Status.running
      ∧ (scene._update host e).consoleError = true
      ∧ (scene._update host e).requested = false
      ∧ (scene._update host e).engine.scene = scene._removeDynamicsOutsideScreen
          (host.update ((host.newTime - e._lastDraw) / 1000) shaken).1
          host.innerWidth host.innerHeight
      ∧ (scene._update host e).drawn = scene._draw (scene._update host e).engine.scene []
      ∧ (scene._update host e).engine._lastDraw = host.newTime) := by
  rw [scene.update_of_running host e shaken hp hs]
  constructor
  · simp
  · intro h
    simp [h]

/-- Witness of C25 as amended: the frame of `failingHost` logs the error and requests no
frame, the frame of `idleHost` requests one. -/
theorem update_error_caught_not_rescheduled_witness :
    (scene._update failingHost (Engine.init 0)).consoleError = true
    ∧ (scene._update failingHost (Engine.init 0)).requested = false
    ∧ (scene._update idleHost (Engine.init 0)).requested = true :=
  have hf := update_error_caught_not_rescheduled failingHost (Engine.init 0) scene.init
    (by rw [show (Engine.init 0).scene = scene.init from rfl, scene.physics_init])
    (by rw [show (Engine.init 0).scene = scene.init from rfl, scene.physics_init]
        exact scene.shake_init _ _ _)
  have hi := update_error_caught_not_rescheduled idleHost (Engine.init 0) scene.init
    (by rw [show (Engine.init 0).scene = scene.init from rfl, scene.physics_init])
    (by rw [show (Engine.init 0).scene = scene.init from rfl, scene.physics_init]
        exact scene.shake_init _ _ _)
  ⟨(hf.2 rfl).2.1, (hf.2 rfl).2.2.1, hi.1.2 rfl⟩

/-! ## The listener of `mousedown` -/

namespace scene

theorem pointerInside_iff (s : Scene) (p : Vector2) (object : Entity) :
    pointerInside s p object = true ↔ insideShaken s._shakeX s._shakeY p object := by
  simp only [pointerInside, insideShaken, decide_eq_true_eq, gt_iff_lt]

theorem foldl_clickObject_undefined (s : Scene) (p : Vector2) (button : Nat)
    (xs : List Entity) (calls : List ClickCall) :
    xs.foldl (clickObject s p button fun object => object.click) calls = calls := by
  induction xs generalizing calls with
  | nil => rfl
  | cons x xs ih =>
    rw [List.foldl_cons, ih]
    unfold clickObject
    split <;> rfl

theorem foldl_clickObject_info (s : Scene) (p : Vector2) (button : Nat)
    (xs : List Entity) (calls : List ClickCall) :
    xs.foldl (clickObject s p button fun object => object.info.click) calls
      = calls ++ clickCalls s p button xs := by
  induction xs generalizing calls with
  | nil => simp [clickCalls]
  | cons x xs ih =>
    rw [List.foldl_cons, ih]
    unfold clickObject clickCalls
    by_cases hin : pointerInside s p x = true
    · have hin2 := (pointerInside_iff s p x).1 hin
      cases hc : x.info.click with
      | none => simp [hin, hin2, hc]
      | some handler => simp [hin, hin2, hc]
    · have hin2 : ¬ insideShaken s._shakeX s._shakeY p x :=
        fun h => hin ((pointerInside_iff s p x).2 h)
      simp [hin, hin2]

/-- What the listener does: it calls the functions `click` of the ui entities only. -/
theorem mousedown_eq (s : Scene) (_oldviewSize : Vector2) (e : MouseEvent)
    (calls : List ClickCall) :
    mousedown s _oldviewSize e calls
      = calls ++ clickCalls s (sceneCoordinates _oldviewSize e) e.button s._ui := by
  unfold mousedown
  simp only [foldl_clickObject_undefined, foldl_clickObject_info]
  rfl

end scene

theorem clickCalls_append (s : Scene) (p : Vector2) (button : Nat) (xs ys : List Entity) :
    clickCalls s p button (xs ++ ys) = clickCalls s p button xs ++ clickCalls s p button ys := by
  simp [clickCalls, List.filterMap_append]

theorem clickCalls_cons_hit (s : Scene) (p : Vector2) (button : Nat) (x : Entity)
    (xs : List Entity) (handler : Callback) (hin : insideShaken s._shakeX s._shakeY p x)
    (hc : x.info.click = some handler) :
    clickCalls s p button (x :: xs)
      = { handler := handler, button := scene.mouseNames[button]? } :: clickCalls s p button xs := by
  simp [clickCalls, List.filterMap_cons, hin, hc]

/-- C23, the failing input: the dynamic entity of the example of the doc comment of `click`
has the pointer strictly inside its box and a function `click` in its `info`, the
specification owes it one call with `"left"`, and the listener calls nothing. -/
theorem click_on_dynamic_entity_is_lost :
    clickScene._dynamic.map (fun object => (object.position, object.size, object.info.click))
      = [(⟨0, 0⟩, ⟨50, 50⟩, some 7)]
    ∧ clickCalls clickScene (sceneCoordinates ⟨800, 600⟩ centreClick) centreClick.button
        (clickScene._dynamic ++ clickScene._static ++ clickScene._ui)
      = [{ handler := 7, button := some "left" }]
    ∧ scene.mousedown clickScene ⟨800, 600⟩ centreClick [] = [] := by
  refine ⟨rfl, ?_, ?_⟩
  · norm_num [clickCalls, clickScene, scene.add.dynamic, scene.init, whiteFill, insideShaken,
      sceneCoordinates, centreClick, scene.mouseNames, List.filterMap_cons]
  · rw [scene.mousedown_eq]
    rfl

/-- C24: for two ui entities `A` and `B` with functions `click`, `A` before `B` in
`scene._ui`, and a pointer strictly inside both shifted boxes, one click calls the function
of `A` and later the function of `B`, each once and with the same button name; the other
calls are those owed to the ui entities before, between and after them, and the names for
the buttons `0`, `1`, `2` are `"left"`, `"middle"`, `"right"`. -/
theorem stacked_ui_entities_both_clicked (s : Scene) (_oldviewSize : Vector2)
    (e : MouseEvent) (before between after : List Entity) (A B : Entity)
    (clickA clickB : Callback)
    (hui : s._ui = before ++ A :: (between ++ B :: after))
    (hA : insideShaken s._shakeX s._shakeY (sceneCoordinates _oldviewSize e) A)
    (hB : insideShaken s._shakeX s._shakeY (sceneCoordinates _oldviewSize e) B)
    (hclickA : A.info.click = some clickA) (hclickB : B.info.click = some clickB) :
    scene.mousedown s _oldviewSize e []
      = clickCalls s (sceneCoordinates _oldviewSize e) e.button before
        ++ { handler := clickA, button := scene.mouseNames[e.button]? }
        :: (clickCalls s (sceneCoordinates _oldviewSize e) e.button between
        ++ { handler := clickB, button := scene.mouseNames[e.button]? }
        :: clickCalls s (sceneCoordinates _oldviewSize e) e.button after)
    ∧ scene.mouseNames[0]? = some "left" ∧ scene.mouseNames[1]? = some "middle"
    ∧ scene.mouseNames[2]? = some "right" := by
  refine ⟨?_, rfl, rfl, rfl⟩
  rw [scene.mousedown_eq, hui, List.nil_append, clickCalls_append,
    clickCalls_cons_hit s _ _ A _ clickA hA hclickA, clickCalls_append,
    clickCalls_cons_hit s _ _ B _ clickB hB hclickB]

/-- Witness of C24: a click in the middle of `stackedScene` calls the function `7` of the
larger entity, then the function `8` of the smaller one, both with `"left"`. -/
theorem stacked_ui_entities_both_clicked_witness :
    scene.mousedown stackedScene ⟨800, 600⟩ centreClick []
      = [{ handler := 7, button := some "left" }, { handler := 8, button := some "left" }] :=
  (stacked_ui_entities_both_clicked stackedScene ⟨800, 600⟩ centreClick [] [] []
    (button 0 100 7) (button 1 50 8) 7 8 rfl
    (by norm_num [insideShaken, sceneCoordinates, centreClick, button, stackedScene, scene.init])
    (by norm_num [insideShaken, sceneCoordinates, centreClick, button, stackedScene, scene.init])
    rfl rfl).1

/-! ## The shake offset -/

namespace scene

theorem shake_scaled_bound (r bound : ℚ) (h0 : 0 ≤ r) (h1 : r < 1) (hb : 0 ≤ bound) :
    |(r * 2 - 1) * bound| ≤ bound := by
  rw [abs_le]
  constructor <;> nlinarith

end scene

/-- C26, the claim as stated fails: after `scene.shake(-1, 10)` the shake is active, the
elapsed fraction one second later is `-1`, which does not exceed `1`, and with the draws
`0` and `0` the offset plus `cameraPosition` is `(-20, -20)`, beyond the intensity `10`. -/
theorem shake_offset_exceeds_intensity_counterexample :
    0 < backwardShake._shakeIntensity
    ∧ (1000 - backwardShake._shakeStart) / backwardShake._shakeDuration = -1
    ∧ ∃ t, scene._shake backwardShake 1000 0 0 = some t
      ∧ t._shakeX + t.cameraPosition.x = -20
      ∧ ¬ |t._shakeX + t.cameraPosition.x| ≤ backwardShake._shakeIntensity := by
  refine ⟨by norm_num [backwardShake, scene.shake], by norm_num [backwardShake, scene.shake,
    scene.init], ?_⟩
  refine ⟨{ backwardShake with _shakeX := -20, _shakeY := -20 }, ?_, ?_, ?_⟩
  · norm_num [scene._shake, backwardShake, scene.shake, scene.init]
  · norm_num [backwardShake, scene.shake, scene.init]
  · norm_num [backwardShake, scene.shake, scene.init, abs_le]

/-- C26 as amended: with draws in `[0,1)`, when no shake is active (intensity `≤ 0`) the
offset is `-cameraPosition` and the shake state is kept; when a shake is active and the
elapsed fraction exceeds `1` (for a duration `0`: the clock is past the start) the offset is
`-cameraPosition` and start, duration and intensity are `0`; otherwise, for a duration
other than `0`, each component of the offset plus `cameraPosition` is in absolute value at
most `intensity * (1 - fraction)`, and at most the intensity when the fraction is not
negative. -/
theorem shake_offset_bounded (s : Scene) (now randomX randomY : ℚ)
    (hx : 0 ≤ randomX ∧ randomX < 1) (hy : 0 ≤ randomY ∧ randomY < 1) :
    (s._shakeIntensity ≤ 0 →
      scene._shake s now randomX randomY
        = some { s with _shakeX := -s.cameraPosition.x, _shakeY := -s.cameraPosition.y })
    ∧ (0 < s._shakeIntensity →
      (s._shakeDuration ≠ 0 ∧ 1 < (now - s._shakeStart) / s._shakeDuration
        ∨ s._shakeDuration = 0 ∧ s._shakeStart < now) →
      scene._shake s now randomX randomY
        = some { s with
            _shakeStart := 0
            _shakeDuration := 0
            _shakeIntensity := 0
            _shakeX := -s.cameraPosition.x
            _shakeY := -s.cameraPosition.y })
    ∧ (0 < s._shakeIntensity → s._shakeDuration ≠ 0 →
      (now - s._shakeStart) / s._shakeDuration ≤ 1 →
      ∃ shakeX shakeY, scene._shake s now randomX randomY
          = some { s with _shakeX := shakeX, _shakeY := shakeY }
        ∧ |shakeX + s.cameraPosition.x|
          ≤ s._shakeIntensity * (1 - (now - s._shakeStart) / s._shakeDuration)
        ∧ |shakeY + s.cameraPosition.y|
          ≤ s._shakeIntensity * (1 - (now - s._shakeStart) / s._shakeDuration)
        ∧ (0 ≤ (now - s._shakeStart) / s._shakeDuration →
          |shakeX + s.cameraPosition.x| ≤ s._shakeIntensity
          ∧ |shakeY + s.cameraPosition.y| ≤ s._shakeIntensity)) := by
  refine ⟨?_, ?_, ?_⟩
  · intro hi
    have : ¬ s._shakeIntensity > 0 := not_lt.2 hi
    simp [scene._shake, this]
  · intro hi hcase
    rcases hcase with ⟨hd, hf⟩ | ⟨hd, hn⟩
    · simp [scene._shake, hi, hd, hf]
    · have : now - s._shakeStart > 0 := by linarith
      simp [scene._shake, hi, hd, this]
  · intro hi hd hf
    have hnf : ¬ (now - s._shakeStart) / s._shakeDuration > 1 := not_lt.2 hf
    have hk : 0 ≤ s._shakeIntensity * (1 - (now - s._shakeStart) / s._shakeDuration) :=
      mul_nonneg hi.le (by linarith)
    have bx := scene.shake_scaled_bound randomX _ hx.1 hx.2 hk
    have by1 := scene.shake_scaled_bound randomY _ hy.1 hy.2 hk
    refine ⟨(randomX * 2 - 1) * s._shakeIntensity
        * (1 - (now - s._shakeStart) / s._shakeDuration) - s.cameraPosition.x,
      (randomY * 2 - 1) * s._shakeIntensity
        * (1 - (now - s._shakeStart) / s._shakeDuration) - s.cameraPosition.y, ?_, ?_, ?_, ?_⟩
    · simp [scene._shake, hi, hd, hnf]
    · rw [sub_add_cancel, mul_assoc]; exact bx
    · rw [sub_add_cancel, mul_assoc]; exact by1
    · intro h0
      have hle : s._shakeIntensity * (1 - (now - s._shakeStart) / s._shakeDuration)
          ≤ s._shakeIntensity := by nlinarith
      constructor
      · rw [sub_add_cancel, mul_assoc]; exact bx.trans hle
      · rw [sub_add_cancel, mul_assoc]; exact by1.trans hle

/-- Witness of C26 as amended: halfway through `scene.shake(3, 100)` both components of the
offset are at most `100` in absolute value. -/
theorem shake_offset_bounded_witness :
    ((0 : ℚ) ≤ 1 / 4 ∧ (1 / 4 : ℚ) < 1) ∧ ((0 : ℚ) ≤ 3 / 4 ∧ (3 / 4 : ℚ) < 1)
    ∧ ∃ shakeX shakeY, scene._shake (scene.shake scene.init 0 3 100) 1500 (1 / 4) (3 / 4)
          = some { scene.shake scene.init 0 3 100 with _shakeX := shakeX, _shakeY := shakeY }
        ∧ |shakeX + 0| ≤ 100 ∧ |shakeY + 0| ≤ 100 :=
  ⟨by norm_num, by norm_num,
    have h := (shake_offset_bounded (scene.shake scene.init 0 3 100) 1500 (1 / 4) (3 / 4)
      (by norm_num) (by norm_num)).2.2
      (by norm_num [scene.shake]) (by norm_num [scene.shake])
      (by norm_num [scene.shake, scene.init])
    match h with
    | ⟨shakeX, shakeY, heq, _, _, hb⟩ =>
      ⟨shakeX, shakeY, heq, hb (by norm_num [scene.shake, scene.init])⟩⟩

/-! ## The level manager -/

/-- After `levelPassed(addToScore)` with `isFirstLevel` false or left out, on a game with no
other pending task, the deferred task clears the registry and adds `addToScore` (`1` when
left out) to the score. -/
theorem levelPassed_adds_when_not_first (g : Game) (addToScore : Option ℚ)
    (isFirstLevel : Option Bool) (r : ℚ) (hfirst : isFirstLevel.getD false = false)
    (hidle : g.world.timers = []) :
    ((levelPassed g addToScore isFirstLevel).runTimer r).score
      = g.score + addToScore.getD 1
    ∧ (levelPassed g addToScore isFirstLevel).score = g.score := by
  simp [levelPassed, hfirst, Game.runTimer, scene.removeAll, hidle, Timer.whenDone,
    scene.runTimer, scene.runTask, Closure.run]

/-- Function `levelFailed` leaves the score as it is, at the call and when its deferred
task runs. -/
theorem levelFailed_keeps_score (g : Game) (isFirstLevel : Option Bool) (r : ℚ)
    (hidle : g.world.timers = []) :
    (levelFailed g isFirstLevel).score = g.score
    ∧ ((levelFailed g isFirstLevel).runTimer r).score = g.score := by
  cases h : isFirstLevel.getD false
  · simp [levelFailed, h, Game.runTimer, scene.removeAll, hidle, Timer.whenDone,
      scene.runTimer, scene.runTask, Closure.run]
  · simp [levelFailed, h, Game.runTimer, hidle]

/-- C29, the failing input: `levelPassed(5, true)` calls `default_level()` and returns; it
defers nothing, so the score stays `0` however long the event loop runs, while the claim
has it at `5`. For every game and every `addToScore` the call with `isFirstLevel` true
leaves the score, the pending tasks and the arrow functions as they were. -/
theorem levelPassed_first_level_keeps_score :
    (levelPassed Game.init (some 5) (some true)).score = 0
    ∧ (levelPassed Game.init (some 5) (some true)).world.timers = []
    ∧ (∀ r, ((levelPassed Game.init (some 5) (some true)).runTimer r).score = 0)
    ∧ (levelPassed Game.init (some 5) (some true)).started = [LevelCall.default_level]
    ∧ ∀ (g : Game) (addToScore : Option ℚ),
        (levelPassed g addToScore (some true)).score = g.score
        ∧ (levelPassed g addToScore (some true)).world = g.world
        ∧ (levelPassed g addToScore (some true)).closures = g.closures := by
  refine ⟨rfl, rfl, fun r => rfl, rfl, fun g addToScore => ⟨rfl, rfl, rfl⟩⟩

/-! ## A hit factor of zero -/

namespace scene

theorem foldl_multiply_x (f : Entity → Vector2) (cs : List Entity) (v : Vector2) :
    (cs.foldl (fun w c => w.multiply (f c)) v).x = v.x * (cs.map fun c => (f c).x).prod := by
  induction cs generalizing v with
  | nil => simp
  | cons c cs ih =>
    rw [List.foldl_cons, ih, List.map_cons, List.prod_cons]
    simp [Vector2.multiply, mul_assoc]

theorem foldl_multiply_y (f : Entity → Vector2) (cs : List Entity) (v : Vector2) :
    (cs.foldl (fun w c => w.multiply (f c)) v).y = v.y * (cs.map fun c => (f c).y).prod := by
  induction cs generalizing v with
  | nil => simp
  | cons c cs ih =>
    rw [List.foldl_cons, ih, List.map_cons, List.prod_cons]
    simp [Vector2.multiply, mul_assoc]

/-- A `forEach` over the static partition that completes and has a hit did not divide by
`0`. -/
theorem foldl_collide_size (d : Entity) (cs : List Entity) (acc : Vector2 × List Event)
    (c : Entity) (hc : c ∈ cs) (hhit : hitTest d c = true)
    (h : (cs.foldl (collide d) (some acc)).isSome) : d.size.x ≠ 0 ∧ d.size.y ≠ 0 := by
  induction cs generalizing acc with
  | nil => cases hc
  | cons a cs ih =>
    rw [List.foldl_cons] at h
    obtain ⟨v, evs⟩ := acc
    by_cases hz : d.size.x = 0 ∨ d.size.y = 0
    · exfalso
      rcases List.mem_cons.1 hc with rfl | hmem
      · simp only [collide, hhit, hz, if_true] at h
        rw [foldl_collide_none] at h
        cases h
      · by_cases ha : hitTest d a = true
        · simp only [collide, ha, hz, if_true] at h
          rw [foldl_collide_none] at h
          cases h
        · simp only [collide, ha, if_false, Bool.false_eq_true] at h
          exact hz.elim (fun k => (ih _ hmem h).1 k) (fun k => (ih _ hmem h).2 k)
    · exact ⟨fun k => hz (Or.inl k), fun k => hz (Or.inr k)⟩

end scene

/-- C30: for a dynamic entity `d` that hits the static entity `c` (the sizes of `d` not
`0`, so that the quotients are numbers), whatever the `bounce` of `c`: on an axis where
`round((c.position - d.position) / d.size)` is `0`, which is where that quotient lies in
`[-1/2, 1/2)`, the velocity component of `d` is `0` directly after the hit, at the end of
the round of `d` for every static partition that holds `c`, and at the end of every physics
tick that completes. -/
theorem zero_hit_factor_stops_axis (d c : Entity) (hhit : midpointHit d c)
    (hx : d.size.x ≠ 0) (hy : d.size.y ≠ 0) :
    (Math.round ((c.position.x - d.position.x) / d.size.x) = 0
      ↔ -(1 / 2) ≤ (c.position.x - d.position.x) / d.size.x
        ∧ (c.position.x - d.position.x) / d.size.x < 1 / 2)
    ∧ (Math.round ((c.position.y - d.position.y) / d.size.y) = 0
      ↔ -(1 / 2) ≤ (c.position.y - d.position.y) / d.size.y
        ∧ (c.position.y - d.position.y) / d.size.y < 1 / 2)
    ∧ (∀ (velocity : Vector2) (events : List Event),
      ∃ after calls, scene.collide d (some (velocity, events)) c = some (after, calls)
        ∧ (Math.round ((c.position.x - d.position.x) / d.size.x) = 0 → after.x = 0)
        ∧ (Math.round ((c.position.y - d.position.y) / d.size.y) = 0 → after.y = 0))
    ∧ (∀ (statics : List Entity) (physicSpeed deltaTime : ℚ) (r : Entity × List Event),
      c ∈ statics → scene.tickEntity statics physicSpeed deltaTime d = some r →
      ∃ velocity, r.1.info.velocity = some velocity
        ∧ (Math.round ((c.position.x - d.position.x) / d.size.x) = 0 → velocity.x = 0)
        ∧ (Math.round ((c.position.y - d.position.y) / d.size.y) = 0 → velocity.y = 0))
    ∧ (∀ (s : Scene) (deltaTime : ℚ) (i : Nat),
      (scene._physics s deltaTime).status = scene.Status.running →
      s._dynamic[i]? = some d → c ∈ s._static →
      ∃ moved velocity, (scene._physics s deltaTime).scene._dynamic[i]? = some moved
        ∧ moved.info.velocity = some velocity
        ∧ (Math.round ((c.position.x - d.position.x) / d.size.x) = 0 → velocity.x = 0)
        ∧ (Math.round ((c.position.y - d.position.y) / d.size.y) = 0 → velocity.y = 0)) := by
  have hround : ∀ q : ℚ, Math.round q = 0 ↔ -(1 / 2) ≤ q ∧ q < 1 / 2 := by
    intro q
    have := Math.round_eq_iff q 0
    simp only [Int.cast_zero, zero_sub, zero_add] at this
    exact this
  have hht : scene.hitTest d c = true := (scene.hitTest_iff d c).mpr hhit
  have hround_of : ∀ (statics : List Entity) (physicSpeed deltaTime : ℚ)
      (r : Entity × List Event), c ∈ statics →
      scene.tickEntity statics physicSpeed deltaTime d = some r →
      ∃ velocity, r.1.info.velocity = some velocity
        ∧ (Math.round ((c.position.x - d.position.x) / d.size.x) = 0 → velocity.x = 0)
        ∧ (Math.round ((c.position.y - d.position.y) / d.size.y) = 0 → velocity.y = 0) := by
    intro statics physicSpeed deltaTime r hc hr
    obtain ⟨v, hv⟩ : ∃ v, d.info.velocity = some v := by
      cases hv : d.info.velocity with
      | none => simp [scene.tickEntity, hv] at hr
      | some v => exact ⟨v, rfl⟩
    have hmemf : c ∈ statics.filter (fun c => decide (midpointHit d c)) := by
      simp [List.mem_filter, hc, hhit]
    refine ⟨_, scene.tickEntity_velocity _ _ _ _ _ hv _ hr, ?_, ?_⟩
    · intro h0
      rw [scene.foldl_multiply_x]
      apply mul_eq_zero_of_right
      apply List.prod_eq_zero
      rw [List.mem_map]
      exact ⟨c, hmemf, by simp [scene.hitEffect, Vector2.multiply, h0]⟩
    · intro h0
      rw [scene.foldl_multiply_y]
      apply mul_eq_zero_of_right
      apply List.prod_eq_zero
      rw [List.mem_map]
      exact ⟨c, hmemf, by simp [scene.hitEffect, Vector2.multiply, h0]⟩
  refine ⟨hround _, hround _, ?_, hround_of, ?_⟩
  · intro velocity events
    refine ⟨velocity.multiply (scene.hitEffect d c), events ++ scene.hitEvents d c, ?_, ?_, ?_⟩
    · simp [scene.collide, hht, hx, hy]
    · intro h0
      simp [Vector2.multiply, scene.hitEffect, h0]
    · intro h0
      simp [Vector2.multiply, scene.hitEffect, h0]
  · intro s deltaTime i hrun hd hc
    have hall := (scene.physics_running_iff s deltaTime).mp hrun
    obtain ⟨r, hr⟩ := Option.isSome_iff_exists.mp (hall d (List.getElem?_mem hd))
    obtain ⟨velocity, h1, h2, h3⟩ := hround_of s._static s.physicSpeed deltaTime r hc hr
    refine ⟨r.1, velocity, ?_, h1, h2, h3⟩
    rw [scene.physics_of_running s deltaTime hrun]
    simp only [List.getElem?_map, hd, Option.map_some', hr, Option.getD_some]

/-- Witness of C30: in `slideScene` the centres of the box and of the floor have the same
`x`, the factor on that axis is `0` and the horizontal velocity `5` is `0` after the tick. -/
theorem zero_hit_factor_stops_axis_witness :
    Math.round (((floorEntity (some 1) none).position.x
        - (fallingBox (-90) ⟨5, 0⟩ none).position.x) / (fallingBox (-90) ⟨5, 0⟩ none).size.x) = 0
    ∧ ∃ moved velocity, (scene._physics slideScene 1).scene._dynamic[0]? = some moved
        ∧ moved.info.velocity = some velocity ∧ velocity.x = 0 := by
  have hround : Math.round (((floorEntity (some 1) none).position.x
      - (fallingBox (-90) ⟨5, 0⟩ none).position.x)
        / (fallingBox (-90) ⟨5, 0⟩ none).size.x) = 0 := by
    norm_num [Math.round, floorEntity, fallingBox]
  have hrun : (scene._physics slideScene 1).status = scene.Status.running := by
    norm_num [scene._physics, scene.forUp, scene.physicsBody, slideScene, scene.init,
      fallingBox, floorEntity, whiteFill, scene.collide, scene.hitTest]
  have hhit : midpointHit (fallingBox (-90) ⟨5, 0⟩ none) (floorEntity (some 1) none) := by
    norm_num [midpointHit, edgeMidpoints, strictlyInside, fallingBox, floorEntity]
  obtain ⟨moved, velocity, h1, h2, h3, _⟩ :=
    (zero_hit_factor_stops_axis (fallingBox (-90) ⟨5, 0⟩ none) (floorEntity (some 1) none)
      hhit (by norm_num [fallingBox]) (by norm_num [fallingBox])).2.2.2.2
      slideScene 1 0 hrun rfl (by simp [slideScene])
  exact ⟨hround, moved, velocity, h1, h2, h3 hround⟩

/-! ## Corner overlaps and the sweep as a filter -/

/-- C31: the boxes of `cornerBox` and `cornerWall` overlap in a region of positive area and
no edge midpoint of `cornerBox` is strictly inside the box of `cornerWall`; the physics
step finds no hit: the velocity after the step is the velocity after gravity, not
multiplied (the `bounce` of the wall is `0.5`), and although both entities have a `whenHit`
function nothing is called. -/
theorem corner_overlap_is_no_hit :
    boxesOverlap cornerBox cornerWall
    ∧ ¬ midpointHit cornerBox cornerWall
    ∧ scene.hitTest cornerBox cornerWall = false
    ∧ cornerBox.info.whenHit = some 7 ∧ cornerWall.info.whenHit = some 8
    ∧ (scene._physics cornerScene 1).status = scene.Status.running
    ∧ (scene._physics cornerScene 1).log = []
    ∧ (scene._physics cornerScene 1).scene._dynamic.map (fun d => d.info.velocity)
      = [some (scene.wantedVelocity cornerScene.physicSpeed cornerBox ⟨3, 0⟩)]
    ∧ scene.wantedVelocity cornerScene.physicSpeed cornerBox ⟨3, 0⟩ = ⟨3, -9.8⟩
    ∧ (scene._physics cornerScene 1).scene._dynamic.map (fun d => d.position)
      = [⟨3, -9.8⟩] := by
  have hno : ¬ midpointHit cornerBox cornerWall := by
    norm_num [midpointHit, edgeMidpoints, strictlyInside, cornerBox, cornerWall]
  have hht : scene.hitTest cornerBox cornerWall = false := by
    rw [scene.hitTest_eq_decide]
    exact decide_eq_false hno
  have hphys : scene._physics cornerScene 1 =
      { scene := { cornerScene with
          _dynamic := [scene.integrate cornerScene.physicSpeed 1 cornerBox
            (scene.wantedVelocity cornerScene.physicSpeed cornerBox ⟨3, 0⟩)] }
        log := []
        status := scene.Status.running } := by
    have htick : scene.tickEntity cornerScene._static cornerScene.physicSpeed 1 cornerBox
        = some (scene.integrate cornerScene.physicSpeed 1 cornerBox
            (scene.wantedVelocity cornerScene.physicSpeed cornerBox ⟨3, 0⟩), []) :=
      scene.tickEntity_no_hit _ _ _ cornerBox ⟨3, 0⟩ rfl (by
        intro c hc
        have : c = cornerWall := by simpa [cornerScene] using hc
        rw [this]
        exact hht)
    have hd : cornerScene._dynamic = [cornerBox] := rfl
    have hrun : (scene._physics cornerScene 1).status = scene.Status.running := by
      rw [scene.physics_running_iff, hd]
      intro d hmem
      have : d = cornerBox := by simpa using hmem
      rw [this, htick]
      rfl
    rw [scene.physics_of_running cornerScene 1 hrun, hd]
    simp only [List.map_cons, List.map_nil, List.flatMap_cons, List.flatMap_nil, htick,
      Option.map_some', Option.getD_some, List.append_nil]
  refine ⟨?_, hno, hht, rfl, rfl, ?_, ?_, ?_, ?_, ?_⟩
  · norm_num [boxesOverlap, cornerBox, cornerWall]
  · rw [hphys]
  · rw [hphys]
  · rw [hphys]; rfl
  · norm_num [scene.wantedVelocity, cornerScene, scene.init, scene.orOne, cornerBox, whiteFill,
      scene._gravityValue]
  · rw [hphys]
    norm_num [scene.integrate, scene.wantedVelocity, cornerScene, scene.init, scene.orOne,
      cornerBox, whiteFill, scene._gravityValue, Vector2.add]

/-- C33: the reverse loop with `splice` of `_removeDynamicsOutsideScreen` gives the scene of
the specification: the dynamic partition is the sub-sequence, in the original order, of the
entities that are not (marked `autoRemove` and entirely outside the viewport), for every
partition, also when adjacent entities are removed (in `burstScene` two pairs of
neighbours go), and the static and ui partitions are as before. -/
theorem sweep_loop_is_filter (s : Scene) (W H : ℚ) :
    scene._removeDynamicsOutsideScreen s W H = sweepSpec s W H
    ∧ (sweepSpec s W H)._dynamic.Sublist s._dynamic
    ∧ (sweepSpec s W H)._static = s._static
    ∧ (sweepSpec s W H)._ui = s._ui
    ∧ (∀ (shakeX shakeY : ℚ) (xs : List Entity),
      scene.forDown (scene.sweepAt shakeX shakeY W H) xs.length xs
        = xs.filter fun e =>
            decide (¬ (e.info.autoRemove = true ∧ whollyOutside shakeX shakeY W H e)))
    ∧ (scene._removeDynamicsOutsideScreen burstScene 800 600)._dynamic
      = [particle 2 0 true, particle 5 900 false] := by
  have hloop : ∀ (shakeX shakeY W H : ℚ) (xs : List Entity),
      scene.forDown (scene.sweepAt shakeX shakeY W H) xs.length xs
        = xs.filter fun e =>
            decide (¬ (e.info.autoRemove = true ∧ whollyOutside shakeX shakeY W H e)) := by
    intro shakeX shakeY W H xs
    rw [scene.forDown_sweepAt]
    apply List.filter_congr
    intro e _
    rw [scene.outsideScreen_eq_decide]
    by_cases h1 : e.info.autoRemove = true <;>
      by_cases h2 : whollyOutside shakeX shakeY W H e <;> simp [h1, h2]
  have hscene : ∀ (s : Scene) (W H : ℚ),
      scene._removeDynamicsOutsideScreen s W H = sweepSpec s W H := by
    intro s W H
    simp only [scene._removeDynamicsOutsideScreen, sweepSpec, hloop]
  refine ⟨hscene s W H, List.filter_sublist _, rfl, rfl,
    fun shakeX shakeY xs => hloop shakeX shakeY W H xs, ?_⟩
  rw [hscene]
  norm_num [sweepSpec, burstScene, scene.init, particle, whollyOutside, List.filter_cons,
    whiteFill]

/-! ## Free fall -/

namespace scene

/-- The round of an entity in a registry without static entities. -/
theorem tickEntity_nil (physicSpeed deltaTime : ℚ) (d : Entity) (v : Vector2)
    (hv : d.info.velocity = some v) :
    tickEntity [] physicSpeed deltaTime d
      = some (integrate physicSpeed deltaTime d (wantedVelocity physicSpeed d v), []) :=
  tickEntity_no_hit [] physicSpeed deltaTime d v hv (fun c hc => by cases hc)

/-- A physics step in a registry without static entities, every dynamic entity having a
velocity: the step completes, calls nothing, and every dynamic entity gets the velocity
after gravity and moves by it. -/
theorem physics_no_static (s : Scene) (deltaTime : ℚ) (hst : s._static = [])
    (hv : ∀ e ∈ s._dynamic, e.info.velocity ≠ none) :
    (_physics s deltaTime).status = Status.running
    ∧ (_physics s deltaTime).scene =
      { s with
        _dynamic := s._dynamic.map fun d =>
          integrate s.physicSpeed deltaTime d
            (wantedVelocity s.physicSpeed d (d.info.velocity.getD ⟨0, 0⟩)) } := by
  have htick : ∀ d ∈ s._dynamic, tickEntity s._static s.physicSpeed deltaTime d
      = some (integrate s.physicSpeed deltaTime d
          (wantedVelocity s.physicSpeed d (d.info.velocity.getD ⟨0, 0⟩)), []) := by
    intro d hd
    obtain ⟨v, hdv⟩ := Option.ne_none_iff_exists'.mp (hv d hd)
    rw [hst, tickEntity_nil _ _ d v hdv, hdv]
    rfl
  have hrun : (_physics s deltaTime).status = Status.running := by
    rw [physics_running_iff]
    intro d hd
    rw [htick d hd]
    rfl
  refine ⟨hrun, ?_⟩
  rw [physics_of_running s deltaTime hrun]
  have hmap : s._dynamic.map (fun d =>
        ((tickEntity s._static s.physicSpeed deltaTime d).map Prod.fst).getD d)
      = s._dynamic.map fun d => integrate s.physicSpeed deltaTime d
          (wantedVelocity s.physicSpeed d (d.info.velocity.getD ⟨0, 0⟩)) := by
    apply List.map_congr_left
    intro d hd
    rw [htick d hd]
    rfl
  simp only [hmap]

end scene

/-- C35: in a registry without static entities in which every dynamic entity has a
velocity, for a dynamic entity with the gravity scale `g` (`1` when `multiplyGravity` is
unset, `g` not `0`), the position `p` and the velocity `v`, after `n` physics ticks of the
same `deltaTime` the velocity is `(v.x, v.y - n*G*g*s)` and the position is
`(p.x + n*v.x*dt*s, p.y + dt*s*(n*v.y - G*g*s*n*(n+1)/2))`, with `G = 9.8` and
`s = scene.physicSpeed`; the velocity does not depend on `deltaTime`. -/
theorem free_fall_closed_form (n : Nat) (s : Scene) (deltaTime : ℚ) (i : Nat) (d : Entity)
    (v : Vector2) (hst : s._static = [])
    (hall : ∀ e ∈ s._dynamic, e.info.velocity ≠ none)
    (hd : s._dynamic[i]? = some d) (hv : d.info.velocity = some v)
    (hg : d.info.multiplyGravity ≠ some 0) :
    (scene.ticks s (List.replicate n deltaTime))._dynamic[i]? =
      some { d with
        position := (freeFall (d.info.multiplyGravity.getD 1) s.physicSpeed deltaTime
          d.position v n).2
        info := { d.info with
          velocity := some (freeFall (d.info.multiplyGravity.getD 1) s.physicSpeed deltaTime
            d.position v n).1 } }
    ∧ (freeFall (d.info.multiplyGravity.getD 1) s.physicSpeed deltaTime d.position v n).1
      = ⟨v.x, v.y - n * 9.8 * (d.info.multiplyGravity.getD 1) * s.physicSpeed⟩
    ∧ (freeFall (d.info.multiplyGravity.getD 1) s.physicSpeed deltaTime d.position v n).2
      = ⟨d.position.x + n * v.x * deltaTime * s.physicSpeed,
         d.position.y + deltaTime * s.physicSpeed
          * (n * v.y - 9.8 * (d.info.multiplyGravity.getD 1) * s.physicSpeed * n * (n + 1) / 2)⟩
    ∧ ∀ otherDeltaTime : ℚ,
      ((scene.ticks s (List.replicate n otherDeltaTime))._dynamic[i]?).map
          (fun e => e.info.velocity)
        = ((scene.ticks s (List.replicate n deltaTime))._dynamic[i]?).map
          (fun e => e.info.velocity) := by
  have hor : ∀ e : Entity, e.info.multiplyGravity ≠ some 0 →
      scene.orOne e.info.multiplyGravity = e.info.multiplyGravity.getD 1 := by
    intro e he
    cases hm : e.info.multiplyGravity with
    | none => rfl
    | some g =>
      have : g ≠ 0 := fun h0 => he (by rw [hm, h0])
      simp [scene.orOne, this]
  have main : ∀ (n : Nat) (deltaTime : ℚ) (s : Scene) (d : Entity) (v : Vector2),
      s._static = [] → (∀ e ∈ s._dynamic, e.info.velocity ≠ none) →
      s._dynamic[i]? = some d → d.info.velocity = some v →
      d.info.multiplyGravity ≠ some 0 →
      (scene.ticks s (List.replicate n deltaTime))._dynamic[i]? =
        some { d with
          position := (freeFall (d.info.multiplyGravity.getD 1) s.physicSpeed deltaTime
            d.position v n).2
          info := { d.info with
            velocity := some (freeFall (d.info.multiplyGravity.getD 1) s.physicSpeed
              deltaTime d.position v n).1 } } := by
    intro n deltaTime
    induction n with
    | zero =>
      intro s d v _ _ hd hv _
      simp only [List.replicate_zero, scene.ticks, List.foldl_nil, hd]
      have hp : (freeFall (d.info.multiplyGravity.getD 1) s.physicSpeed deltaTime
          d.position v 0).2 = d.position := by
        simp [freeFall]
      have hvel : (freeFall (d.info.multiplyGravity.getD 1) s.physicSpeed deltaTime
          d.position v 0).1 = v := by
        simp [freeFall]
      rw [hp, hvel, ← hv]
    | succ n ih =>
      intro s d v hst hall hd hv hg
      obtain ⟨_, hscene⟩ := scene.physics_no_static s deltaTime hst hall
      have hstep : scene.ticks s (List.replicate (n + 1) deltaTime)
          = scene.ticks (scene._physics s deltaTime).scene (List.replicate n deltaTime) := by
        simp [scene.ticks, List.replicate_succ]
      rw [hstep, hscene]
      have key := ih
        { s with
          _dynamic := s._dynamic.map fun d =>
            scene.integrate s.physicSpeed deltaTime d
              (scene.wantedVelocity s.physicSpeed d (d.info.velocity.getD ⟨0, 0⟩)) }
        (scene.integrate s.physicSpeed deltaTime d (scene.wantedVelocity s.physicSpeed d v))
        (scene.wantedVelocity s.physicSpeed d v) hst
        (by
          intro e he
          simp only [List.mem_map] at he
          obtain ⟨e0, _, rfl⟩ := he
          simp [scene.integrate])
        (by simp [List.getElem?_map, hd, hv])
        (by simp [scene.integrate])
        (by simpa [scene.integrate] using hg)
      rw [key]
      simp only [scene.integrate, scene.wantedVelocity, hor d hg, freeFall, Vector2.add,
        scene._gravityValue]
      congr 1
      cases d with
      | mk position size guid info =>
        simp only [Entity.mk.injEq, Vector2.mk.injEq, Info.mk.injEq, Option.some.injEq,
          true_and, and_true]
        push_cast
        refine ⟨⟨by ring, by ring⟩, by ring⟩
  refine ⟨main n deltaTime s d v hst hall hd hv hg, rfl, rfl, ?_⟩
  intro otherDeltaTime
  rw [main n deltaTime s d v hst hall hd hv hg, main n otherDeltaTime s d v hst hall hd hv hg]
  rfl

/-- Witness of C35: in `dropScene` (gravity scale `2`, speed `1/2`) two ticks of `1/2` take
`dropBox` from `(1, 2)` with velocity `(3, 4)` to `(5/2, -67/20)` with velocity
`(3, -78/5)`. -/
theorem free_fall_closed_form_witness :
    (scene.ticks dropScene (List.replicate 2 (1 / 2)))._dynamic[0]? =
      some { dropBox with
        position := (freeFall 2 (1 / 2) (1 / 2) ⟨1, 2⟩ ⟨3, 4⟩ 2).2
        info := { dropBox.info with
          velocity := some (freeFall 2 (1 / 2) (1 / 2) ⟨1, 2⟩ ⟨3, 4⟩ 2).1 } }
    ∧ freeFall 2 (1 / 2) (1 / 2) ⟨1, 2⟩ ⟨3, 4⟩ 2 = (⟨3, -78 / 5⟩, ⟨5 / 2, -67 / 20⟩) :=
  ⟨(free_fall_closed_form 2 dropScene (1 / 2) 0 dropBox ⟨3, 4⟩ rfl
      (by simp [dropScene, dropBox]) rfl rfl (by simp [dropBox])).1,
    by norm_num [freeFall]⟩

/-! ## The sweep between `update` and the drawing -/

namespace scene

/-- The sweep of the source gives the scene of the specification. -/
theorem sweep_eq_sweepSpec (s : Scene) (W H : ℚ) :
    _removeDynamicsOutsideScreen s W H = sweepSpec s W H := by
  simp only [_removeDynamicsOutsideScreen, sweepSpec, forDown_sweepAt]
  congr 1
  apply List.filter_congr
  intro e _
  rw [outsideScreen_eq_decide]
  by_cases h1 : e.info.autoRemove = true <;>
    by_cases h2 : whollyOutside s._shakeX s._shakeY W H e <;> simp [h1, h2]

/-- A call of `_update` returns exactly when `_physics` completes and `_shake` gives finite
offsets. -/
theorem update_running_iff (host : Host) (e : Engine) :
    (_update host e).status = Status.running
      ↔ (_physics e.scene ((host.newTime - e._lastDraw) / 1000)).status = Status.running
        ∧ ∃ shaken, _shake (_physics e.scene ((host.newTime - e._lastDraw) / 1000)).scene
            host.shakeTime host.randomX host.randomY = some shaken := by
  unfold _update
  dsimp only
  cases hp : (_physics e.scene ((host.newTime - e._lastDraw) / 1000)).status with
  | running =>
    cases hs : _shake (_physics e.scene ((host.newTime - e._lastDraw) / 1000)).scene
        host.shakeTime host.randomX host.randomY with
    | none => simp
    | some shaken => simp
  | threw => simp
  | notFinite => simp

/-- A call of `_update` that does not return draws nothing. -/
theorem update_not_running (host : Host) (e : Engine)
    (h : (_update host e).status ≠ Status.running) : (_update host e).drawn = [] := by
  unfold _update at h ⊢
  dsimp only at h ⊢
  cases hp : (_physics e.scene ((host.newTime - e._lastDraw) / 1000)).status with
  | running =>
    cases hs : _shake (_physics e.scene ((host.newTime - e._lastDraw) / 1000)).scene
        host.shakeTime host.randomX host.randomY with
    | none => rfl
    | some shaken => simp [hp, hs] at h
  | threw => rfl
  | notFinite => rfl

end scene

/-- C34: in every call of `_update` that returns, whatever `update` did to the scene (also
when it raised an error), the scene that is drawn is the scene as `update` left it after the
sweep; the drawing visits, between the static and the front ui entities, exactly the dynamic
entities of that scene, and none of them is marked `autoRemove` with its box, shifted by the
shake offset, entirely outside the window; the offset is the one `_shake` computed in this
frame when `update` did not write it. A call that does not return draws nothing. -/
theorem drawn_dynamics_are_swept (host : Host) (e : Engine) :
    ((scene._update host e).status ≠ scene.Status.running → (scene._update host e).drawn = [])
    ∧ ((scene._update host e).status = scene.Status.running →
      (scene._update host e).drawn
        = ((scene._update host e).engine.scene._ui.filter
            (fun el => el.info.background = true)).map DrawCall.object
          ++ (scene._update host e).engine.scene._static.map DrawCall.object
          ++ (scene._update host e).engine.scene._dynamic.map DrawCall.object
          ++ ((scene._update host e).engine.scene._ui.filter
            (fun el => el.info.background = false)).map DrawCall.object
          ++ [DrawCall.afterDraw]
      ∧ (∀ d ∈ (scene._update host e).engine.scene._dynamic,
          ¬ (d.info.autoRemove = true
            ∧ whollyOutside (scene._update host e).engine.scene._shakeX
                (scene._update host e).engine.scene._shakeY
                host.innerWidth host.innerHeight d))
      ∧ ∃ shaken,
          scene._shake (scene._physics e.scene ((host.newTime - e._lastDraw) / 1000)).scene
            host.shakeTime host.randomX host.randomY = some shaken
          ∧ (scene._update host e).engine.scene
            = sweepSpec (host.update ((host.newTime - e._lastDraw) / 1000) shaken).1
                host.innerWidth host.innerHeight
          ∧ ((host.update ((host.newTime - e._lastDraw) / 1000) shaken).1._shakeX
                = shaken._shakeX →
              (host.update ((host.newTime - e._lastDraw) / 1000) shaken).1._shakeY
                = shaken._shakeY →
              (scene._update host e).engine.scene._shakeX = shaken._shakeX
              ∧ (scene._update host e).engine.scene._shakeY = shaken._shakeY)) := by
  refine ⟨scene.update_not_running host e, ?_⟩
  intro hrun
  obtain ⟨hp, shaken, hs⟩ := (scene.update_running_iff host e).mp hrun
  rw [scene.update_of_running host e shaken hp hs]
  dsimp only
  rw [scene.sweep_eq_sweepSpec]
  refine ⟨?_, ?_, shaken, hs, rfl, ?_⟩
  · rw [scene.draw_eq]
    simp [drawOrder]
  · intro d hd
    simp only [sweepSpec, List.mem_filter, decide_eq_true_eq] at hd
    exact hd.2
  · intro hx hy
    exact ⟨hx, hy⟩

/-- Witness of C34: in the frame of `spawningHost` the entity that `update` adds at
`(1000, 0)` is swept before the drawing; the entity added at `(0, 0)` is the only one
drawn. -/
theorem drawn_dynamics_are_swept_witness :
    (scene._update spawningHost (Engine.init 0)).status = scene.Status.running
    ∧ (∀ d ∈ (scene._update spawningHost (Engine.init 0)).engine.scene._dynamic,
        ¬ (d.info.autoRemove = true
          ∧ whollyOutside (scene._update spawningHost (Engine.init 0)).engine.scene._shakeX
              (scene._update spawningHost (Engine.init 0)).engine.scene._shakeY 800 600 d))
    ∧ (scene._update spawningHost (Engine.init 0)).engine.scene._dynamic.map
        (fun d => (d.guid, d.position)) = [(1, ⟨0, 0⟩)] := by
  have hp : (scene._physics (Engine.init 0).scene
      ((spawningHost.newTime - (Engine.init 0)._lastDraw) / 1000)).status
        = scene.Status.running := by
    rw [show (Engine.init 0).scene = scene.init from rfl, scene.physics_init]
  have hs : scene._shake (scene._physics (Engine.init 0).scene
      ((spawningHost.newTime - (Engine.init 0)._lastDraw) / 1000)).scene
      spawningHost.shakeTime spawningHost.randomX spawningHost.randomY = some scene.init := by
    rw [show (Engine.init 0).scene = scene.init from rfl, scene.physics_init]
    exact scene.shake_init _ _ _
  have hrun : (scene._update spawningHost (Engine.init 0)).status = scene.Status.running :=
    (scene.update_running_iff _ _).mpr ⟨hp, _, hs⟩
  refine ⟨hrun, ((drawn_dynamics_are_swept spawningHost (Engine.init 0)).2 hrun).2.1, ?_⟩
  rw [scene.update_of_running spawningHost (Engine.init 0) scene.init hp hs]
  dsimp only
  rw [scene.sweep_eq_sweepSpec]
  norm_num [sweepSpec, spawningHost, scene.add.dynamic, scene.init, whiteFill, whollyOutside,
    List.filter_cons]

/-! ## The frame of the physics step -/

namespace scene

/-- A property that every round of an ascending loop carries from one index to the next
holds after the loop. -/
theorem forUp_induction {σ : Type} (body : Nat → σ → σ) (Q : Nat → σ → Prop)
    (hstep : ∀ k st, Q k st → Q (k + 1) (body k st)) (n i : Nat) (st : σ) (h : Q i st) :
    Q (i + n) (forUp body n i st) := by
  induction n generalizing i st with
  | zero => exact h
  | succ n ih =>
    rw [forUp]
    have := ih (i + 1) (body i st) (hstep i st h)
    rw [Nat.add_assoc, Nat.add_comm 1 n] at this
    exact this

end scene

namespace Store

/-- What one round of the loop of `_physics` does to the store: nothing, or it writes the
new velocity into the info object of entity `i` and adds the integration term to its
position object. -/
theorem physicsBody_store (physicSpeed deltaTime : ℚ) (i : Nat) (st : PhysicsState) :
    (physicsBody physicSpeed deltaTime i st).store = st.store
    ∨ ∃ e v, st.store._dynamic[i]? = some e
      ∧ (physicsBody physicSpeed deltaTime i st).store =
        { st.store with
          infos := Function.update st.store.infos e.info
            { st.store.infos e.info with velocity := some v }
          vectors := Function.update st.store.vectors e.position
            ((st.store.vectors e.position).add
              ⟨(v.x * deltaTime) * physicSpeed, (v.y * deltaTime) * physicSpeed⟩) } := by
  unfold physicsBody
  split
  · split
    · exact Or.inl rfl
    · rename_i e he
      split
      · exact Or.inl rfl
      · dsimp only
        split
        · exact Or.inl rfl
        · rename_i v events _
          exact Or.inr ⟨e, v, he, rfl⟩
  · exact Or.inl rfl

/-- The loop of `_physics` keeps the three arrays and the handle counter, writes only into
position objects and info objects of dynamic entities, and in an info object only the
property `velocity`. -/
theorem forUp_physicsBody_writes (m : Store) (physicSpeed deltaTime : ℚ) (n i : Nat)
    (st : PhysicsState)
    (h : (st.store._dynamic = m._dynamic ∧ st.store._static = m._static
        ∧ st.store._ui = m._ui ∧ st.store._guid = m._guid)
      ∧ (∀ a, (∀ e ∈ m._dynamic, e.position ≠ a) → st.store.vectors a = m.vectors a)
      ∧ (∀ a, (∀ e ∈ m._dynamic, e.info ≠ a) → st.store.infos a = m.infos a)
      ∧ (∀ a, { st.store.infos a with velocity := none } = { m.infos a with velocity := none })) :
    ((scene.forUp (physicsBody physicSpeed deltaTime) n i st).store._dynamic = m._dynamic
      ∧ (scene.forUp (physicsBody physicSpeed deltaTime) n i st).store._static = m._static
      ∧ (scene.forUp (physicsBody physicSpeed deltaTime) n i st).store._ui = m._ui
      ∧ (scene.forUp (physicsBody physicSpeed deltaTime) n i st).store._guid = m._guid)
    ∧ (∀ a, (∀ e ∈ m._dynamic, e.position ≠ a) →
        (scene.forUp (physicsBody physicSpeed deltaTime) n i st).store.vectors a = m.vectors a)
    ∧ (∀ a, (∀ e ∈ m._dynamic, e.info ≠ a) →
        (scene.forUp (physicsBody physicSpeed deltaTime) n i st).store.infos a = m.infos a)
    ∧ (∀ a, { (scene.forUp (physicsBody physicSpeed deltaTime) n i st).store.infos a with
          velocity := none } = { m.infos a with velocity := none }) := by
  refine scene.forUp_induction (physicsBody physicSpeed deltaTime)
    (fun _ st => (st.store._dynamic = m._dynamic ∧ st.store._static = m._static
        ∧ st.store._ui = m._ui ∧ st.store._guid = m._guid)
      ∧ (∀ a, (∀ e ∈ m._dynamic, e.position ≠ a) → st.store.vectors a = m.vectors a)
      ∧ (∀ a, (∀ e ∈ m._dynamic, e.info ≠ a) → st.store.infos a = m.infos a)
      ∧ (∀ a, { st.store.infos a with velocity := none } = { m.infos a with velocity := none }))
    ?_ n i st h
  intro k st ⟨⟨h1, h2, h3, h4⟩, hvec, hinf, hfield⟩
  rcases physicsBody_store physicSpeed deltaTime k st with hsame | ⟨e, v, he, hupd⟩
  · rw [hsame]
    exact ⟨⟨h1, h2, h3, h4⟩, hvec, hinf, hfield⟩
  · rw [hupd]
    have hmem : e ∈ m._dynamic := by
      rw [← h1]
      exact List.getElem?_mem he
    refine ⟨⟨h1, h2, h3, h4⟩, ?_, ?_, ?_⟩
    · intro a ha
      show Function.update st.store.vectors e.position _ a = m.vectors a
      rw [Function.update_noteq (fun hEq => ha e hmem hEq.symm)]
      exact hvec a ha
    · intro a ha
      show Function.update st.store.infos e.info _ a = m.infos a
      rw [Function.update_noteq (fun hEq => ha e hmem hEq.symm)]
      exact hinf a ha
    · intro a
      show { Function.update st.store.infos e.info _ a with velocity := none } = _
      by_cases hEq : a = e.info
      · subst hEq
        rw [Function.update_same]
        exact hfield e.info
      · rw [Function.update_noteq hEq]
        exact hfield a

/-- The loop of `_physics` and the position object of the dynamic entity `t`, when no other
dynamic entity holds that object: the object is as before, or the integration term of one
velocity `v` was added to it, and `v` is the velocity in the info object of the entity when
no other dynamic entity holds that info object. -/
theorem forUp_physicsBody_position (m : Store) (physicSpeed deltaTime : ℚ) (t : Nat)
    (e : Slot) (he : m._dynamic[t]? = some e)
    (hpos : ∀ j d, m._dynamic[j]? = some d → j ≠ t → d.position ≠ e.position)
    (n : Nat) :
    (scene.forUp (physicsBody physicSpeed deltaTime) n 0
        { store := m, log := [], status := .running }).store.vectors e.position
      = m.vectors e.position
    ∨ ∃ v, (scene.forUp (physicsBody physicSpeed deltaTime) n 0
          { store := m, log := [], status := .running }).store.vectors e.position
        = (m.vectors e.position).add
          ⟨(v.x * deltaTime) * physicSpeed, (v.y * deltaTime) * physicSpeed⟩
      ∧ ((∀ j d, m._dynamic[j]? = some d → j ≠ t → d.info ≠ e.info) →
        ((scene.forUp (physicsBody physicSpeed deltaTime) n 0
          { store := m, log := [], status := .running }).store.infos e.info).velocity
          = some v) := by
  have key := scene.forUp_induction (physicsBody physicSpeed deltaTime)
    (fun k st => st.store._dynamic = m._dynamic
      ∧ (k ≤ t → st.store.vectors e.position = m.vectors e.position)
      ∧ (t < k → st.store.vectors e.position = m.vectors e.position
        ∨ ∃ v, st.store.vectors e.position
            = (m.vectors e.position).add
              ⟨(v.x * deltaTime) * physicSpeed, (v.y * deltaTime) * physicSpeed⟩
          ∧ ((∀ j d, m._dynamic[j]? = some d → j ≠ t → d.info ≠ e.info) →
            (st.store.infos e.info).velocity = some v)))
    ?_ n 0 { store := m, log := [], status := .running }
    ⟨rfl, fun _ => rfl, fun h => absurd h (Nat.not_lt_zero t)⟩
  · obtain ⟨_, hle, hlt⟩ := key
    by_cases htn : t < 0 + n
    · exact hlt htn
    · exact Or.inl (hle (Nat.le_of_not_lt htn))
  · intro k st ⟨hdyn, hle, hlt⟩
    rcases physicsBody_store physicSpeed deltaTime k st with hsame | ⟨d, v, hd, hupd⟩
    · rw [hsame]
      refine ⟨hdyn, fun h => hle (by omega), fun h => ?_⟩
      by_cases hk : t < k
      · exact hlt hk
      · exact Or.inl (hle (by omega))
    · rw [hupd]
      rw [hdyn] at hd
      refine ⟨hdyn, ?_, ?_⟩
      · intro h
        have hkt : k ≠ t := by omega
        show Function.update st.store.vectors d.position _ e.position = m.vectors e.position
        rw [Function.update_noteq (fun hEq => hpos k d hd hkt hEq.symm)]
        exact hle (by omega)
      · intro h
        by_cases hk : t < k
        · have hkt : k ≠ t := by omega
          rcases hlt hk with hun | ⟨w, hw, hwi⟩
          · left
            show Function.update st.store.vectors d.position _ e.position = m.vectors e.position
            rw [Function.update_noteq (fun hEq => hpos k d hd hkt hEq.symm)]
            exact hun
          · right
            refine ⟨w, ?_, ?_⟩
            · show Function.update st.store.vectors d.position _ e.position = _
              rw [Function.update_noteq (fun hEq => hpos k d hd hkt hEq.symm)]
              exact hw
            · intro hinfo
              show (Function.update st.store.infos d.info _ e.info).velocity = some w
              rw [Function.update_noteq (fun hEq => hinfo k d hd hkt hEq.symm)]
              exact hwi hinfo
        · have hkt : k = t := by omega
          subst hkt
          have hde : d = e := Option.some.inj (hd.symm.trans he)
          subst hde
          right
          refine ⟨v, ?_, ?_⟩
          · show Function.update st.store.vectors d.position _ d.position = _
            rw [Function.update_same, hle (Nat.le_refl _)]
          · intro _
            show (Function.update st.store.infos d.info _ d.info).velocity = some v
            rw [Function.update_same]

end Store

/-- C32, the claim as stated fails when a static entity holds the position object of a
dynamic entity: in `sharedPositionStore` the physics step completes, finds no hit, and the
position of the static entity (handle `1`) goes from `(0, 0)` to `(0, -9.8)`. -/
theorem physics_moves_shared_static_counterexample :
    sharedPositionStore.view._static.map (fun e => (e.guid, e.position)) = [(1, ⟨0, 0⟩)]
    ∧ (Store._physics sharedPositionStore 1 1).status = scene.Status.running
    ∧ (Store._physics sharedPositionStore 1 1).log = []
    ∧ (Store._physics sharedPositionStore 1 1).store.view._static.map
        (fun e => (e.guid, e.position)) = [(1, ⟨0, -9.8⟩)]
    ∧ (Store._physics sharedPositionStore 1 1).store.view._static
        ≠ sharedPositionStore.view._static := by
  have h1 : sharedPositionStore.view._static.map (fun e => (e.guid, e.position))
      = [(1, ⟨0, 0⟩)] := by
    simp [sharedPositionStore, Store.view, Store.deref, Store.add.static, Store.add.dynamic,
      Store.init, exampleVectors, whiteFill]
  have hphys : Store._physics sharedPositionStore 1 1 =
      { store := { sharedPositionStore with
          infos := Function.update sharedPositionStore.infos 0
            { sharedPositionStore.infos 0 with velocity := some ⟨0, -9.8⟩ }
          vectors := Function.update sharedPositionStore.vectors 0 ⟨0, -9.8⟩ }
        log := []
        status := scene.Status.running } := by
    norm_num [Store._physics, scene.forUp, Store.physicsBody, sharedPositionStore, Store.deref,
      Store.add.static, Store.add.dynamic, Store.init, exampleVectors, whiteFill,
      scene.collide, scene.hitTest, scene.orOne, scene._gravityValue, Vector2.add]
  have h2 : (Store._physics sharedPositionStore 1 1).store.view._static.map
      (fun e => (e.guid, e.position)) = [(1, ⟨0, -9.8⟩)] := by
    rw [hphys]
    simp [sharedPositionStore, Store.view, Store.deref, Store.add.static, Store.add.dynamic,
      Store.init, whiteFill]
  refine ⟨h1, by rw [hphys], by rw [hphys], h2, ?_⟩
  intro h
  have := congrArg (List.map fun e : Entity => (e.guid, e.position)) h
  rw [h1, h2] at this
  norm_num at this

/-- C32 as amended: for every store, speed and `deltaTime`, `_physics` keeps the three
arrays (length, order, handles, sizes and the objects the entities hold) and writes only
into position objects of dynamic entities and into the property `velocity` of info objects
of dynamic entities; so a static or ui entity that holds no object of a dynamic entity is
unchanged, and the position of a dynamic entity whose position object no other dynamic
entity holds is as before or has grown by the integration term
`velocity * deltaTime * physicSpeed` of one velocity, which is the velocity of that entity
after the step when no other dynamic entity holds its info object. -/
theorem physics_writes_only_dynamic_objects (m : Store) (physicSpeed deltaTime : ℚ) :
    ((Store._physics m physicSpeed deltaTime).store._dynamic = m._dynamic
      ∧ (Store._physics m physicSpeed deltaTime).store._static = m._static
      ∧ (Store._physics m physicSpeed deltaTime).store._ui = m._ui
      ∧ (Store._physics m physicSpeed deltaTime).store._guid = m._guid)
    ∧ (∀ a, (∀ d ∈ m._dynamic, d.position ≠ a) →
        (Store._physics m physicSpeed deltaTime).store.vectors a = m.vectors a)
    ∧ (∀ a, (∀ d ∈ m._dynamic, d.info ≠ a) →
        (Store._physics m physicSpeed deltaTime).store.infos a = m.infos a)
    ∧ (∀ a, { (Store._physics m physicSpeed deltaTime).store.infos a with velocity := none }
        = { m.infos a with velocity := none })
    ∧ (∀ e ∈ m._static ++ m._ui,
        (∀ d ∈ m._dynamic, d.position ≠ e.position ∧ d.info ≠ e.info) →
        (Store._physics m physicSpeed deltaTime).store.deref e = m.deref e)
    ∧ ((Store._physics m physicSpeed deltaTime).store.view._dynamic.map
          (fun e => (e.guid, e.size))
        = m.view._dynamic.map (fun e => (e.guid, e.size)))
    ∧ (∀ (t : Nat) (e : Slot), m._dynamic[t]? = some e →
        (∀ j d, m._dynamic[j]? = some d → j ≠ t → d.position ≠ e.position) →
        (Store._physics m physicSpeed deltaTime).store.vectors e.position
          = m.vectors e.position
        ∨ ∃ v, (Store._physics m physicSpeed deltaTime).store.vectors e.position
            = (m.vectors e.position).add
              ⟨(v.x * deltaTime) * physicSpeed, (v.y * deltaTime) * physicSpeed⟩
          ∧ ((∀ j d, m._dynamic[j]? = some d → j ≠ t → d.info ≠ e.info) →
            ((Store._physics m physicSpeed deltaTime).store.infos e.info).velocity
              = some v)) := by
  unfold Store._physics
  obtain ⟨hslots, hvec, hinf, hfield⟩ :=
    Store.forUp_physicsBody_writes m physicSpeed deltaTime m._dynamic.length 0
      { store := m, log := [], status := .running }
      ⟨⟨rfl, rfl, rfl, rfl⟩, fun _ _ => rfl, fun _ _ => rfl, fun _ => rfl⟩
  refine ⟨hslots, hvec, hinf, hfield, ?_, ?_, ?_⟩
  · intro e _ hno
    have h1 := hvec e.position (fun d hd => (hno d hd).1)
    have h2 := hinf e.info (fun d hd => (hno d hd).2)
    simp only [Store.deref]
    rw [h1, h2]
  · simp only [Store.view, hslots.1, List.map_map]
    apply List.map_congr_left
    intro e _
    rfl
  · intro t e he hpos
    exact Store.forUp_physicsBody_position m physicSpeed deltaTime t e he hpos _

/-- Witness of C32 as amended: in `separateStore` the static entity holds its own position
and info objects, and the physics step leaves it as it was. -/
theorem physics_writes_only_dynamic_objects_witness :
    separateStore._static = [{ position := 1, size := ⟨10, 10⟩, guid := 1, info := 1 }]
    ∧ (Store._physics separateStore 1 1).store.deref
        { position := 1, size := ⟨10, 10⟩, guid := 1, info := 1 }
      = separateStore.deref { position := 1, size := ⟨10, 10⟩, guid := 1, info := 1 } :=
  ⟨rfl, (physics_writes_only_dynamic_objects separateStore 1 1).2.2.2.2.1
    { position := 1, size := ⟨10, 10⟩, guid := 1, info := 1 }
    (by simp [separateStore, Store.add.static, Store.add.dynamic, Store.init, whiteFill])
    (by simp [separateStore, Store.add.static, Store.add.dynamic, Store.init, whiteFill])⟩

/-! ## The physics step on objects by reference and on values -/

namespace scene

/-- Two ascending loops whose rounds keep a relation between their states keep it. -/
theorem forUp_simulation {σ τ : Type} (R : σ → τ → Prop) (f : Nat → σ → σ)
    (g : Nat → τ → τ) (hstep : ∀ k a b, R a b → R (f k a) (g k b)) (n i : Nat) (a : σ)
    (b : τ) (h : R a b) : R (forUp f n i a) (forUp g n i b) := by
  induction n generalizing i a b with
  | zero => exact h
  | succ n ih =>
    rw [forUp, forUp]
    exact ih (i + 1) (f i a) (g i b) (hstep i a b h)

end scene

namespace Store

/-- In a list of slots without a repeated object, the slots at two different places hold
different objects. -/
theorem object_ne_of_nodup (f : Slot → Nat) (xs : List Slot) (h : (xs.map f).Nodup)
    (i j : Nat) (e e' : Slot) (hi : xs[i]? = some e) (hj : xs[j]? = some e') (hne : j ≠ i) :
    f e' ≠ f e := by
  intro heq
  have h1 : (xs.map f)[i]? = some (f e) := by simp [hi]
  have h2 : (xs.map f)[j]? = some (f e') := by simp [hj]
  have hlen_i : i < (xs.map f).length := by
    rcases List.getElem?_eq_some_iff.mp h1 with ⟨hlt, _⟩
    exact hlt
  have hlen_j : j < (xs.map f).length := by
    rcases List.getElem?_eq_some_iff.mp h2 with ⟨hlt, _⟩
    exact hlt
  rcases Nat.lt_or_gt_of_ne hne with hlt | hgt
  · exact List.nodup_iff_getElem?_ne_getElem?.mp h j i hlt hlen_i (by rw [h1, h2, heq])
  · exact List.nodup_iff_getElem?_ne_getElem?.mp h i j hgt hlen_j (by rw [h1, h2, heq])

/-- In lists of slots without a repeated object, a slot of the first list and a slot of the
second hold different objects. -/
theorem object_ne_of_nodup_append (f : Slot → Nat) (xs ys : List Slot)
    (h : ((xs ++ ys).map f).Nodup) (e e' : Slot) (he : e ∈ xs) (he' : e' ∈ ys) :
    f e' ≠ f e := by
  rw [List.map_append, List.nodup_append] at h
  intro heq
  exact h.2.2 (List.mem_map_of_mem f he) (heq ▸ List.mem_map_of_mem f he')

/-- A write into the position object and the info object of the dynamic entity at index `i`,
in a store in which no two entities hold the same object, changes that entity of the view
and nothing else. -/
theorem view_write (S : Store) (i : Nat) (e : Slot) (p : Vector2) (inf : Info)
    (he : S._dynamic[i]? = some e)
    (hpos : ((S._dynamic ++ (S._static ++ S._ui)).map Slot.position).Nodup)
    (hinfo : ((S._dynamic ++ (S._static ++ S._ui)).map Slot.info).Nodup) :
    ({ S with
        infos := Function.update S.infos e.info inf
        vectors := Function.update S.vectors e.position p } : Store).view
      = { S.view with
          _dynamic := S.view._dynamic.set i
            { position := p, size := e.size, guid := e.guid, info := inf } } := by
  have hmem : e ∈ S._dynamic := List.getElem?_mem he
  have hother : ∀ e' ∈ S._static ++ S._ui,
      ({ S with
        infos := Function.update S.infos e.info inf
        vectors := Function.update S.vectors e.position p } : Store).deref e' = S.deref e' := by
    intro e' he'
    have h1 := object_ne_of_nodup_append Slot.position _ _ hpos e e' hmem he'
    have h2 := object_ne_of_nodup_append Slot.info _ _ hinfo e e' hmem he'
    simp only [deref, Function.update_noteq h1, Function.update_noteq h2]
  have hstatic : S._static.map ({ S with
        infos := Function.update S.infos e.info inf
        vectors := Function.update S.vectors e.position p } : Store).deref
      = S._static.map S.deref :=
    List.map_congr_left fun e' he' => hother e' (List.mem_append_left _ he')
  have hui : S._ui.map ({ S with
        infos := Function.update S.infos e.info inf
        vectors := Function.update S.vectors e.position p } : Store).deref
      = S._ui.map S.deref :=
    List.map_congr_left fun e' he' => hother e' (List.mem_append_right _ he')
  have hdyn : S._dynamic.map ({ S with
        infos := Function.update S.infos e.info inf
        vectors := Function.update S.vectors e.position p } : Store).deref
      = (S._dynamic.map S.deref).set i
          { position := p, size := e.size, guid := e.guid, info := inf } := by
    have hpd : (S._dynamic.map Slot.position).Nodup := by
      rw [List.map_append, List.nodup_append] at hpos
      exact hpos.1
    have hid : (S._dynamic.map Slot.info).Nodup := by
      rw [List.map_append, List.nodup_append] at hinfo
      exact hinfo.1
    apply List.ext_getElem?
    intro j
    rw [List.getElem?_set, List.getElem?_map]
    by_cases hj : i = j
    · subst hj
      rcases List.getElem?_eq_some_iff.mp he with ⟨hlt, _⟩
      simp [he, hlt, deref]
    · rw [if_neg hj, List.getElem?_map]
      cases hje : S._dynamic[j]? with
      | none => rfl
      | some e' =>
        have h1 := object_ne_of_nodup Slot.position _ hpd i j e e' he hje (fun h => hj h.symm)
        have h2 := object_ne_of_nodup Slot.info _ hid i j e e' he hje (fun h => hj h.symm)
        simp only [Option.map_some', deref, Function.update_noteq h1, Function.update_noteq h2]
  simp only [view]
  rw [hstatic, hui, hdyn]

/-- One round of the loop of `_physics`, on a store in which no two entities hold the same
object and on its view: the results agree. -/
theorem physicsBody_view (deltaTime : ℚ) (k : Nat) (st : PhysicsState)
    (vst : scene.PhysicsState)
    (h : vst.scene = st.store.view ∧ vst.log = st.log ∧ vst.status = st.status
      ∧ ((st.store._dynamic ++ (st.store._static ++ st.store._ui)).map Slot.position).Nodup
      ∧ ((st.store._dynamic ++ (st.store._static ++ st.store._ui)).map Slot.info).Nodup) :
    (scene.physicsBody deltaTime k vst).scene
        = (physicsBody scene.init.physicSpeed deltaTime k st).store.view
      ∧ (scene.physicsBody deltaTime k vst).log
        = (physicsBody scene.init.physicSpeed deltaTime k st).log
      ∧ (scene.physicsBody deltaTime k vst).status
        = (physicsBody scene.init.physicSpeed deltaTime k st).status
      ∧ (((physicsBody scene.init.physicSpeed deltaTime k st).store._dynamic
          ++ ((physicsBody scene.init.physicSpeed deltaTime k st).store._static
            ++ (physicsBody scene.init.physicSpeed deltaTime k st).store._ui)).map
          Slot.position).Nodup
      ∧ (((physicsBody scene.init.physicSpeed deltaTime k st).store._dynamic
          ++ ((physicsBody scene.init.physicSpeed deltaTime k st).store._static
            ++ (physicsBody scene.init.physicSpeed deltaTime k st).store._ui)).map
          Slot.info).Nodup := by
  obtain ⟨vscene, vlog, vstatus⟩ := vst
  obtain ⟨S, log, status⟩ := st
  obtain ⟨hs, hl, hst, hp, hi⟩ := h
  simp only at hs hl hst hp hi
  subst hs hl hst
  unfold physicsBody scene.physicsBody
  cases vstatus with
  | threw => exact ⟨rfl, rfl, rfl, hp, hi⟩
  | notFinite => exact ⟨rfl, rfl, rfl, hp, hi⟩
  | running =>
    dsimp only
    have hget : S.view._dynamic[k]? = (S._dynamic[k]?).map S.deref := by
      simp [view]
    rw [hget]
    cases hk : S._dynamic[k]? with
    | none => exact ⟨rfl, rfl, rfl, hp, hi⟩
    | some e =>
      simp only [Option.map_some']
      have hvel : (S.deref e).info.velocity = (S.infos e.info).velocity := rfl
      rw [hvel]
      cases hv : (S.infos e.info).velocity with
      | none => exact ⟨rfl, rfl, rfl, hp, hi⟩
      | some v =>
        dsimp only
        have hfold : S.view._static = S._static.map S.deref := rfl
        rw [hfold]
        have hmg : (S.deref e).info.multiplyGravity = (S.infos e.info).multiplyGravity := rfl
        have hps : S.view.physicSpeed = scene.init.physicSpeed := rfl
        rw [hmg, hps]
        cases hf : List.foldl (scene.collide (S.deref e))
            (some (⟨v.x, v.y - scene._gravityValue
              * scene.orOne (S.infos e.info).multiplyGravity
              * scene.init.physicSpeed⟩, []))
            (S._static.map S.deref) with
        | none => exact ⟨rfl, rfl, rfl, hp, hi⟩
        | some r =>
          obtain ⟨w, events⟩ := r
          dsimp only
          refine ⟨?_, rfl, rfl, hp, hi⟩
          rw [view_write S k e _ _ hk hp hi]
          rfl

/-- Function `_physics` on a store in which no two entities hold the same position object
or the same info object, and on its view: the scene after the step is the view of the
store after the step, with the same calls and the same status. -/
theorem view_physics (m : Store) (deltaTime : ℚ)
    (hpos : ((m._dynamic ++ (m._static ++ m._ui)).map Slot.position).Nodup)
    (hinfo : ((m._dynamic ++ (m._static ++ m._ui)).map Slot.info).Nodup) :
    (scene._physics m.view deltaTime).scene
        = (_physics m scene.init.physicSpeed deltaTime).store.view
      ∧ (scene._physics m.view deltaTime).log
        = (_physics m scene.init.physicSpeed deltaTime).log
      ∧ (scene._physics m.view deltaTime).status
        = (_physics m scene.init.physicSpeed deltaTime).status := by
  have hlen : m.view._dynamic.length = m._dynamic.length := by simp [view]
  have key := scene.forUp_simulation
    (fun (st : PhysicsState) (vst : scene.PhysicsState) =>
      vst.scene = st.store.view ∧ vst.log = st.log ∧ vst.status = st.status
      ∧ ((st.store._dynamic ++ (st.store._static ++ st.store._ui)).map Slot.position).Nodup
      ∧ ((st.store._dynamic ++ (st.store._static ++ st.store._ui)).map Slot.info).Nodup)
    (physicsBody scene.init.physicSpeed deltaTime) (scene.physicsBody deltaTime)
    (fun k st vst h => physicsBody_view deltaTime k st vst h)
    m._dynamic.length 0 { store := m, log := [], status := .running }
    { scene := m.view, log := [], status := .running }
    ⟨rfl, rfl, rfl, hpos, hinfo⟩
  unfold scene._physics _physics
  rw [hlen]
  exact ⟨key.1, key.2.1, key.2.2.1⟩

end Store
